import Mathlib

/-!
# KLM standalone straight-line tracking: driver and efficiency bookkeeping

A shallow embedding of `KLMTrackingModule` (file
`klm/modules/KLMTracking/src/KLMTrackingModule.cc`).

* Hits live in the per-event store `hits2D`; a `KLMHit2d*` of the source is a
  store index (`Nat`) here, so pointer identity is index identity.
* `int` quantities are `Int`, `unsigned` ones are `Nat`. In `generateEffi`,
  `distanceToHit` and `findClosestRecoTrack` the `float`/`double` quantities
  are exact rationals, without rounding; a quotient whose divisor is zero is
  not a finite number: it is `none`, and so is everything computed from it; a
  comparison with it is false.
* In `terminate`, whose results are the stored numbers themselves, every
  operation is a `float` operation: its exact result is rounded to the
  nearest `float` (`roundToFloat`), and infinities and NaN are values
  (`FloatValue`).
* The geometry service and the C library's `sqrt` are parameters.
* The track finder and its fitter (`KLMTrackFinder`, `KLMTrackFitter`) are
  collaborators whose code is not part of this module; they enter as a
  parameter carrying their own state.
* `runTracking` additionally records every invocation of the finder
  (`FinderCall`), which is ghost state used only to state properties.
-/

namespace KLMTracking

/-! ## Data model -/

/-- Modelled from the spec: the subsystem id of the barrel KLM
(`KLMElementNumbers::c_BKLM`), declared in a header that is not part of the
module; only its being different from `c_EKLM` matters. -/
def c_BKLM : Int := 1

/-- Modelled from the spec: the subsystem id of the endcap KLM
(`KLMElementNumbers::c_EKLM`), declared in a header that is not part of the
module. -/
def c_EKLM : Int := 2

/-- The part of a `KLMHit2d` the module reads or writes. -/
structure KLMHit2d where
  getSubdetector : Int
  getSection : Int
  getSector : Int
  getLayer : Int
  getPositionX : ℚ
  getPositionY : ℚ
  getPositionZ : ℚ
  getXStripMin : Int
  getXStripMax : Int
  getYStripMin : Int
  getYStripMax : Int
  isOutOfTime : Bool
  isOnStaTrack : Bool
  deriving DecidableEq, Repr, Inhabited

/-- The setter `KLMHit2d::isOnStaTrack(bool)`. -/
def KLMHit2d.setOnStaTrack (h : KLMHit2d) (v : Bool) : KLMHit2d :=
  { h with isOnStaTrack := v }

/-- The four straight-line parameters `TrackParam[0..3]`. -/
structure TrackParam where
  p0 : ℚ
  p1 : ℚ
  p2 : ℚ
  p3 : ℚ
  deriving DecidableEq, Repr, Inhabited

/-- What the driver copies from the fitter into a new track. -/
structure FitSummary where
  getTrackParam : TrackParam
  getTrackParamErr : TrackParam
  getChi2 : ℚ
  getNumHit : Int
  isValid : Bool
  isGood : Bool
  deriving DecidableEq, Repr, Inhabited

/-- A persisted `KLMTrack`: the fit summary, the relations to hits in the
order in which `addRelationTo` was called, and the per-subsystem counts. -/
structure KLMTrack where
  fit : FitSummary
  relatedHit2D : List Nat
  nBKLM : Nat
  nEKLM : Nat
  deriving DecidableEq, Repr, Inhabited

/-- The module parameters registered in the constructor. -/
structure Params where
  m_MatchToRecoTrack : Bool
  m_maxAngleRequired : ℚ
  m_maxDistance : ℚ
  m_maxSigma : ℚ
  m_minHitList : Nat
  m_maxHitList : Nat
  m_minNLayer : Int
  m_studyEffi : Bool
  deriving DecidableEq, Repr, Inhabited

/-- The default values given to `addParam` in the constructor. -/
def Params.default : Params :=
  { m_MatchToRecoTrack := false
    m_maxAngleRequired := 10
    m_maxDistance := 10
    m_maxSigma := 5
    m_minHitList := 2
    m_maxHitList := 60
    m_minNLayer := 4
    m_studyEffi := false }

/-- The finder together with its registered fitter, as seen by the driver:
`filter st hits seed pool iSubdetector` returns the new finder state, the
verdict, and the accepted hit list `m_hits`; `getFit` reads the fitter's
getters. The finder reads the hits but does not modify the store. -/
structure KLMTrackFinder (σ : Type) where
  filter : σ → List KLMHit2d → List Nat → List Nat → Int → σ × Bool × List Nat
  getFit : σ → FitSummary

/-- Ghost record of one invocation of `m_finder->filter`: the two seed
indices, the pool `sectorHitList`, the hit store at that moment, and what the
finder answered (its verdict and the list `m_hits` it filled). -/
structure FinderCall where
  hi : Nat
  hj : Nat
  sectorHitList : List Nat
  store : List KLMHit2d
  accepted : Bool
  m_hits : List Nat
  deriving DecidableEq, Repr

/-- The state the driver works on. -/
structure TrackingState (σ : Type) where
  hits2D : List KLMHit2d
  m_storeTracks : List KLMTrack
  m_finder : σ
  finderCalls : List FinderCall

/-- The access `hits2D[i]`; the index is always in range where the driver
uses it. -/
def hitAt (hits : List KLMHit2d) (i : Nat) : KLMHit2d :=
  hits.getD i default

/-! ## Predicates of the module -/

/-- `KLMTrackingModule::sameSector`. -/
def sameSector (hit1 hit2 : KLMHit2d) : Bool :=
  if hit1.getSection = hit2.getSection ∧ hit1.getSector = hit2.getSector then true
  else false

/-- `KLMTrackingModule::sortByLayer`. -/
def sortByLayer (hit1 hit2 : KLMHit2d) : Bool :=
  decide (hit1.getLayer < hit2.getLayer)

/-- `KLMTrackingModule::isLayerUnderStudy`. -/
def isLayerUnderStudy (sec iSector iLayer : Int) (hit : KLMHit2d) : Bool :=
  if hit.getSection = sec ∧ hit.getSector = iSector + 1 ∧ hit.getLayer = iLayer + 1 then true
  else false

/-- `KLMTrackingModule::isSectorUnderStudy`. -/
def isSectorUnderStudy (sec iSector : Int) (hit : KLMHit2d) : Bool :=
  if hit.getSection = sec ∧ hit.getSector = iSector + 1 then true
  else false

/-! ## `runTracking` -/

/-- The body of the pool loop over `ho`: `true` when `hits2D[ho]` is pushed
onto `sectorHitList`. Each `continue` of the source is one conjunct, in
order; the two mode-1 tests on the layer and sector under study read
`hits2D[hj]`, as the source does. -/
def poolAccepts (mode iSubdetector iSection iSector iLayer : Int)
    (hits : List KLMHit2d) (hi hj ho : Nat) : Bool :=
  !(ho == hi || ho == hj) &&
  !(mode == 1 && ((hitAt hits ho).getSubdetector != iSubdetector)) &&
  !(mode == 1 && isLayerUnderStudy iSection iSector iLayer (hitAt hits hj)) &&
  !(mode == 1 && !isSectorUnderStudy iSection iSector (hitAt hits hj)) &&
  !(hitAt hits ho).isOnStaTrack &&
  !(mode == 1 && !sameSector (hitAt hits ho) (hitAt hits hi)) &&
  !(hitAt hits ho).isOutOfTime

/-- The pool `sectorHitList` built for the seed pair `(hi, hj)`: the
accepted `ho`, in increasing store order. -/
def buildPool (mode iSubdetector iSection iSector iLayer : Int)
    (hits : List KLMHit2d) (hi hj : Nat) : List Nat :=
  (List.range hits.length).filter
    (poolAccepts mode iSubdetector iSection iSector iLayer hits hi hj)

/-- The order used by `m_hits.sort(sortByLayer)`: `std::list::sort` is a
stable sort, it keeps `a` before `b` unless `sortByLayer(b, a)`. -/
def layerLE (hits : List KLMHit2d) (a b : Nat) : Prop :=
  sortByLayer (hitAt hits b) (hitAt hits a) = false

instance (hits : List KLMHit2d) : DecidableRel (layerLE hits) :=
  fun _ _ => inferInstanceAs (Decidable (_ = false))

instance layerLE_isTotal (hits : List KLMHit2d) : IsTotal Nat (layerLE hits) :=
  ⟨fun a b => by
    unfold layerLE sortByLayer
    simp only [decide_eq_false_iff_not, not_lt]
    exact le_total _ _⟩

instance layerLE_isTrans (hits : List KLMHit2d) : IsTrans Nat (layerLE hits) :=
  ⟨fun a b c => by
    unfold layerLE sortByLayer
    simp only [decide_eq_false_iff_not, not_lt]
    exact le_trans⟩

/-- The stable sort `m_hits.sort(sortByLayer)`. -/
def sortHits (hits : List KLMHit2d) (m_hits : List Nat) : List Nat :=
  m_hits.insertionSort (layerLE hits)

/-- One pass of the loop over the sorted `m_hits`: `(*j)->isOnStaTrack(true)`. -/
def markOnStaTrack (hits : List KLMHit2d) (m_hits : List Nat) : List KLMHit2d :=
  m_hits.foldl (fun hs j => hs.modify (fun h => h.setOnStaTrack true) j) hits

/-- The counter `nBKLM` after the loop over `m_hits`. -/
def countBKLM (hits : List KLMHit2d) (m_hits : List Nat) : Nat :=
  (m_hits.filter (fun j => (hitAt hits j).getSubdetector == c_BKLM)).length

/-- The counter `nEKLM` after the loop over `m_hits`. -/
def countEKLM (hits : List KLMHit2d) (m_hits : List Nat) : Nat :=
  (m_hits.filter (fun j => (hitAt hits j).getSubdetector != c_BKLM &&
    (hitAt hits j).getSubdetector == c_EKLM)).length

/-- The body of the loop over `hj` for a fixed `hi`. The relation of a new
track to a matched `RecoTrack` (mode 0, `m_MatchToRecoTrack`) touches neither
the hits nor the hit relations and is left out. -/
def seedStep {σ : Type} (P : Params) (F : KLMTrackFinder σ)
    (mode iSubdetector iSection iSector iLayer : Int) (hi : Nat)
    (st : TrackingState σ) (hj : Nat) : TrackingState σ :=
  let hits := st.hits2D
  if (hitAt hits hj).isOnStaTrack then st
  else if (hitAt hits hj).isOutOfTime then st
  else if (hitAt hits hi).getSubdetector ≠ (hitAt hits hj).getSubdetector then st
  else if sameSector (hitAt hits hi) (hitAt hits hj) = true ∧
      |(hitAt hits hi).getLayer - (hitAt hits hj).getLayer| < 3 then st
  else
    let sectorHitList := buildPool mode iSubdetector iSection iSector iLayer hits hi hj
    if sectorHitList.length < P.m_minHitList ∨ sectorHitList.length > P.m_maxHitList then st
    else
      let r := F.filter st.m_finder hits [hi, hj] sectorHitList iSubdetector
      let call : FinderCall :=
        { hi := hi, hj := hj, sectorHitList := sectorHitList, store := hits,
          accepted := r.2.1, m_hits := r.2.2 }
      if r.2.1 then
        let m_hits := sortHits hits r.2.2
        { hits2D := markOnStaTrack hits m_hits
          m_storeTracks := st.m_storeTracks ++
            [{ fit := F.getFit r.1, relatedHit2D := m_hits,
               nBKLM := countBKLM hits m_hits, nEKLM := countEKLM hits m_hits }]
          m_finder := r.1
          finderCalls := st.finderCalls ++ [call] }
      else
        { st with m_finder := r.1, finderCalls := st.finderCalls ++ [call] }

/-- The body of the loop over `hi`. -/
def outerStep {σ : Type} (P : Params) (F : KLMTrackFinder σ)
    (mode iSubdetector iSection iSector iLayer : Int)
    (st : TrackingState σ) (hi : Nat) : TrackingState σ :=
  let hits := st.hits2D
  if (hitAt hits hi).getSubdetector ≠ iSubdetector then st
  else if mode = 1 ∧ isLayerUnderStudy iSection iSector iLayer (hitAt hits hi) = true then st
  else if mode = 1 ∧ isSectorUnderStudy iSection iSector (hitAt hits hi) = false then st
  else if (hitAt hits hi).isOnStaTrack then st
  else if (hitAt hits hi).isOutOfTime then st
  else
    (List.range' (hi + 1) (hits.length - (hi + 1))).foldl
      (seedStep P F mode iSubdetector iSection iSector iLayer hi) st

/-- The mode-1 prologue: clear the on-track flag of the hits of the target
subsystem. -/
def resetOnStaTrack (iSubdetector : Int) (hits : List KLMHit2d) : List KLMHit2d :=
  hits.map (fun h => if h.getSubdetector ≠ iSubdetector then h else h.setOnStaTrack false)

/-- `KLMTrackingModule::runTracking(mode, iSubdetector, iSection, iSector, iLayer)`
on the hit store `hits2D`, the already persisted tracks `tracks` and the
freshly created finder in state `s0`. -/
def runTracking {σ : Type} (P : Params) (F : KLMTrackFinder σ) (s0 : σ)
    (mode iSubdetector iSection iSector iLayer : Int)
    (hits2D : List KLMHit2d) (tracks : List KLMTrack) : TrackingState σ :=
  let st0 : TrackingState σ :=
    { hits2D := hits2D, m_storeTracks := tracks, m_finder := s0, finderCalls := [] }
  if hits2D.length < 1 then st0
  else
    let st1 : TrackingState σ :=
      if mode = 1 then { st0 with hits2D := resetOnStaTrack iSubdetector hits2D } else st0
    (List.range (hits2D.length - 1)).foldl
      (outerStep P F mode iSubdetector iSection iSector iLayer) st1

/-! ## `generateEffi` -/

/-- A point or vector with three coordinates (`Hep3Vector`), indexed
`[0]`, `[1]`, `[2]` in the source. -/
structure Vec3 where
  x : ℚ
  y : ℚ
  z : ℚ
  deriving DecidableEq, Repr, Inhabited

/-- The part of a `bklm::Module` the module uses. -/
structure Module where
  getPhiStripMin : Int
  getPhiStripMax : Int
  getZStripMin : Int
  getZStripMax : Int
  getLocalPosition : Int → Int → Vec3
  globalToLocal : Vec3 → Vec3
  localToGlobal : Vec3 → Vec3
  isFlipped : Bool
  getPhiStripWidth : ℚ
  getZStripWidth : ℚ

/-- The geometry service `m_GeoPar`: the barrel lookups, and for the endcap
the strip width `getStripGeometry()->getWidth() * (Unit::cm / CLHEP::cm)`. -/
structure GeometryPar where
  findModule : Int → Int → Int → Module
  getActiveMiddleRadius : Int → Int → Int → ℚ
  eklmStripWidth : ℚ

/-- The run-scoped histograms. A histogram is the list of the values it was
filled with, latest last; `m_total[iSection][iSector]` and its siblings are
kept in one list, each entry tagged with `(iSection, iSector)`. -/
structure EfficiencyAccumulator where
  m_total : List (Int × Int × Int)
  m_pass : List (Int × Int × Int)
  m_totalYX : List (ℚ × ℚ)
  m_totalYZ : List (ℚ × ℚ)
  m_passYX : List (ℚ × ℚ)
  m_passYZ : List (ℚ × ℚ)
  m_effiVsLayer : List (Int × Int × Bool × Int)
  deriving DecidableEq, Repr, Inhabited

/-- The state of one call of `generateEffi`: the histograms, the set
`m_pointUsed`, and whether the function has returned from inside the loop
over the tracks. -/
structure EffiState where
  acc : EfficiencyAccumulator
  m_pointUsed : List Nat
  returned : Bool
  deriving DecidableEq, Repr, Inhabited

/-- A quotient of two floating-point numbers; not finite when the divisor
is zero. -/
def fdiv (a b : ℚ) : Option ℚ :=
  if b = 0 then none else some (a / b)

/-- `DBL_MAX`. -/
def DBL_MAX : ℚ := 2 ^ 1024 - 2 ^ 971

/-- `KLMTrackingModule::distanceToHit`: the returned distance and the
output arguments `error` and `sigma`. The distance is not finite when
`TrackParam[3]` is zero; the strip errors divide by `sqrt 12`, which is not
zero for the library's root. -/
def distanceToHit (G : GeometryPar) (sqrt : ℚ → ℚ) (track : KLMTrack) (hit : KLMHit2d) :
    Option ℚ × ℚ × Option ℚ :=
  let m_GlobalPar := track.fit.getTrackParam
  let r : Option ℚ × ℚ :=
    if hit.getSubdetector = c_BKLM then
      let corMod := G.findModule hit.getSection hit.getSector hit.getLayer
      let z := hit.getPositionZ
      let distance := (fdiv (z - m_GlobalPar.p2) m_GlobalPar.p3).map (fun x =>
        let y := m_GlobalPar.p0 + x * m_GlobalPar.p1
        let dx := x - hit.getPositionX
        let dy := y - hit.getPositionY
        let dz := z - hit.getPositionZ
        sqrt (dx * dx + dy * dy + dz * dz))
      let hit_localPhiErr := corMod.getPhiStripWidth / sqrt 12
      let hit_localZErr := corMod.getZStripWidth / sqrt 12
      (distance, sqrt (hit_localPhiErr ^ 2 + hit_localZErr ^ 2))
    else if hit.getSubdetector = c_EKLM then
      let z := hit.getPositionZ
      let distance := (fdiv (z - m_GlobalPar.p2) m_GlobalPar.p3).map (fun x =>
        let y := m_GlobalPar.p0 + x * m_GlobalPar.p1
        let dx := x - hit.getPositionX
        let dy := y - hit.getPositionY
        let dz : ℚ := 0
        sqrt (dx * dx + dy * dy + dz * dz))
      let hit_xErr := G.eklmStripWidth * (hit.getXStripMax - hit.getXStripMin) / sqrt 12
      let hit_yErr := G.eklmStripWidth * (hit.getYStripMax - hit.getYStripMin) / sqrt 12
      (distance, sqrt (hit_xErr ^ 2 + hit_yErr ^ 2))
    else
      (some (-1), DBL_MAX)
  let sigma : Option ℚ := if r.2 ≠ 0 then r.1.map (fun d => d / r.2) else some DBL_MAX
  (r.1, r.2, sigma)

/-- The outcome of the layer checks made for one track. -/
inductive LayerCheck where
  | skipTrack
  | returnNow
  | pass
  deriving DecidableEq, Repr

/-- The hits of the track, of the subsystem, on layers above the studied
one: they are what `cnt1` counts. -/
def hitsAbove (hits : List KLMHit2d) (iSubdetector iLayer : Int) (t : KLMTrack) : List Nat :=
  t.relatedHit2D.filter (fun j => (hitAt hits j).getSubdetector == iSubdetector &&
    decide ((hitAt hits j).getLayer > iLayer + 1))

/-- The hits of the track, of the subsystem, on layers below the studied
one: they are what `cnt2` counts. -/
def hitsBelow (hits : List KLMHit2d) (iSubdetector iLayer : Int) (t : KLMTrack) : List Nat :=
  t.relatedHit2D.filter (fun j => (hitAt hits j).getSubdetector == iSubdetector &&
    decide ((hitAt hits j).getLayer < iLayer + 1))

/-- The set `layerList` after the loop over the related hits: the distinct
layers, other than the studied one, of the track's hits of the subsystem. -/
def layerList (hits : List KLMHit2d) (iSubdetector iLayer : Int) (t : KLMTrack) : List Int :=
  ((t.relatedHit2D.filter (fun j => (hitAt hits j).getSubdetector == iSubdetector &&
    ((hitAt hits j).getLayer != iLayer + 1))).map (fun j => (hitAt hits j).getLayer)).dedup

/-- The three tests made on a track before any geometry is looked at. -/
def layerCheck (P : Params) (hits : List KLMHit2d) (iSubdetector iLayer : Int)
    (t : KLMTrack) : LayerCheck :=
  if ((layerList hits iSubdetector iLayer t).length : Int) < P.m_minNLayer then .skipTrack
  else if iLayer ≠ 0 ∧ (hitsBelow hits iSubdetector iLayer t).length < 1 then .returnNow
  else if iLayer ≠ 14 ∧ (hitsAbove hits iSubdetector iLayer t).length < 1 then .returnNow
  else .pass

/-- The bounds `minLocalY`, `maxLocalY`, `minLocalZ`, `maxLocalZ` of the
geometry cut. -/
structure AcceptanceBox where
  minLocalY : ℚ
  maxLocalY : ℚ
  minLocalZ : ℚ
  maxLocalZ : ℚ
  deriving DecidableEq, Repr, Inhabited

/-- The acceptance box of the studied module, from the local positions of
its two extreme strip corners. -/
def acceptanceBox (G : GeometryPar) (iSection iSector iLayer : Int) : AcceptanceBox :=
  let module := G.findModule iSection (iSector + 1) (iLayer + 1)
  let loc := module.getLocalPosition module.getPhiStripMin module.getZStripMin
  let loc2 := module.getLocalPosition module.getPhiStripMax module.getZStripMax
  let ys : ℚ × ℚ := if loc.y > loc2.y then (loc.y, loc2.y) else (loc2.y, loc.y)
  let zs : ℚ × ℚ := if loc.z > loc2.z then (loc.z, loc2.z) else (loc2.z, loc.z)
  { maxLocalY := ys.1, minLocalY := ys.2, maxLocalZ := zs.1, minLocalZ := zs.2 }

/-- The predicted position of the track on the studied layer: the point
`global` and its image `(localX, localY, localZ)` in the studied module's
frame; `none` when the slope along the reference `x` axis is zero. -/
def predict (G : GeometryPar) (iSection iSector iLayer : Int) (t : KLMTrack) :
    Option (Vec3 × Vec3) :=
  let module := G.findModule iSection (iSector + 1) (iLayer + 1)
  let refmodule := G.findModule iSection (iSector + 1) 1
  let trkPar := t.fit.getTrackParam
  let point1 : Vec3 := ⟨0, trkPar.p0, trkPar.p2⟩
  let point2 : Vec3 := ⟨1, trkPar.p0 + trkPar.p1, trkPar.p2 + trkPar.p3⟩
  let refPoint1 := refmodule.globalToLocal point1
  let refPoint2 := refmodule.globalToLocal point2
  let refSlope : Vec3 :=
    ⟨refPoint2.x - refPoint1.x, refPoint2.y - refPoint1.y, refPoint2.z - refPoint1.z⟩
  let r := |G.getActiveMiddleRadius iSection (iSector + 1) (iLayer + 1) -
    G.getActiveMiddleRadius iSection (iSector + 1) 1|
  let reflocalX := if refmodule.isFlipped then -r else r
  (fdiv (reflocalX - refPoint1.x) refSlope.x).map (fun X_coord =>
    let reflocalY := refPoint1.y + refSlope.y * X_coord
    let reflocalZ := refPoint1.z + refSlope.z * X_coord
    let global := refmodule.localToGlobal ⟨reflocalX, reflocalY, reflocalZ⟩
    (global, module.globalToLocal global))

/-- The geometry cut on a predicted local position. -/
def insideBox (box : AcceptanceBox) (loc : Vec3) : Bool :=
  decide (loc.y > box.minLocalY ∧ loc.y < box.maxLocalY ∧
    loc.z > box.minLocalZ ∧ loc.z < box.maxLocalZ)

/-- The body of the loop over `he` up to the test: `true` when the hit is
in the studied layer, in time, not yet used, and within both windows. -/
def hitMatches (P : Params) (G : GeometryPar) (sqrt : ℚ → ℚ) (hits : List KLMHit2d)
    (iSection iSector iLayer : Int) (used : List Nat) (t : KLMTrack) (he : Nat) : Bool :=
  isLayerUnderStudy iSection iSector iLayer (hitAt hits he) &&
  !(hitAt hits he).isOutOfTime &&
  !(decide (he ∈ used)) &&
  (match distanceToHit G sqrt t (hitAt hits he) with
   | (some distance, _, some sigma) =>
     decide (distance < P.m_maxDistance) && decide (sigma < P.m_maxSigma)
   | _ => false)

/-- The body of the loop over the tracks for a track that was not skipped:
the geometry cut and, inside it, the fills and the scan of the hits. -/
def evaluateTrack (P : Params) (G : GeometryPar) (sqrt : ℚ → ℚ) (hits : List KLMHit2d)
    (iSubdetector iSection iSector iLayer : Int) (st : EffiState) (t : KLMTrack) :
    EffiState :=
  if iSubdetector = c_BKLM then
    match predict G iSection iSector iLayer t with
    | none => st
    | some (global, loc) =>
      if insideBox (acceptanceBox G iSection iSector iLayer) loc then
        let acc1 : EfficiencyAccumulator :=
          { st.acc with
            m_total := st.acc.m_total ++ [(iSection, iSector, iLayer + 1)]
            m_totalYX := st.acc.m_totalYX ++ [(global.x, global.y)]
            m_totalYZ := st.acc.m_totalYZ ++ [(global.z, global.y)] }
        match (List.range hits.length).find?
            (hitMatches P G sqrt hits iSection iSector iLayer st.m_pointUsed t) with
        | some he =>
          { st with
            m_pointUsed := st.m_pointUsed ++ [he]
            acc :=
              { acc1 with
                m_pass := acc1.m_pass ++ [(iSection, iSector, iLayer + 1)]
                m_passYX := acc1.m_passYX ++ [(global.x, global.y)]
                m_passYZ := acc1.m_passYZ ++ [(global.z, global.y)]
                m_effiVsLayer := acc1.m_effiVsLayer ++ [(iSection, iSector, true, iLayer + 1)] } }
        | none =>
          { st with
            acc :=
              { acc1 with
                m_effiVsLayer :=
                  acc1.m_effiVsLayer ++ [(iSection, iSector, false, iLayer + 1)] } }
      else st
  else st

/-- The body of the loop over the tracks. -/
def trackStep (P : Params) (G : GeometryPar) (sqrt : ℚ → ℚ) (hits : List KLMHit2d)
    (iSubdetector iSection iSector iLayer : Int) (st : EffiState) (t : KLMTrack) :
    EffiState :=
  if st.returned then st
  else
    match layerCheck P hits iSubdetector iLayer t with
    | .skipTrack => st
    | .returnNow => { st with returned := true }
    | .pass => evaluateTrack P G sqrt hits iSubdetector iSection iSector iLayer st t

/-- `KLMTrackingModule::generateEffi(iSubdetector, iSection, iSector, iLayer)`
on the hit store, the persisted tracks and the histograms `acc`. -/
def generateEffi (P : Params) (G : GeometryPar) (sqrt : ℚ → ℚ) (hits : List KLMHit2d)
    (tracks : List KLMTrack) (iSubdetector iSection iSector iLayer : Int)
    (acc : EfficiencyAccumulator) : EffiState :=
  let st0 : EffiState := { acc := acc, m_pointUsed := [], returned := false }
  if tracks.length < 1 then st0
  else tracks.foldl (trackStep P G sqrt hits iSubdetector iSection iSector iLayer) st0

/-! ## `terminate` -/

/-- A value of type `float`: a finite number, an infinity or a NaN. The two
zeros are not told apart; a zero divisor counts as `+0`, which is what a
product of non-negative factors gives. -/
inductive FloatValue where
  | finite (q : ℚ)
  | posInf
  | negInf
  | nan
  deriving DecidableEq, Repr

/-- The integer nearest to `y`, the even one of the two when `y` lies
halfway. -/
def roundEven (y : ℚ) : Int :=
  if y - ⌊y⌋ < 1 / 2 then ⌊y⌋
  else if 1 / 2 < y - ⌊y⌋ then ⌊y⌋ + 1
  else if ⌊y⌋ % 2 = 0 then ⌊y⌋
  else ⌊y⌋ + 1

/-- The binary exponent of the last place of the `float`s around `x ≠ 0`:
24 significant bits from `2^-126` on, multiples of `2^-149` below. -/
def ulpExponent (x : ℚ) : Int := max (Int.log 2 |x| - 23) (-149)

/-- The `float` that an operation with the exact result `x` delivers: `x`
rounded to the nearest `float`, ties to even, and an infinity when the
rounded magnitude reaches `2^128`. -/
def roundToFloat (x : ℚ) : FloatValue :=
  if x = 0 then .finite 0
  else if |(roundEven (x / 2 ^ ulpExponent x) : ℚ) * 2 ^ ulpExponent x| < 2 ^ 128 then
    .finite ((roundEven (x / 2 ^ ulpExponent x) : ℚ) * 2 ^ ulpExponent x)
  else if 0 < x then .posInf
  else .negInf

/-- The test `a > 0`. -/
def FloatValue.isPositive : FloatValue → Bool
  | .finite q => decide (0 < q)
  | .posInf => true
  | _ => false

/-- The difference `a - b` of two `float`s. -/
def FloatValue.sub : FloatValue → FloatValue → FloatValue
  | .finite x, .finite y => roundToFloat (x - y)
  | .finite _, .posInf => .negInf
  | .finite _, .negInf => .posInf
  | .posInf, .finite _ => .posInf
  | .posInf, .negInf => .posInf
  | .negInf, .finite _ => .negInf
  | .negInf, .posInf => .negInf
  | _, _ => .nan

/-- The sign of a `float`, 0 for a zero and for a NaN. -/
def FloatValue.sign : FloatValue → Int
  | .finite q => if 0 < q then 1 else if q < 0 then -1 else 0
  | .posInf => 1
  | .negInf => -1
  | .nan => 0

/-- The product `a * b` of two `float`s. -/
def FloatValue.mul : FloatValue → FloatValue → FloatValue
  | .finite x, .finite y => roundToFloat (x * y)
  | .nan, _ => .nan
  | _, .nan => .nan
  | a, b =>
    if a.sign * b.sign = 0 then .nan
    else if 0 < a.sign * b.sign then .posInf
    else .negInf

/-- The quotient `a / b` of two `float`s. -/
def FloatValue.div : FloatValue → FloatValue → FloatValue
  | .finite x, .finite y =>
    if y = 0 then
      if x = 0 then .nan else if 0 < x then .posInf else .negInf
    else roundToFloat (x / y)
  | .finite _, .posInf => .finite 0
  | .finite _, .negInf => .finite 0
  | .posInf, .finite y => if y < 0 then .negInf else .posInf
  | .negInf, .finite y => if y < 0 then .posInf else .negInf
  | _, _ => .nan

/-- The call `sqrt(a)`, given the library's root `sqrt` on the non-negative
finite numbers. -/
def FloatValue.sqrt (sqrt : ℚ → ℚ) : FloatValue → FloatValue
  | .finite q => if q < 0 then .nan else .finite (sqrt q)
  | .posInf => .posInf
  | _ => .nan

/-- The efficiency content and error that `terminate` stores for one bin
whose pass and total histograms return the whole numbers `pass` and `total`
from `GetBinContent`; `num` and `denom` are their conversions to `float`,
and every operation on them is a `float` operation. -/
def effiBin (sqrt : ℚ → ℚ) (pass total : Nat) : FloatValue × FloatValue :=
  let num := roundToFloat pass
  let denom := roundToFloat total
  if num.isPositive then
    (num.div denom,
     FloatValue.sqrt sqrt ((num.mul (denom.sub num)).div ((denom.mul denom).mul denom)))
  else (.finite 0, .finite 0)

/-- The four position maps `terminate` reads, given by the whole numbers
that `GetBinContent(binx, biny)` returns for histograms filled one entry at
a time, and their common number of bins per axis. -/
structure PositionMaps where
  nbinsX : Nat
  nbinsY : Nat
  m_passYX : Nat → Nat → Nat
  m_totalYX : Nat → Nat → Nat
  m_passYZ : Nat → Nat → Nat
  m_totalYZ : Nat → Nat → Nat

/-- The maps `m_effiYX` and `m_effiYZ` after the double loop of `terminate`:
content and error of bin `(binx, biny)`. The loop visits `binx = i + 1`,
`biny = j + 1` for `i < nbinsX`, `j < nbinsY`; the other bins keep the zero
content and error of a new histogram. -/
def terminate (sqrt : ℚ → ℚ) (m : PositionMaps) (binx biny : Nat) :
    (FloatValue × FloatValue) × (FloatValue × FloatValue) :=
  if 1 ≤ binx ∧ binx ≤ m.nbinsX ∧ 1 ≤ biny ∧ biny ≤ m.nbinsY then
    (effiBin sqrt (m.m_passYX binx biny) (m.m_totalYX binx biny),
     effiBin sqrt (m.m_passYZ binx biny) (m.m_totalYZ binx biny))
  else ((.finite 0, .finite 0), (.finite 0, .finite 0))

/-- The position maps that hold the fills of `acc`. The four maps have the
same axes, so one function `findBin` gives the bin of a filled point; the
content of a bin is the number of its fills, and since the content is a
`float` incremented by one per fill it stays at `2^24` once it is there. -/
def positionMapsOf (nbinsX nbinsY : Nat) (findBin : ℚ × ℚ → Nat × Nat)
    (acc : EfficiencyAccumulator) : PositionMaps :=
  { nbinsX := nbinsX
    nbinsY := nbinsY
    m_passYX := fun binx biny =>
      min (acc.m_passYX.countP (fun v => findBin v == (binx, biny))) (2 ^ 24)
    m_totalYX := fun binx biny =>
      min (acc.m_totalYX.countP (fun v => findBin v == (binx, biny))) (2 ^ 24)
    m_passYZ := fun binx biny =>
      min (acc.m_passYZ.countP (fun v => findBin v == (binx, biny))) (2 ^ 24)
    m_totalYZ := fun binx biny =>
      min (acc.m_totalYZ.countP (fun v => findBin v == (binx, biny))) (2 ^ 24) }

/-! ## Specification vocabulary -/

/-- Two stores of the same size whose hits agree up to the on-track flag. -/
def Frame (H hs : List KLMHit2d) : Prop :=
  hs.length = H.length ∧
    ∀ i, (hitAt hs i).setOnStaTrack false = (hitAt H i).setOnStaTrack false

/-- What the guards of `runTracking` establish for a recorded finder call,
all of it read in the store as it was when the finder was invoked. -/
structure CallOK {σ : Type} (P : Params) (F : KLMTrackFinder σ)
    (mode iSubdetector iSection iSector iLayer : Int) (H : List KLMHit2d)
    (c : FinderCall) : Prop where
  frame : Frame H c.store
  lt : c.hi < c.hj
  bound : c.hj < c.store.length
  hiSub : (hitAt c.store c.hi).getSubdetector = iSubdetector
  hiLayer : mode = 1 → isLayerUnderStudy iSection iSector iLayer (hitAt c.store c.hi) = false
  hiSector : mode = 1 → isSectorUnderStudy iSection iSector (hitAt c.store c.hi) = true
  hiTime : (hitAt c.store c.hi).isOutOfTime = false
  hjTrack : (hitAt c.store c.hj).isOnStaTrack = false
  hjTime : (hitAt c.store c.hj).isOutOfTime = false
  hjSub : (hitAt c.store c.hj).getSubdetector = iSubdetector
  seedApart : ¬ (sameSector (hitAt c.store c.hi) (hitAt c.store c.hj) = true ∧
    |(hitAt c.store c.hi).getLayer - (hitAt c.store c.hj).getLayer| < 3)
  pool : c.sectorHitList = buildPool mode iSubdetector iSection iSector iLayer c.store c.hi c.hj
  poolMin : P.m_minHitList ≤ c.sectorHitList.length
  poolMax : c.sectorHitList.length ≤ P.m_maxHitList
  verdict : ∃ s, (F.filter s c.store [c.hi, c.hj] c.sectorHitList iSubdetector).2 =
    (c.accepted, c.m_hits)

/-- What the guards of the loop over `hi` establish about `hits2D[hi]`, for
the attributes that no later step changes. -/
def OuterOK (mode iSubdetector iSection iSector iLayer : Int) (H : List KLMHit2d)
    (hi : Nat) : Prop :=
  (hitAt H hi).getSubdetector = iSubdetector ∧
  (mode = 1 → isLayerUnderStudy iSection iSector iLayer (hitAt H hi) = false) ∧
  (mode = 1 → isSectorUnderStudy iSection iSector (hitAt H hi) = true) ∧
  (hitAt H hi).isOutOfTime = false

/-- The invariant of both loops of `runTracking`, relative to the store `H`
the call received and the tracks `T0` present before the call. -/
def Inv {σ : Type} (P : Params) (F : KLMTrackFinder σ)
    (mode iSubdetector iSection iSector iLayer : Int) (H : List KLMHit2d)
    (T0 : List KLMTrack) (st : TrackingState σ) : Prop :=
  Frame H st.hits2D ∧
  (∀ c ∈ st.finderCalls, CallOK P F mode iSubdetector iSection iSector iLayer H c) ∧
  ∃ new, st.m_storeTracks = T0 ++ new ∧
    new.map (fun t => t.relatedHit2D) =
      (st.finderCalls.filter (fun c => c.accepted)).map (fun c => sortHits c.store c.m_hits)

/-- The tracks that a call of `runTracking` appended to `tracks` come one
per accepted finder call, in the order of the calls, and `Q t c` holds of
each new track `t` and of the call `c` that created it. -/
def TracksFromCalls {σ : Type} (tracks : List KLMTrack) (st : TrackingState σ)
    (Q : KLMTrack → FinderCall → Prop) : Prop :=
  ∃ new, st.m_storeTracks = tracks ++ new ∧
    List.Forall₂ Q new (st.finderCalls.filter (fun c => c.accepted))

/-! ## Concrete inputs -/

/-- A hit in time, not on a track, at the origin, with the given subsystem,
section, sector and layer. -/
def mkHit (sub sec sector layer : Int) : KLMHit2d :=
  { getSubdetector := sub, getSection := sec, getSector := sector, getLayer := layer,
    getPositionX := 0, getPositionY := 0, getPositionZ := 0,
    getXStripMin := 0, getXStripMax := 0, getYStripMin := 0, getYStripMax := 0,
    isOutOfTime := false, isOnStaTrack := false }

/-- A finder that accepts every candidate and returns the two seed hits
followed by the first two hits of the pool. -/
def takeTwoFinder : KLMTrackFinder Unit :=
  { filter := fun _ _ seed pool _ => ((), true, seed ++ pool.take 2)
    getFit := fun _ => default }

/-- Seven barrel hits of section 0: four in sector 1 (layers 1, 4, 7, 10)
and three in sector 2 (layers 1, 4, 7). -/
def store7 : List KLMHit2d :=
  [mkHit 1 0 1 1, mkHit 1 0 1 4, mkHit 1 0 1 7, mkHit 1 0 1 10,
   mkHit 1 0 2 1, mkHit 1 0 2 4, mkHit 1 0 2 7]

/-- The first finder call of `runTracking` on `store7` in mode 0. -/
def store7FirstCall : FinderCall :=
  { hi := 0, hj := 1, sectorHitList := [2, 3, 4, 5, 6], store := store7, accepted := true,
    m_hits := [0, 1, 2, 3] }

/-- Four barrel hits of section 0, sector 1, on layers 1, 5, 3, 7. -/
def studyStore : List KLMHit2d :=
  [mkHit 1 0 1 1, mkHit 1 0 1 5, mkHit 1 0 1 3, mkHit 1 0 1 7]

/-- The only finder call of `runTracking` on `studyStore`. -/
def studyStoreCall : FinderCall :=
  { hi := 0, hj := 1, sectorHitList := [2, 3], store := studyStore, accepted := true,
    m_hits := [0, 1, 2, 3] }

/-- Three barrel hits (layers 1, 5, 9) and, at index 2, an endcap hit. -/
def mixedStore : List KLMHit2d :=
  [mkHit 1 0 1 1, mkHit 1 0 1 5, mkHit 2 1 1 3, mkHit 1 0 1 9]

/-- Two barrel hits of one sector on layers 3 and 9. -/
def twoHitStore : List KLMHit2d :=
  [mkHit 1 0 1 3, mkHit 1 0 1 9]

/-- Position maps of a run in which nothing was filled. -/
def emptyMaps : PositionMaps :=
  { nbinsX := 150, nbinsY := 150
    m_passYX := fun _ _ => 0, m_totalYX := fun _ _ => 0
    m_passYZ := fun _ _ => 0, m_totalYZ := fun _ _ => 0 }

/-- Position maps in which every bin has pass content 1 and total content 3. -/
def oneOfThreeMaps : PositionMaps :=
  { nbinsX := 150, nbinsY := 150
    m_passYX := fun _ _ => 1, m_totalYX := fun _ _ => 3
    m_passYZ := fun _ _ => 1, m_totalYZ := fun _ _ => 3 }

/-- The bins of an axis with 150 bins of equal width from -350 to 350: bin
0 below the axis, bin 151 from 350 on. -/
def axisBin (x : ℚ) : Nat :=
  if x < -350 then 0
  else if 350 ≤ x then 151
  else 1 + (⌊(x + 350) * 150 / 700⌋).toNat

/-- The bin of a point filled into a position map with the axes of
`axisBin`. -/
def gridBin (v : ℚ × ℚ) : Nat × Nat := (axisBin v.1, axisBin v.2)

/-- A module whose frame is the global frame and whose extreme strip
corners are at local `(0, -10, -10)` and `(0, 10, 10)`. -/
def flatModule : Module :=
  { getPhiStripMin := 1, getPhiStripMax := 48, getZStripMin := 1, getZStripMax := 48
    getLocalPosition := fun phi z => ⟨0, if phi = 1 then -10 else 10, if z = 1 then -10 else 10⟩
    globalToLocal := fun v => v
    localToGlobal := fun v => v
    isFlipped := false
    getPhiStripWidth := 4
    getZStripWidth := 4 }

/-- A geometry in which every module is `flatModule` and layer `l` has the
active middle radius `200 + 10 l`. -/
def flatGeometry : GeometryPar :=
  { findModule := fun _ _ _ => flatModule
    getActiveMiddleRadius := fun _ _ layer => 200 + 10 * layer
    eklmStripWidth := 4 }

/-- Four barrel hits of section 0, sector 1, on layers 1, 2, 5, 7. -/
def edgeStore : List KLMHit2d :=
  [mkHit 1 0 1 1, mkHit 1 0 1 2, mkHit 1 0 1 5, mkHit 1 0 1 7]

/-- A track through the four hits of `edgeStore`, along the line `y = 10`,
`z = 0`: on layer 3 its predicted local position is `(20, 10, 0)`, on the
upper `y` edge of the acceptance box of `flatModule`. -/
def edgeTrack : KLMTrack :=
  { fit := { getTrackParam := ⟨10, 0, 0, 0⟩, getTrackParamErr := ⟨0, 0, 0, 0⟩, getChi2 := 0,
             getNumHit := 4, isValid := true, isGood := true }
    relatedHit2D := [0, 1, 2, 3], nBKLM := 4, nEKLM := 0 }

/-- Histograms in which nothing was filled. -/
def emptyAccumulator : EfficiencyAccumulator :=
  { m_total := [], m_pass := [], m_totalYX := [], m_totalYZ := [], m_passYX := [],
    m_passYZ := [], m_effiVsLayer := [] }

/-! ## Vocabulary for the hit scan of `generateEffi` -/

/-- The test `distance < m_maxDistance && sigma < m_maxSigma` of the hit
scan, on the values `distanceToHit` returns for the track and the hit. -/
def withinWindow (P : Params) (G : GeometryPar) (sqrt : ℚ → ℚ) (t : KLMTrack)
    (hit : KLMHit2d) : Bool :=
  match distanceToHit G sqrt t hit with
  | (some distance, _, some sigma) =>
    decide (distance < P.m_maxDistance) && decide (sigma < P.m_maxSigma)
  | _ => false

/-- The square of the quantity `dist` that the hit scan computes and only
writes to the debug log: the Euclidean distance between the predicted point
`global` and the measured position of the hit. -/
def distSqToPrediction (global : Vec3) (hit : KLMHit2d) : ℚ :=
  (hit.getPositionX - global.x) * (hit.getPositionX - global.x) +
  (hit.getPositionY - global.y) * (hit.getPositionY - global.y) +
  (hit.getPositionZ - global.z) * (hit.getPositionZ - global.z)

/-- The distinct layers on which the track has hits of the subsystem, the
studied layer included. -/
def distinctLayers (hits : List KLMHit2d) (iSubdetector : Int) (t : KLMTrack) : List Int :=
  ((t.relatedHit2D.filter (fun j => (hitAt hits j).getSubdetector == iSubdetector)).map
    (fun j => (hitAt hits j).getLayer)).dedup

/-- The state after the step for a track that reaches the geometry cut with
its prediction inside the box, in terms of the result `found` of the scan. -/
def afterEvaluation (iSection iSector iLayer : Int) (global : Vec3) (st : EffiState)
    (found : Option Nat) : EffiState :=
  { returned := st.returned
    m_pointUsed := st.m_pointUsed ++ found.toList
    acc :=
      { m_total := st.acc.m_total ++ [(iSection, iSector, iLayer + 1)]
        m_totalYX := st.acc.m_totalYX ++ [(global.x, global.y)]
        m_totalYZ := st.acc.m_totalYZ ++ [(global.z, global.y)]
        m_pass := st.acc.m_pass ++ (found.toList.map (fun _ => (iSection, iSector, iLayer + 1)))
        m_passYX := st.acc.m_passYX ++ (found.toList.map (fun _ => (global.x, global.y)))
        m_passYZ := st.acc.m_passYZ ++ (found.toList.map (fun _ => (global.z, global.y)))
        m_effiVsLayer :=
          st.acc.m_effiVsLayer ++ [(iSection, iSector, found.isSome, iLayer + 1)] } }

/-- A hit that the scan for track `t` may consume: it is in the store, in
the studied layer, in time, not in `used`, and within both windows. -/
def eligibleHit (P : Params) (G : GeometryPar) (sqrt : ℚ → ℚ) (hits : List KLMHit2d)
    (iSection iSector iLayer : Int) (used : List Nat) (t : KLMTrack) (he : Nat) : Prop :=
  he < hits.length ∧
  isLayerUnderStudy iSection iSector iLayer (hitAt hits he) = true ∧
  (hitAt hits he).isOutOfTime = false ∧
  he ∉ used ∧
  withinWindow P G sqrt t (hitAt hits he) = true

/-- A hit as `mkHit` makes it, at the position `(x, y, z)`. -/
def mkHitAt (sub sec sector layer : Int) (x y z : ℚ) : KLMHit2d :=
  { getSubdetector := sub, getSection := sec, getSector := sector, getLayer := layer,
    getPositionX := x, getPositionY := y, getPositionZ := z,
    getXStripMin := 0, getXStripMax := 0, getYStripMin := 0, getYStripMax := 0,
    isOutOfTime := false, isOnStaTrack := false }

/-- Four barrel hits of section 0, sector 1, on layers 1, 2, 5, 7, and at
indices 4 and 5 two hits of layer 3, both at `(20, 0, 5)`. -/
def scanStore : List KLMHit2d :=
  [mkHit 1 0 1 1, mkHit 1 0 1 2, mkHit 1 0 1 5, mkHit 1 0 1 7,
   mkHitAt 1 0 1 3 20 0 5, mkHitAt 1 0 1 3 20 0 5]

/-- A track through the first four hits of `scanStore`, along the line
`y = 0`, `z = x / 4`: on layer 3 of `flatGeometry` it is predicted at
`(20, 0, 5)`, inside the acceptance box. -/
def scanTrack : KLMTrack :=
  { fit := { getTrackParam := ⟨0, 0, 0, 1 / 4⟩, getTrackParamErr := ⟨0, 0, 0, 0⟩, getChi2 := 0,
             getNumHit := 4, isValid := true, isGood := true }
    relatedHit2D := [0, 1, 2, 3], nBKLM := 4, nEKLM := 0 }

/-- As `scanStore`, with a single hit of layer 3, at `(100, 0, 25)`: a point
of the line of `scanTrack`, far from the predicted point `(20, 0, 5)`. -/
def farStore : List KLMHit2d :=
  [mkHit 1 0 1 1, mkHit 1 0 1 2, mkHit 1 0 1 5, mkHit 1 0 1 7,
   mkHitAt 1 0 1 3 100 0 25]

/-- A track with the parameters of `scanTrack` whose hits, the first three
of `scanStore`, lie on three layers only. -/
def fewLayerTrack : KLMTrack :=
  { fit := scanTrack.fit, relatedHit2D := [0, 1, 2], nBKLM := 3, nEKLM := 0 }

/-- The state in which `generateEffi` starts on empty histograms. -/
def emptyEffiState : EffiState :=
  { acc := emptyAccumulator, m_pointUsed := [], returned := false }

/-- A hit of a subsystem that is neither the barrel nor the endcap KLM. -/
def foreignHit : KLMHit2d := mkHitAt 3 0 1 3 20 0 5

/-! ## Vocabulary and inputs for the counters of `generateEffi` -/

/-- The pass counters do not exceed the total counters in the bins whose
membership tests are `bin` (on the section, the sector and the filled layer
value), `binYX` and `binYZ` (on the two filled coordinates). -/
def PassLeTotal (bin : Int × Int × Int → Bool) (binYX binYZ : ℚ × ℚ → Bool)
    (acc : EfficiencyAccumulator) : Prop :=
  acc.m_pass.countP bin ≤ acc.m_total.countP bin ∧
  acc.m_passYX.countP binYX ≤ acc.m_totalYX.countP binYX ∧
  acc.m_passYZ.countP binYZ ≤ acc.m_totalYZ.countP binYZ

/-- The arguments of one call of `generateEffi`, together with the hit store
and the tracks of the event in which the call is made. -/
structure EffiCall where
  hits : List KLMHit2d
  tracks : List KLMTrack
  iSubdetector : Int
  iSection : Int
  iSector : Int
  iLayer : Int

/-- The histograms after a sequence of calls of `generateEffi`, the only
function that fills them. -/
def afterCalls (P : Params) (G : GeometryPar) (sqrt : ℚ → ℚ) (acc : EfficiencyAccumulator)
    (calls : List EffiCall) : EfficiencyAccumulator :=
  calls.foldl (fun a c =>
    (generateEffi P G sqrt c.hits c.tracks c.iSubdetector c.iSection c.iSector c.iLayer a).acc)
    acc

/-- Six barrel hits of section 0, sector 1, on layers 1, 2, 5, 7, 10, 12. -/
def upperStore : List KLMHit2d :=
  [mkHit 1 0 1 1, mkHit 1 0 1 2, mkHit 1 0 1 5, mkHit 1 0 1 7, mkHit 1 0 1 10, mkHit 1 0 1 12]

/-- A track with the parameters of `scanTrack` through the four hits of
`upperStore` on layers 5, 7, 10, 12. -/
def upperTrack : KLMTrack :=
  { fit := scanTrack.fit, relatedHit2D := [2, 3, 4, 5], nBKLM := 4, nEKLM := 0 }

/-- A barrel hit and an endcap hit, both flagged as being on a track. -/
def flaggedStore : List KLMHit2d :=
  [(mkHit 1 0 1 1).setOnStaTrack true, (mkHit 2 1 1 3).setOnStaTrack true]

/-- The bin of the layer histogram of section 0, sector 0 that holds the
layer value 3. -/
def layerBin3 (v : Int × Int × Int) : Bool := v == (0, 0, 3)

/-- A bin of a position map: the fills with both coordinates in `[0, 25)`. -/
def positionBin (v : ℚ × ℚ) : Bool :=
  decide (0 ≤ v.1 ∧ v.1 < 25 ∧ 0 ≤ v.2 ∧ v.2 < 25)

/-- What `terminate` stores, content and error, in a bin with pass content
`P` and total content `T`, as far as it can be said without the rounding of
each operation: zeros for `P = 0`; for `P > 0` the content is the `float`
nearest to `P / T`, within a relative `2^-24` of it, and the error is the
root of a `float` `d ≥ 0` within a relative `2^-21` of `P (T - P) / T^3`;
for `P = T` the content is 1 and the error 0. -/
def EfficiencyValue (sqrt : ℚ → ℚ) (P T : Nat) (r : FloatValue × FloatValue) : Prop :=
  (P = 0 → r = (FloatValue.finite 0, FloatValue.finite 0)) ∧
  (0 < P → ∃ c d : ℚ, r = (FloatValue.finite c, FloatValue.finite (sqrt d)) ∧
    roundToFloat ((P : ℚ) / T) = FloatValue.finite c ∧
    |c - (P : ℚ) / T| ≤ (P : ℚ) / T / 2 ^ 24 ∧
    0 ≤ d ∧
    |d - (P : ℚ) * (T - P) / (T * T * T)| ≤ (P : ℚ) * (T - P) / (T * T * T) / 2 ^ 21 ∧
    0 ≤ sqrt d ∧
    (P = T → c = 1 ∧ d = 0 ∧ sqrt d = 0))

/-- The call of `generateEffi` for layer index 2 of section 0, sector 0 on
`scanStore` with the track `scanTrack`. -/
def scanCall : EffiCall :=
  { hits := scanStore, tracks := [scanTrack], iSubdetector := c_BKLM, iSection := 0,
    iSector := 0, iLayer := 2 }

/-! ## `findClosestRecoTrack` -/

/-- A `genfit::MeasuredStateOnPlane` as the module uses it: the position and
momentum `getPosMomCov` gives, and whether `extrapolateToPoint` to a point
succeeds (`false`: it throws a `genfit::Exception`). -/
structure MeasuredStateOnPlane where
  pos : Vec3
  mom : Vec3
  extrapolateToPoint : Vec3 → Bool

/-- A `RecoTrack` as the module uses it; a state getter that throws a
`genfit::Exception` is `none`. -/
structure RecoTrack where
  wasFitSuccessful : Bool
  getMeasuredStateOnPlaneFromLastHit : Option MeasuredStateOnPlane
  getMeasuredStateOnPlaneFromFirstHit : Option MeasuredStateOnPlane

/-- The local variables the loop over the reco tracks updates;
`none` is the initial `INFINITY`, respectively `nullptr`. A track is
referred to by its index in the store array. -/
structure ClosestState where
  oldDistanceSq : Option ℚ
  oldAngle : Option ℚ
  closestTrack : Option Nat
  deriving DecidableEq, Repr, Inhabited

/-- `TVector3::Mag2`. -/
def Vec3.Mag2 (v : Vec3) : ℚ := v.x * v.x + v.y * v.y + v.z * v.z

/-- The body of the `try` block for one reco track: the pair
`(newDistanceSq, angle)` when the block runs to its end, `none` when the fit
was not successful or one of the state operations throws. `Angle` is
`TVector3::Angle`. -/
def recoCandidate (Angle : Vec3 → Vec3 → ℚ) (firstKLMHitPosition klmTrkVec : Vec3)
    (track : RecoTrack) : Option (ℚ × ℚ) :=
  if track.wasFitSuccessful then
    match track.getMeasuredStateOnPlaneFromLastHit with
    | none => none
    | some last =>
      let pos := last.pos
      let mom := last.mom
      match (if mom.y * pos.y < 0 then track.getMeasuredStateOnPlaneFromFirstHit
             else some last) with
      | none => none
      | some state =>
        let distanceVec : Vec3 :=
          ⟨firstKLMHitPosition.x - pos.x, firstKLMHitPosition.y - pos.y,
            firstKLMHitPosition.z - pos.z⟩
        if state.extrapolateToPoint firstKLMHitPosition then
          some (distanceVec.Mag2, Angle klmTrkVec mom)
        else none
  else none

/-- The body of the loop over the reco tracks, for the track with store
index `c.1`. -/
def closestStep (Angle : Vec3 → Vec3 → ℚ) (firstKLMHitPosition klmTrkVec : Vec3)
    (s : ClosestState) (c : Nat × RecoTrack) : ClosestState :=
  match recoCandidate Angle firstKLMHitPosition klmTrkVec c.2 with
  | none => s
  | some (newDistanceSq, angle) =>
    if (match s.oldDistanceSq with
        | none => true
        | some old => decide (newDistanceSq < old)) then
      { oldDistanceSq := some newDistanceSq, closestTrack := some c.1, oldAngle := some angle }
    else s

/-- `findClosestRecoTrack` on a collection of reco tracks given with their
store indices: the returned flag and the value left in `closestTrack`. -/
def findClosestRecoTrackIn (P : Params) (Angle : Vec3 → Vec3 → ℚ) (hits : List KLMHit2d)
    (klmTrk : KLMTrack) (recoTracks : List (Nat × RecoTrack)) : Bool × Option Nat :=
  if klmTrk.relatedHit2D.length < 1 then (false, none)
  else if recoTracks.length < 1 then (false, none)
  else
    let first := hitAt hits (klmTrk.relatedHit2D.headD 0)
    let firstKLMHitPosition : Vec3 := ⟨first.getPositionX, first.getPositionY, first.getPositionZ⟩
    let klmTrkVec : Vec3 := ⟨1, klmTrk.fit.getTrackParam.p1, klmTrk.fit.getTrackParam.p3⟩
    let s := recoTracks.foldl (closestStep Angle firstKLMHitPosition klmTrkVec)
      { oldDistanceSq := none, oldAngle := none, closestTrack := none }
    let tooWide : Bool :=
      match s.oldAngle with
      | none => true
      | some a => decide (a > P.m_maxAngleRequired)
    (if tooWide then false else true, s.closestTrack)

/-- `KLMTrackingModule::findClosestRecoTrack(klmTrk, closestTrack)` on the
store array `recoTracks`. -/
def findClosestRecoTrack (P : Params) (Angle : Vec3 → Vec3 → ℚ) (hits : List KLMHit2d)
    (klmTrk : KLMTrack) (recoTracks : List RecoTrack) : Bool × Option Nat :=
  findClosestRecoTrackIn P Angle hits klmTrk recoTracks.enum

/-- The candidate values of the reco track with store index `i`, if it has
any. -/
def candidateAt (Angle : Vec3 → Vec3 → ℚ) (firstKLMHitPosition klmTrkVec : Vec3)
    (recoTracks : List RecoTrack) (i : Nat) : Option (ℚ × ℚ) :=
  (recoTracks[i]?).bind (recoCandidate Angle firstKLMHitPosition klmTrkVec)

/-- The position of the first hit related to the track. -/
def firstHitPosition (hits : List KLMHit2d) (klmTrk : KLMTrack) : Vec3 :=
  ⟨(hitAt hits (klmTrk.relatedHit2D.headD 0)).getPositionX,
   (hitAt hits (klmTrk.relatedHit2D.headD 0)).getPositionY,
   (hitAt hits (klmTrk.relatedHit2D.headD 0)).getPositionZ⟩

/-- The direction `(1, TrackParam[1], TrackParam[3])` of the track. -/
def trackDirection (klmTrk : KLMTrack) : Vec3 :=
  ⟨1, klmTrk.fit.getTrackParam.p1, klmTrk.fit.getTrackParam.p3⟩

/-- A reco track that the loop of `findClosestRecoTrack` can use for a KLM
track whose first hit is at `firstKLMHitPosition`: its fit was successful,
its state at the last hit is available, so is the state at the first hit
when that one is asked for, and the extrapolation to the hit does not
throw. -/
def candidateUsable (firstKLMHitPosition : Vec3) (track : RecoTrack) : Bool :=
  track.wasFitSuccessful &&
  (match track.getMeasuredStateOnPlaneFromLastHit with
   | none => false
   | some last =>
     match (if last.mom.y * last.pos.y < 0 then track.getMeasuredStateOnPlaneFromFirstHit
            else some last) with
     | none => false
     | some state => state.extrapolateToPoint firstKLMHitPosition)

/-- What the loop over the reco tracks `l`, given with their store indices,
leaves in its local variables: nothing when no track is usable, otherwise
the distance, the angle and the index of a usable track at the least
squared distance, the one with the least index among those. -/
def ClosestSpec (Angle : Vec3 → Vec3 → ℚ) (firstKLMHitPosition klmTrkVec : Vec3)
    (l : List (Nat × RecoTrack)) (s : ClosestState) : Prop :=
  (s = { oldDistanceSq := none, oldAngle := none, closestTrack := none } ∧
    ∀ c ∈ l, recoCandidate Angle firstKLMHitPosition klmTrkVec c.2 = none) ∨
  (∃ c ∈ l, ∃ d a, recoCandidate Angle firstKLMHitPosition klmTrkVec c.2 = some (d, a) ∧
    s = { oldDistanceSq := some d, oldAngle := some a, closestTrack := some c.1 } ∧
    ∀ c' ∈ l, ∀ d' a', recoCandidate Angle firstKLMHitPosition klmTrkVec c'.2 = some (d', a') →
      d ≤ d' ∧ (d' = d → c.1 ≤ c'.1))

/-- A state on plane at `pos` with momentum `mom`, from which every
extrapolation succeeds. -/
def stateAt (pos mom : Vec3) : MeasuredStateOnPlane :=
  { pos := pos, mom := mom, extrapolateToPoint := fun _ => true }

/-- A successfully fitted reco track with the same state at both ends. -/
def recoTrackAt (pos mom : Vec3) : RecoTrack :=
  { wasFitSuccessful := true
    getMeasuredStateOnPlaneFromLastHit := some (stateAt pos mom)
    getMeasuredStateOnPlaneFromFirstHit := some (stateAt pos mom) }

/-- A reco track whose fit failed. -/
def failedRecoTrack : RecoTrack :=
  { wasFitSuccessful := false
    getMeasuredStateOnPlaneFromLastHit := none
    getMeasuredStateOnPlaneFromFirstHit := none }

/-- One barrel hit, at the origin. -/
def originStore : List KLMHit2d := [mkHit 1 0 1 1]

/-- A KLM track whose first hit is hit 0 of `originStore` and whose
direction is `(1, 0, 0)`. -/
def axisTrack : KLMTrack :=
  { fit := { getTrackParam := ⟨0, 0, 0, 0⟩, getTrackParamErr := ⟨0, 0, 0, 0⟩, getChi2 := 0,
             getNumHit := 1, isValid := true, isGood := true }
    relatedHit2D := [0], nBKLM := 1, nEKLM := 0 }

/-- The reco track of scenario D at 1 cm from the first hit; its momentum
`(1, tan 12°, 0)` makes an angle of 12 degrees with the direction
`(1, 0, 0)`. -/
def nearCandidate : RecoTrack := recoTrackAt ⟨1, 0, 0⟩ ⟨1, 2126 / 10000, 0⟩

/-- The reco track of scenario D at 5 cm from the first hit; its momentum
`(1, tan 2°, 0)` makes an angle of 2 degrees with the direction
`(1, 0, 0)`. -/
def farCandidate : RecoTrack := recoTrackAt ⟨5, 0, 0⟩ ⟨1, 349 / 10000, 0⟩

/-- The values of `TVector3::Angle`, which are radians, on the momenta of
scenario D: 0.2094 for 12 degrees and 0.0349 for 2 degrees. -/
def scenarioAngle (_ mom : Vec3) : ℚ :=
  if mom.y = 2126 / 10000 then 2094 / 10000
  else if mom.y = 349 / 10000 then 349 / 10000
  else 0

end KLMTracking

/-!
# Event shape calculator: configuration and particle list parsing

A shallow embedding of `EventShapeCalculatorModule::initialize` and
`EventShapeCalculatorModule::parseParticleLists` (file
`analysis/modules/EventShapeCalculator/src/EventShapeCalculatorModule.cc`).
-/

namespace EventShapeCalculator

/-- The boolean module parameters registered in the constructor. -/
structure Flags where
  m_enableThrust : Bool
  m_enableCollisionAxis : Bool
  m_enableFW : Bool
  m_enableHarmonicMoments : Bool
  m_enableJets : Bool
  m_enableSphericity : Bool
  m_enableCleoCones : Bool
  m_enableAllMoments : Bool
  m_checkForDuplicates : Bool
  deriving DecidableEq, Repr, Inhabited

/-- `EventShapeCalculatorModule::initialize`: the flags after the call and
the warnings logged, in order. `B2WARNING` logs and goes on. -/
def initializeModule (f : Flags) : Flags × List String :=
  let r1 : Flags × List String :=
    if f.m_enableJets && !f.m_enableThrust then
      ({ f with m_enableThrust := true },
       ["The jet-related quantities can only be calculated if the thrust calculation is activated as well."])
    else (f, [])
  let r2 : Flags × List String :=
    if r1.1.m_enableCleoCones && !(r1.1.m_enableThrust || r1.1.m_enableCollisionAxis) then
      (r1.1, r1.2 ++
        ["The CLEO cones can only be calculated if either the thrust or the collision axis calculation are activated as well."])
    else r1
  if r2.1.m_enableHarmonicMoments && !(r2.1.m_enableThrust || r2.1.m_enableCollisionAxis) then
    (r2.1, r2.2 ++
      ["The harmonic moments can only be calculated if either the thrust or the collision axis calculation are activated as well."])
  else r2

/-- A four-momentum `PxPyPzEVector`. -/
structure FourVector where
  px : ℚ
  py : ℚ
  pz : ℚ
  e : ℚ
  deriving DecidableEq, Repr, Inhabited

/-- The part of an `MCParticle` the module reads. -/
structure MCParticle where
  isInitial : Bool
  deriving DecidableEq, Repr, Inhabited

/-- A final-state daughter as `parseParticleLists` reads it. -/
structure FinalStateParticle where
  getMdstSource : Int
  get4Vector : FourVector
  deriving DecidableEq, Repr, Inhabited

/-- A `Particle` as `parseParticleLists` reads it; `getMCParticle` is `none`
for a null pointer. -/
structure Particle where
  getMCParticle : Option MCParticle
  get4Vector : FourVector
  getFinalStateDaughters : List FinalStateParticle
  deriving DecidableEq, Repr, Inhabited

/-- The variables `parseParticleLists` updates. -/
structure ParseState where
  m_p4List : List FourVector
  usedMdstSources : List Int
  nParticlesInAllLists : Nat
  deriving DecidableEq, Repr, Inhabited

/-- The body of the loop over the final-state daughters. -/
def daughterStep (rotateLabToCms : FourVector → FourVector) (st : ParseState)
    (fsp : FinalStateParticle) : ParseState :=
  if fsp.getMdstSource ∈ st.usedMdstSources then st
  else
    { st with
      usedMdstSources := st.usedMdstSources ++ [fsp.getMdstSource]
      m_p4List := st.m_p4List ++ [rotateLabToCms fsp.get4Vector] }

/-- The body of the loop over the particles of a list. -/
def particleStep (rotateLabToCms : FourVector → FourVector) (m_checkForDuplicates : Bool)
    (st : ParseState) (part : Particle) : ParseState :=
  if (match part.getMCParticle with
      | some mcParticle => mcParticle.isInitial
      | none => false) then st
  else if m_checkForDuplicates then
    part.getFinalStateDaughters.foldl (daughterStep rotateLabToCms) st
  else
    { st with m_p4List := st.m_p4List ++ [rotateLabToCms part.get4Vector] }

/-- The body of the loop over the particle lists. -/
def listStep (rotateLabToCms : FourVector → FourVector) (m_checkForDuplicates : Bool)
    (st : ParseState) (particleList : List Particle) : ParseState :=
  particleList.foldl (particleStep rotateLabToCms m_checkForDuplicates)
    { st with nParticlesInAllLists := st.nParticlesInAllLists + particleList.length }

/-- `EventShapeCalculatorModule::parseParticleLists` on the particle lists
that the given names refer to, in the order of the names: the final state,
whose `nParticlesInAllLists` is the counter behind the returned value.
`rotateLabToCms` is the boost `T.rotateLabToCms()`. The loop bound
`nParticleLists` is an `unsigned short` holding the number of names, so the
loop covers the first `size mod 2^16` lists. -/
def parseParticleLists (rotateLabToCms : FourVector → FourVector) (m_checkForDuplicates : Bool)
    (particleLists : List (List Particle)) : ParseState :=
  (particleLists.take (particleLists.length % 2 ^ 16)).foldl
    (listStep rotateLabToCms m_checkForDuplicates)
    { m_p4List := [], usedMdstSources := [], nParticlesInAllLists := 0 }

/-- The final-state daughters that the duplicate check looks at, in the
order in which it meets them: list by list, particle by particle, the
particles whose MC particle is initial left out. -/
def daughtersInOrder (particleLists : List (List Particle)) : List FinalStateParticle :=
  (particleLists.flatten.filter (fun part =>
    !(match part.getMCParticle with
      | some mcParticle => mcParticle.isInitial
      | none => false))).flatMap (fun part => part.getFinalStateDaughters)

/-- The first occurrences in a sequence of daughters: the head is kept,
and of the first occurrences of the rest those with another `mdstSource`. -/
def firstOccurrences : List FinalStateParticle → List FinalStateParticle
  | [] => []
  | fsp :: rest =>
    fsp :: (firstOccurrences rest).filter (fun g => g.getMdstSource != fsp.getMdstSource)

/-! ## Concrete inputs -/

/-- A final-state daughter with the given `mdstSource` and the momentum
`(mdstSource, 0, 0, 1)`. -/
def mkDaughter (mdstSource : Int) : FinalStateParticle :=
  { getMdstSource := mdstSource, get4Vector := ⟨mdstSource, 0, 0, 1⟩ }

/-- A particle without MC particle and with the given daughters. -/
def mkParticle (daughters : List FinalStateParticle) : Particle :=
  { getMCParticle := none, get4Vector := ⟨0, 0, 0, 1⟩, getFinalStateDaughters := daughters }

/-- Two particle lists: in the first a particle with the daughters 1 and 2
and an initial MC particle with the daughter 9, in the second a particle
with the daughters 2 and 3. -/
def overlappingLists : List (List Particle) :=
  [[mkParticle [mkDaughter 1, mkDaughter 2],
    { getMCParticle := some ⟨true⟩, get4Vector := ⟨0, 0, 0, 1⟩,
      getFinalStateDaughters := [mkDaughter 9] }],
   [mkParticle [mkDaughter 2, mkDaughter 3]]]

/-- The flags with jets enabled and everything else disabled. -/
def jetsOnly : Flags :=
  { m_enableThrust := false, m_enableCollisionAxis := false, m_enableFW := false,
    m_enableHarmonicMoments := false, m_enableJets := true, m_enableSphericity := false,
    m_enableCleoCones := false, m_enableAllMoments := false, m_checkForDuplicates := false }

/-! ## The returned count -/

/-- The returned `int` for the final value `n` of the `unsigned int` counter
`nParticlesInAllLists`, which is kept here without its wrap-around. -/
def toInt (n : Nat) : Int :=
  if n % 2 ^ 32 < 2 ^ 31 then ((n % 2 ^ 32 : Nat) : Int)
  else ((n % 2 ^ 32 : Nat) : Int) - 2 ^ 32

/-- The value `parseParticleLists` returns. -/
def parseParticleListsReturn (rotateLabToCms : FourVector → FourVector)
    (m_checkForDuplicates : Bool) (particleLists : List (List Particle)) : Int :=
  toInt (parseParticleLists rotateLabToCms m_checkForDuplicates
    particleLists).nParticlesInAllLists

/-- One particle list whose only particle has an initial MC particle. -/
def initialOnly : List (List Particle) :=
  [[{ getMCParticle := some ⟨true⟩, get4Vector := ⟨0, 0, 0, 1⟩,
      getFinalStateDaughters := [mkDaughter 9] }]]

end EventShapeCalculator

/-!
# Event T0 data object

A shallow embedding of `EventT0` (file `framework/dataobjects/src/EventT0.cc`).
A `double` is a rational or `NAN`, written `none`; every comparison with
`NAN` is false. Taking the last or the least element of an empty vector is
undefined behaviour, written as the outer `none` of a result.
-/

namespace EventT0

/-- Modelled from the spec: the detector identifiers `Const::EDetector`,
declared in a header that is not part of these sources. -/
inductive EDetector where
  | PXD
  | SVD
  | CDC
  | TOP
  | ARICH
  | ECL
  | KLM
  deriving DecidableEq, Repr, Inhabited

/-- Modelled from the spec: a `Const::DetectorSet`, the set of the listed
detectors; the set made from one `EDetector` is the list with that
detector. -/
abbrev DetectorSet := List EDetector

/-- Modelled from the spec: `DetectorSet::contains` on a set, which is set
inclusion: every detector of `other` is in `s`. -/
def DetectorSet.contains (s other : DetectorSet) : Bool :=
  other.all (fun d => decide (d ∈ s))

/-- The components of a T0 estimate, `EventT0::EventT0Component`. -/
structure EventT0Component where
  eventT0 : Option ℚ
  eventT0Uncertainty : Option ℚ
  detectorSet : DetectorSet
  algorithm : String
  quality : Option ℚ
  deriving DecidableEq, Repr, Inhabited

/-- The data members of an `EventT0`. -/
structure Object where
  m_eventT0 : EventT0Component
  m_hasEventT0 : Bool
  m_temporaryEventT0List : List EventT0Component
  deriving DecidableEq, Repr, Inhabited

/-- `EventT0::hasEventT0`. -/
def hasEventT0 (e : Object) : Bool := e.m_hasEventT0

/-- `EventT0::getEventT0`. `B2ASSERT` is a macro of the logging framework:
where assertions are compiled in (`assertionsEnabled`) it ends the program
with a fatal error when its condition is false, which is `none` here. -/
def getEventT0 (assertionsEnabled : Bool) (e : Object) : Option (Option ℚ) :=
  if assertionsEnabled && !hasEventT0 e then none
  else some e.m_eventT0.eventT0

/-- `EventT0::getEventT0Component`. -/
def getEventT0Component (e : Object) : Option EventT0Component :=
  if hasEventT0 e then some e.m_eventT0 else none

/-- `EventT0::getEventT0Uncertainty`. -/
def getEventT0Uncertainty (e : Object) : Option ℚ :=
  e.m_eventT0.eventT0Uncertainty

/-- `EventT0::setEventT0(const EventT0Component&)`. -/
def setEventT0Component (e : Object) (eventT0 : EventT0Component) : Object :=
  { e with m_eventT0 := eventT0, m_hasEventT0 := true }

/-- `EventT0::setEventT0(eventT0, eventT0Uncertainty, detector, algorithm)`;
the component constructor leaves `quality` at its default, `NAN`. -/
def setEventT0 (e : Object) (eventT0 eventT0Uncertainty : Option ℚ) (detector : DetectorSet)
    (algorithm : String) : Object :=
  setEventT0Component e
    { eventT0 := eventT0, eventT0Uncertainty := eventT0Uncertainty, detectorSet := detector,
      algorithm := algorithm, quality := none }

/-- `EventT0::hasTemporaryEventT0`. -/
def hasTemporaryEventT0 (e : Object) (detectorSet : DetectorSet) : Bool :=
  e.m_temporaryEventT0List.any (fun c => detectorSet.contains c.detectorSet)

/-- `EventT0::getTemporaryEventT0s(detector)`; `c.detectorSet.contains(detector)`
is the inclusion of the set made from `detector`. -/
def getTemporaryEventT0s (e : Object) (detector : EDetector) : List EventT0Component :=
  e.m_temporaryEventT0List.filter (fun c => c.detectorSet.contains [detector])

/-- `EventT0::addTemporaryEventT0`. -/
def addTemporaryEventT0 (e : Object) (eventT0 : EventT0Component) : Object :=
  { e with m_temporaryEventT0List := e.m_temporaryEventT0List ++ [eventT0] }

/-- `EventT0::clearTemporaries`. -/
def clearTemporaries (e : Object) : Object :=
  { e with m_temporaryEventT0List := [] }

/-- `EventT0::clearEventT0`. -/
def clearEventT0 (e : Object) : Object :=
  { e with m_hasEventT0 := false }

/-- The body shared by `getBestSVDTemporaryEventT0`,
`getBestCDCTemporaryEventT0` and `getBestTOPTemporaryEventT0`: the outer
`none` is `back()` on an empty vector. -/
def getBestLastTemporaryEventT0 (e : Object) (detector : EDetector) :
    Option (Option EventT0Component) :=
  if hasTemporaryEventT0 e [detector] then
    match (getTemporaryEventT0s e detector).getLast? with
    | some c => some (some c)
    | none => none
  else some none

/-- `EventT0::getBestSVDTemporaryEventT0`. -/
def getBestSVDTemporaryEventT0 (e : Object) : Option (Option EventT0Component) :=
  getBestLastTemporaryEventT0 e EDetector.SVD

/-- `EventT0::getBestCDCTemporaryEventT0`. -/
def getBestCDCTemporaryEventT0 (e : Object) : Option (Option EventT0Component) :=
  getBestLastTemporaryEventT0 e EDetector.CDC

/-- `EventT0::getBestTOPTemporaryEventT0`. -/
def getBestTOPTemporaryEventT0 (e : Object) : Option (Option EventT0Component) :=
  getBestLastTemporaryEventT0 e EDetector.TOP

/-- The comparison `a < b` of two `double`s. -/
def doubleLT (a b : Option ℚ) : Bool :=
  match a, b with
  | some x, some y => decide (x < y)
  | _, _ => false

/-- The comparison `a <= b` of two `double`s. -/
def doubleLE (a b : Option ℚ) : Bool :=
  match a, b with
  | some x, some y => decide (x ≤ y)
  | _, _ => false

/-- `std::min_element` with the comparison `c1.quality < c2.quality`: the
running minimum starts at the first element and moves to an element only
when that element compares less; `none` for an empty range. -/
def minQualityElement : List EventT0Component → Option EventT0Component
  | [] => none
  | c :: cs =>
    some (cs.foldl (fun smallest c1 =>
      if doubleLT c1.quality smallest.quality then c1 else smallest) c)

/-- `EventT0::getBestECLTemporaryEventT0`: the outer `none` is the
dereferencing of the end iterator of an empty vector. -/
def getBestECLTemporaryEventT0 (e : Object) : Option (Option EventT0Component) :=
  if hasTemporaryEventT0 e [EDetector.ECL] then
    match minQualityElement (getTemporaryEventT0s e EDetector.ECL) with
    | some c => some (some c)
    | none => none
  else some none

/-- What `std::min_element` has established when its running minimum is
`s`, the elements before it being `pre` and those met after it `post`. -/
def MinInv (pre : List EventT0Component) (s : EventT0Component)
    (post : List EventT0Component) : Prop :=
  (∀ x ∈ pre, doubleLE x.quality s.quality = false) ∧
  (∀ x ∈ post, doubleLT x.quality s.quality = false)

/-! ## Concrete inputs -/

/-- A temporary with the given detector set and quality. -/
def mkTemporary (detectorSet : DetectorSet) (quality : Option ℚ) : EventT0Component :=
  { eventT0 := some 0, eventT0Uncertainty := some 1, detectorSet := detectorSet,
    algorithm := "", quality := quality }

/-- An object without final T0 and without temporaries, all values `NAN`. -/
def emptyObject : Object :=
  { m_eventT0 :=
      { eventT0 := none, eventT0Uncertainty := none, detectorSet := [], algorithm := "",
        quality := none }
    m_hasEventT0 := false
    m_temporaryEventT0List := [] }

/-- An object whose only temporary has an empty detector set. -/
def emptySetObject : Object :=
  addTemporaryEventT0 emptyObject (mkTemporary [] none)

/-- An object with four temporaries: SVD, ECL with quality 3, ECL with
quality 2, and again ECL with quality 2 but another time. -/
def sampleObject : Object :=
  { emptyObject with
    m_temporaryEventT0List :=
      [mkTemporary [EDetector.SVD] none, mkTemporary [EDetector.ECL] (some 3),
       mkTemporary [EDetector.ECL] (some 2),
       { mkTemporary [EDetector.ECL] (some 2) with eventT0 := some 5 }] }

end EventT0

namespace KLMTracking

/-! ## The loops of `runTracking` keep the invariant -/

theorem Frame.refl (H : List KLMHit2d) : Frame H H := ⟨rfl, fun _ => rfl⟩

theorem Frame.trans {A B C : List KLMHit2d} (h1 : Frame A B) (h2 : Frame B C) : Frame A C :=
  ⟨h2.1.trans h1.1, fun i => (h2.2 i).trans (h1.2 i)⟩

theorem Frame.attr {α : Type} {H hs : List KLMHit2d} (h : Frame H hs) (g : KLMHit2d → α)
    (hg : ∀ x, g x = g (x.setOnStaTrack false)) (i : Nat) :
    g (hitAt hs i) = g (hitAt H i) := by
  rw [hg (hitAt hs i), hg (hitAt H i), h.2 i]

theorem hitAt_modify_frozen (hs : List KLMHit2d) (v : Bool) (j i : Nat) :
    (hitAt (hs.modify (fun h => h.setOnStaTrack v) j) i).setOnStaTrack false =
      (hitAt hs i).setOnStaTrack false := by
  unfold hitAt
  simp only [List.getD_eq_getElem?_getD, List.getElem?_modify]
  cases hs[i]? with
  | none => simp
  | some x =>
    by_cases hji : j = i
    · simp [hji, KLMHit2d.setOnStaTrack]
    · simp [hji]

theorem markOnStaTrack_frame (hs : List KLMHit2d) (js : List Nat) :
    Frame hs (markOnStaTrack hs js) := by
  unfold markOnStaTrack
  induction js generalizing hs with
  | nil => exact Frame.refl hs
  | cons j js ih =>
    simp only [List.foldl_cons]
    refine Frame.trans ?_ (ih _)
    exact ⟨by simp, fun i => hitAt_modify_frozen hs true j i⟩

theorem resetOnStaTrack_frame (iSub : Int) (hs : List KLMHit2d) :
    Frame hs (resetOnStaTrack iSub hs) := by
  refine ⟨by simp [resetOnStaTrack], fun i => ?_⟩
  unfold hitAt resetOnStaTrack
  simp only [List.getD_eq_getElem?_getD, List.getElem?_map]
  cases hs[i]? with
  | none => simp
  | some x =>
    simp only [Option.map_some', Option.getD_some]
    split_ifs <;> simp [KLMHit2d.setOnStaTrack]

theorem foldl_preserves {α β : Type} (f : α → β → α) (I : α → Prop) (xs : List β) (a : α)
    (hstep : ∀ s x, x ∈ xs → I s → I (f s x)) (ha : I a) : I (xs.foldl f a) := by
  induction xs generalizing a with
  | nil => exact ha
  | cons x xs ih =>
    simp only [List.foldl_cons]
    exact ih _ (fun s y hy hs => hstep s y (List.mem_cons_of_mem _ hy) hs)
      (hstep a x (List.mem_cons_self _ _) ha)

theorem seedStep_inv {σ : Type} (P : Params) (F : KLMTrackFinder σ)
    (mode iSubdetector iSection iSector iLayer : Int) (H : List KLMHit2d)
    (T0 : List KLMTrack) (hi hj : Nat) (st : TrackingState σ)
    (hO : OuterOK mode iSubdetector iSection iSector iLayer H hi)
    (hlt : hi < hj) (hb : hj < H.length)
    (hI : Inv P F mode iSubdetector iSection iSector iLayer H T0 st) :
    Inv P F mode iSubdetector iSection iSector iLayer H T0
      (seedStep P F mode iSubdetector iSection iSector iLayer hi st hj) := by
  obtain ⟨hF, hC, new, hT, hR⟩ := hI
  obtain ⟨o1, o2, o3, o4⟩ := hO
  have a1 : (hitAt st.hits2D hi).getSubdetector = iSubdetector :=
    (hF.attr (fun x => x.getSubdetector) (fun _ => rfl) hi).trans o1
  have a2 : mode = 1 → isLayerUnderStudy iSection iSector iLayer (hitAt st.hits2D hi) = false :=
    fun hm => (hF.attr (isLayerUnderStudy iSection iSector iLayer) (fun _ => rfl) hi).trans (o2 hm)
  have a3 : mode = 1 → isSectorUnderStudy iSection iSector (hitAt st.hits2D hi) = true :=
    fun hm => (hF.attr (isSectorUnderStudy iSection iSector) (fun _ => rfl) hi).trans (o3 hm)
  have a4 : (hitAt st.hits2D hi).isOutOfTime = false :=
    (hF.attr (fun x => x.isOutOfTime) (fun _ => rfl) hi).trans o4
  unfold seedStep
  simp only
  split_ifs with g1 g2 g3 g4 g5 g6
  · exact ⟨hF, hC, new, hT, hR⟩
  · exact ⟨hF, hC, new, hT, hR⟩
  · exact ⟨hF, hC, new, hT, hR⟩
  · exact ⟨hF, hC, new, hT, hR⟩
  · exact ⟨hF, hC, new, hT, hR⟩
  all_goals
    have hok : ∀ acc mh, (∃ s, (F.filter s st.hits2D [hi, hj]
          (buildPool mode iSubdetector iSection iSector iLayer st.hits2D hi hj) iSubdetector).2 =
            (acc, mh)) →
        CallOK P F mode iSubdetector iSection iSector iLayer H
          { hi := hi, hj := hj,
            sectorHitList := buildPool mode iSubdetector iSection iSector iLayer st.hits2D hi hj,
            store := st.hits2D, accepted := acc, m_hits := mh } := by
      intro acc mh hv
      refine
        { frame := hF, lt := hlt, bound := by rw [hF.1]; exact hb, hiSub := a1, hiLayer := a2,
          hiSector := a3, hiTime := a4, hjTrack := by simpa using g1,
          hjTime := by simpa using g2, hjSub := ?_, seedApart := g4, pool := rfl,
          poolMin := ?_, poolMax := ?_, verdict := hv }
      · have := not_not.mp g3
        exact this.symm.trans a1
      · have := not_or.mp g5
        show P.m_minHitList ≤ (buildPool mode iSubdetector iSection iSector iLayer st.hits2D hi hj).length
        omega
      · have := not_or.mp g5
        show (buildPool mode iSubdetector iSection iSector iLayer st.hits2D hi hj).length ≤ P.m_maxHitList
        omega
  · refine ⟨hF.trans (markOnStaTrack_frame _ _), ?_, ?_⟩
    · intro c hc
      rcases List.mem_append.mp hc with h | h
      · exact hC c h
      · rw [List.mem_singleton.mp h]
        exact hok _ _ ⟨st.m_finder, rfl⟩
    · refine ⟨new ++ [_], by rw [hT, List.append_assoc], ?_⟩
      simp [hR, List.filter_append, g6]
  · refine ⟨hF, ?_, ?_⟩
    · intro c hc
      rcases List.mem_append.mp hc with h | h
      · exact hC c h
      · rw [List.mem_singleton.mp h]
        exact hok _ _ ⟨st.m_finder, rfl⟩
    · refine ⟨new, hT, ?_⟩
      simp [hR, List.filter_append, g6]

theorem outerStep_inv {σ : Type} (P : Params) (F : KLMTrackFinder σ)
    (mode iSubdetector iSection iSector iLayer : Int) (H : List KLMHit2d)
    (T0 : List KLMTrack) (hi : Nat) (st : TrackingState σ)
    (hI : Inv P F mode iSubdetector iSection iSector iLayer H T0 st) :
    Inv P F mode iSubdetector iSection iSector iLayer H T0
      (outerStep P F mode iSubdetector iSection iSector iLayer st hi) := by
  have hF := hI.1
  unfold outerStep
  simp only
  split_ifs with g1 g2 g3 g4 g5
  · exact hI
  · exact hI
  · exact hI
  · exact hI
  · exact hI
  · have hO : OuterOK mode iSubdetector iSection iSector iLayer H hi := by
      refine ⟨?_, ?_, ?_, ?_⟩
      · exact (hF.attr (fun x => x.getSubdetector) (fun _ => rfl) hi).symm.trans (not_not.mp g1)
      · intro hm
        rw [← hF.attr (isLayerUnderStudy iSection iSector iLayer) (fun _ => rfl) hi]
        simpa [hm] using g2
      · intro hm
        rw [← hF.attr (isSectorUnderStudy iSection iSector) (fun _ => rfl) hi]
        simpa [hm] using g3
      · rw [← hF.attr (fun x => x.isOutOfTime) (fun _ => rfl) hi]
        simpa using g5
    refine foldl_preserves _ _ _ _ ?_ hI
    intro s hj hmem hs
    rw [List.mem_range'_1] at hmem
    exact seedStep_inv P F mode iSubdetector iSection iSector iLayer H T0 hi hj s hO
      (by omega) (by rw [hF.1] at hmem; omega) hs

theorem runTracking_inv {σ : Type} (P : Params) (F : KLMTrackFinder σ) (s0 : σ)
    (mode iSubdetector iSection iSector iLayer : Int) (hits2D : List KLMHit2d)
    (tracks : List KLMTrack) :
    Inv P F mode iSubdetector iSection iSector iLayer hits2D tracks
      (runTracking P F s0 mode iSubdetector iSection iSector iLayer hits2D tracks) := by
  unfold runTracking
  simp only
  split_ifs with g1 g2
  · exact ⟨Frame.refl _, by simp, [], by simp, by simp⟩
  · refine foldl_preserves _ _ _ _ (fun s x _ hs => outerStep_inv P F mode iSubdetector
      iSection iSector iLayer hits2D tracks x s hs) ?_
    exact ⟨resetOnStaTrack_frame _ _, by simp, [], by simp, by simp⟩
  · refine foldl_preserves _ _ _ _ (fun s x _ hs => outerStep_inv P F mode iSubdetector
      iSection iSector iLayer hits2D tracks x s hs) ?_
    exact ⟨Frame.refl _, by simp, [], by simp, by simp⟩

/-! ## Facts shared by the claims on `runTracking` -/

theorem forall₂_mem_right {α β : Type} {R : α → β → Prop} {l1 : List α} {l2 : List β}
    (h : List.Forall₂ R l1 l2) : List.Forall₂ (fun a b => R a b ∧ b ∈ l2) l1 l2 := by
  induction h with
  | nil => exact List.Forall₂.nil
  | cons hab _ ih =>
    exact List.Forall₂.cons ⟨hab, List.mem_cons_self _ _⟩
      (ih.imp (fun _ _ hx => ⟨hx.1, List.mem_cons_of_mem _ hx.2⟩))

theorem runTracking_callOK {σ : Type} (P : Params) (F : KLMTrackFinder σ) (s0 : σ)
    (mode iSubdetector iSection iSector iLayer : Int) (hits2D : List KLMHit2d)
    (tracks : List KLMTrack) (c : FinderCall)
    (hc : c ∈ (runTracking P F s0 mode iSubdetector iSection iSector iLayer hits2D
      tracks).finderCalls) :
    CallOK P F mode iSubdetector iSection iSector iLayer hits2D c :=
  (runTracking_inv P F s0 mode iSubdetector iSection iSector iLayer hits2D tracks).2.1 c hc

theorem runTracking_tracksFromCalls {σ : Type} (P : Params) (F : KLMTrackFinder σ) (s0 : σ)
    (mode iSubdetector iSection iSector iLayer : Int) (hits2D : List KLMHit2d)
    (tracks : List KLMTrack) (Q : KLMTrack → FinderCall → Prop)
    (hQ : ∀ t c, CallOK P F mode iSubdetector iSection iSector iLayer hits2D c →
      c.accepted = true → t.relatedHit2D = sortHits c.store c.m_hits → Q t c) :
    TracksFromCalls tracks
      (runTracking P F s0 mode iSubdetector iSection iSector iLayer hits2D tracks) Q := by
  obtain ⟨_, hC, new, hT, hR⟩ :=
    runTracking_inv P F s0 mode iSubdetector iSection iSector iLayer hits2D tracks
  refine ⟨new, hT, ?_⟩
  have h1 : List.Forall₂ (fun t c => t.relatedHit2D = sortHits c.store c.m_hits) new
      ((runTracking P F s0 mode iSubdetector iSection iSector iLayer hits2D
        tracks).finderCalls.filter (fun c => c.accepted)) := by
    rw [← List.forall₂_map_right_iff, ← List.forall₂_map_left_iff, hR]
    exact List.forall₂_same.mpr (fun _ _ => rfl)
  refine (forall₂_mem_right h1).imp ?_
  intro t c hx
  have hm := List.mem_filter.mp hx.2
  exact hQ t c (hC c hm.1) (by simpa using hm.2) hx.1

theorem mem_buildPool (mode iSubdetector iSection iSector iLayer : Int)
    (hits : List KLMHit2d) (hi hj ho : Nat)
    (h : ho ∈ buildPool mode iSubdetector iSection iSector iLayer hits hi hj) :
    ho < hits.length ∧ poolAccepts mode iSubdetector iSection iSector iLayer hits hi hj ho = true := by
  unfold buildPool at h
  rw [List.mem_filter, List.mem_range] at h
  exact h

theorem sortHits_perm (hits : List KLMHit2d) (m_hits : List Nat) :
    (sortHits hits m_hits).Perm m_hits :=
  List.perm_insertionSort _ _

theorem sortHits_sorted (hits : List KLMHit2d) (m_hits : List Nat) :
    ((sortHits hits m_hits).map (fun j => (hitAt hits j).getLayer)).Sorted (fun a b => a ≤ b) := by
  have h : (sortHits hits m_hits).Sorted (layerLE hits) := List.sorted_insertionSort _ _
  unfold List.Sorted at h ⊢
  rw [List.pairwise_map]
  refine h.imp ?_
  intro a b hab
  unfold layerLE sortByLayer at hab
  simpa using hab

/-! ## Claims on `runTracking` -/

/-- C1, at a failing input: with the default parameters, the seven hits of
`store7` and a finder whose accepted list is always drawn from the seed pair
and the pool, one call of `runTracking` in mode 0 creates two tracks that
both hold hit 0. Hit 0 is the first seed `hi`: its on-track flag is tested
once, before the loop over `hj`, and not again after the first track has
marked it. -/
theorem runTracking_seed_hit_on_two_tracks :
    (∀ s hits seed pool sub, ∀ x ∈ (takeTwoFinder.filter s hits seed pool sub).2.2,
      x ∈ seed ∨ x ∈ pool) ∧
    (runTracking Params.default takeTwoFinder () 0 c_BKLM (-1) (-1) (-1) store7
      []).m_storeTracks.map (fun t => t.relatedHit2D) = [[0, 1, 2, 3], [0, 4, 5, 6]] := by
  refine ⟨?_, by decide⟩
  intro s hits seed pool sub x hx
  simp only [takeTwoFinder, List.mem_append] at hx
  exact hx.imp id (fun h => List.mem_of_mem_take h)

/-- C2, at a failing input: in mode 1 with section 0, sector index 0 and
layer index 2 under study, the only finder call on `studyStore` has the pool
`[2, 3]`, and hit 2 is a hit of the layer under study; the track created
from it holds hit 2. The layer test inside the pool loop reads `hits2D[hj]`,
not `hits2D[ho]`. -/
theorem runTracking_pool_holds_studied_hit :
    (runTracking Params.default takeTwoFinder () 1 c_BKLM 0 0 2 studyStore
      []).finderCalls.map (fun c => (c.hi, c.hj, c.sectorHitList)) = [(0, 1, [2, 3])] ∧
    isLayerUnderStudy 0 0 2 (hitAt studyStore 2) = true ∧
    (runTracking Params.default takeTwoFinder () 1 c_BKLM 0 0 2 studyStore
      []).m_storeTracks.map (fun t => t.relatedHit2D) = [[0, 2, 1, 3]] := by
  decide

/-- C3 as stated fails: in mode 0 with the barrel as target, the pool of the
finder call on `mixedStore` holds hit 2, an endcap hit. -/
theorem runTracking_mode0_pool_other_subsystem :
    ¬ (∀ c ∈ (runTracking Params.default takeTwoFinder () 0 c_BKLM (-1) (-1) (-1) mixedStore
        []).finderCalls,
      ∀ ho ∈ c.sectorHitList, (hitAt c.store ho).getSubdetector = c_BKLM) := by
  decide

/-- C3, amended: for every invocation of the finder, in either mode, both
seed hits belong to the target subsystem; in mode 1 every hit of the pool
belongs to the target subsystem as well. -/
theorem runTracking_subsystem_of_seeds_and_pool {σ : Type} (P : Params)
    (F : KLMTrackFinder σ) (s0 : σ) (mode iSubdetector iSection iSector iLayer : Int)
    (hits2D : List KLMHit2d) (tracks : List KLMTrack) (c : FinderCall)
    (hc : c ∈ (runTracking P F s0 mode iSubdetector iSection iSector iLayer hits2D
      tracks).finderCalls) :
    (hitAt c.store c.hi).getSubdetector = iSubdetector ∧
    (hitAt c.store c.hj).getSubdetector = iSubdetector ∧
    (mode = 1 → ∀ ho ∈ c.sectorHitList, (hitAt c.store ho).getSubdetector = iSubdetector) := by
  have h := runTracking_callOK P F s0 mode iSubdetector iSection iSector iLayer hits2D tracks c hc
  refine ⟨h.hiSub, h.hjSub, ?_⟩
  intro hm ho hho
  rw [h.pool] at hho
  have hp := (mem_buildPool _ _ _ _ _ _ _ _ _ hho).2
  unfold poolAccepts at hp
  simp only [Bool.and_eq_true, Bool.not_eq_true', Bool.and_eq_false_imp, hm] at hp
  have := hp.1.1.1.1.1.2
  simpa using this

/-- Witness for C3, amended: the finder call on `studyStore` in mode 1. -/
theorem runTracking_subsystem_of_seeds_and_pool_witness :
    studyStoreCall ∈ (runTracking Params.default takeTwoFinder () 1 c_BKLM 0 0 2 studyStore
      []).finderCalls ∧
    ((hitAt studyStoreCall.store studyStoreCall.hi).getSubdetector = c_BKLM ∧
     (hitAt studyStoreCall.store studyStoreCall.hj).getSubdetector = c_BKLM ∧
     ((1 : Int) = 1 → ∀ ho ∈ studyStoreCall.sectorHitList,
        (hitAt studyStoreCall.store ho).getSubdetector = c_BKLM)) :=
  ⟨by decide,
   runTracking_subsystem_of_seeds_and_pool Params.default takeTwoFinder () 1 c_BKLM 0 0 2
     studyStore [] studyStoreCall (by decide)⟩

/-- C4: for every invocation of the finder, in either mode, the pool holds
neither seed hit, no hit whose on-track flag is set in the store at that
moment, and no out-of-time hit. -/
theorem runTracking_pool_excludes {σ : Type} (P : Params)
    (F : KLMTrackFinder σ) (s0 : σ) (mode iSubdetector iSection iSector iLayer : Int)
    (hits2D : List KLMHit2d) (tracks : List KLMTrack) (c : FinderCall)
    (hc : c ∈ (runTracking P F s0 mode iSubdetector iSection iSector iLayer hits2D
      tracks).finderCalls) :
    c.hi ∉ c.sectorHitList ∧ c.hj ∉ c.sectorHitList ∧
    ∀ ho ∈ c.sectorHitList,
      (hitAt c.store ho).isOnStaTrack = false ∧ (hitAt c.store ho).isOutOfTime = false := by
  have h := runTracking_callOK P F s0 mode iSubdetector iSection iSector iLayer hits2D tracks c hc
  have key : ∀ ho ∈ c.sectorHitList, ho ≠ c.hi ∧ ho ≠ c.hj ∧
      (hitAt c.store ho).isOnStaTrack = false ∧ (hitAt c.store ho).isOutOfTime = false := by
    intro ho hho
    rw [h.pool] at hho
    have hp := (mem_buildPool _ _ _ _ _ _ _ _ _ hho).2
    unfold poolAccepts at hp
    simp only [Bool.and_eq_true, Bool.not_eq_true', Bool.or_eq_false_iff, beq_eq_false_iff_ne,
      ne_eq] at hp
    exact ⟨hp.1.1.1.1.1.1.1, hp.1.1.1.1.1.1.2, hp.1.1.2, hp.2⟩
  exact ⟨fun hmem => (key _ hmem).1 rfl, fun hmem => (key _ hmem).2.1 rfl,
    fun ho hho => (key ho hho).2.2⟩

/-- Witness for C4: the first finder call on `store7`. -/
theorem runTracking_pool_excludes_witness :
    store7FirstCall ∈ (runTracking Params.default takeTwoFinder () 0 c_BKLM (-1) (-1) (-1)
      store7 []).finderCalls ∧
    (store7FirstCall.hi ∉ store7FirstCall.sectorHitList ∧
     store7FirstCall.hj ∉ store7FirstCall.sectorHitList ∧
     ∀ ho ∈ store7FirstCall.sectorHitList,
       (hitAt store7FirstCall.store ho).isOnStaTrack = false ∧
       (hitAt store7FirstCall.store ho).isOutOfTime = false) :=
  ⟨by decide,
   runTracking_pool_excludes Params.default takeTwoFinder () 0 c_BKLM (-1) (-1) (-1)
     store7 [] store7FirstCall (by decide)⟩

/-- C5: in either mode, if the hits at store indices `a` and `b` have the
same section and the same sector and their layers differ by less than 3,
the finder is never invoked with `a` and `b` as its seed pair, and no track
comes from such an invocation: every new track comes from a finder call
with another seed pair. Nothing is assumed of the other hits. -/
theorem runTracking_skips_near_seed_pairs {σ : Type} (P : Params)
    (F : KLMTrackFinder σ) (s0 : σ) (mode iSubdetector iSection iSector iLayer : Int)
    (hits2D : List KLMHit2d) (tracks : List KLMTrack) (a b : Nat)
    (hsec : (hitAt hits2D a).getSection = (hitAt hits2D b).getSection)
    (hsct : (hitAt hits2D a).getSector = (hitAt hits2D b).getSector)
    (hlay : |(hitAt hits2D a).getLayer - (hitAt hits2D b).getLayer| < 3) :
    (∀ c ∈ (runTracking P F s0 mode iSubdetector iSection iSector iLayer hits2D
        tracks).finderCalls,
      ¬ ((c.hi = a ∧ c.hj = b) ∨ (c.hi = b ∧ c.hj = a))) ∧
    TracksFromCalls tracks
      (runTracking P F s0 mode iSubdetector iSection iSector iLayer hits2D tracks)
      (fun _ c => ¬ ((c.hi = a ∧ c.hj = b) ∨ (c.hi = b ∧ c.hj = a))) := by
  have key : ∀ c, CallOK P F mode iSubdetector iSection iSector iLayer hits2D c →
      ¬ ((c.hi = a ∧ c.hj = b) ∨ (c.hi = b ∧ c.hj = a)) := by
    intro c h hab
    apply h.seedApart
    have e1 : ∀ i, (hitAt c.store i).getSection = (hitAt hits2D i).getSection :=
      h.frame.attr (fun x => x.getSection) (fun _ => rfl)
    have e2 : ∀ i, (hitAt c.store i).getSector = (hitAt hits2D i).getSector :=
      h.frame.attr (fun x => x.getSector) (fun _ => rfl)
    have e3 : ∀ i, (hitAt c.store i).getLayer = (hitAt hits2D i).getLayer :=
      h.frame.attr (fun x => x.getLayer) (fun _ => rfl)
    unfold sameSector
    rw [e1, e1, e2, e2, e3, e3]
    rcases hab with ⟨h1, h2⟩ | ⟨h1, h2⟩
    · rw [h1, h2]
      exact ⟨by simp [hsec, hsct], hlay⟩
    · rw [h1, h2]
      exact ⟨by simp [hsec, hsct], by rw [abs_sub_comm]; exact hlay⟩
  exact ⟨fun c hc => key c (runTracking_callOK P F s0 mode iSubdetector iSection iSector
      iLayer hits2D tracks c hc),
    runTracking_tracksFromCalls P F s0 mode iSubdetector iSection iSector iLayer hits2D
      tracks _ (fun _ c h _ _ => key c h)⟩

/-- Witness for C5: hits 0 and 2 of `studyStore` lie in one sector on
layers 1 and 3; the run makes a finder call, but none seeded by them. -/
theorem runTracking_skips_near_seed_pairs_witness :
    (runTracking Params.default takeTwoFinder () 0 c_BKLM (-1) (-1) (-1) studyStore
      []).finderCalls ≠ [] ∧
    |(hitAt studyStore 0).getLayer - (hitAt studyStore 2).getLayer| < 3 ∧
    ∀ c ∈ (runTracking Params.default takeTwoFinder () 0 c_BKLM (-1) (-1) (-1) studyStore
        []).finderCalls,
      ¬ ((c.hi = 0 ∧ c.hj = 2) ∨ (c.hi = 2 ∧ c.hj = 0)) :=
  ⟨by decide, by decide,
   (runTracking_skips_near_seed_pairs Params.default takeTwoFinder () 0 c_BKLM (-1) (-1) (-1)
     studyStore [] 0 2 (by decide) (by decide) (by decide)).1⟩

/-- C6: for every invocation of the finder the pool is the one built from
the store for the seed pair, and its size lies between `m_minHitList` and
`m_maxHitList`; every new track comes from such an invocation, so a seed
pair whose pool size is outside that range yields neither a finder call nor
a track. -/
theorem runTracking_pool_size_bounds {σ : Type} (P : Params)
    (F : KLMTrackFinder σ) (s0 : σ) (mode iSubdetector iSection iSector iLayer : Int)
    (hits2D : List KLMHit2d) (tracks : List KLMTrack) :
    (∀ c ∈ (runTracking P F s0 mode iSubdetector iSection iSector iLayer hits2D
        tracks).finderCalls,
      c.sectorHitList = buildPool mode iSubdetector iSection iSector iLayer c.store c.hi c.hj ∧
      P.m_minHitList ≤ c.sectorHitList.length ∧ c.sectorHitList.length ≤ P.m_maxHitList) ∧
    TracksFromCalls tracks
      (runTracking P F s0 mode iSubdetector iSection iSector iLayer hits2D tracks)
      (fun _ c =>
        c.sectorHitList = buildPool mode iSubdetector iSection iSector iLayer c.store c.hi c.hj ∧
        P.m_minHitList ≤ c.sectorHitList.length ∧ c.sectorHitList.length ≤ P.m_maxHitList) :=
  ⟨fun c hc =>
    have h := runTracking_callOK P F s0 mode iSubdetector iSection iSector iLayer hits2D
      tracks c hc
    ⟨h.pool, h.poolMin, h.poolMax⟩,
   runTracking_tracksFromCalls P F s0 mode iSubdetector iSection iSector iLayer hits2D
     tracks _ (fun _ _ h _ _ => ⟨h.pool, h.poolMin, h.poolMax⟩)⟩

/-- Witness for C6: the first finder call on `store7` has a pool of five
hits, within the default bounds 2 and 60; and for the two hits of
`twoHitStore`, on layers 3 and 9 of one sector, the pool is empty, the
finder is never invoked and no track is created. -/
theorem runTracking_pool_size_bounds_witness :
    (store7FirstCall ∈ (runTracking Params.default takeTwoFinder () 0 c_BKLM (-1) (-1) (-1)
        store7 []).finderCalls ∧
      2 ≤ store7FirstCall.sectorHitList.length ∧ store7FirstCall.sectorHitList.length ≤ 60) ∧
    buildPool 0 c_BKLM (-1) (-1) (-1) twoHitStore 0 1 = [] ∧
    (runTracking Params.default takeTwoFinder () 0 c_BKLM (-1) (-1) (-1) twoHitStore
      []).finderCalls = [] ∧
    (runTracking Params.default takeTwoFinder () 0 c_BKLM (-1) (-1) (-1) twoHitStore
      []).m_storeTracks = [] :=
  ⟨⟨by decide,
    ((runTracking_pool_size_bounds Params.default takeTwoFinder () 0 c_BKLM (-1) (-1) (-1)
      store7 []).1 store7FirstCall (by decide)).2⟩,
   by decide, by decide, by decide⟩

/-- C7: every track that `runTracking` persists comes from an accepting
answer of the finder, and the sequence of hit relations added to the track
is a permutation of the list `m_hits` the finder returned and is
non-decreasing in layer number. -/
theorem runTracking_relations_sorted_perm {σ : Type} (P : Params)
    (F : KLMTrackFinder σ) (s0 : σ) (mode iSubdetector iSection iSector iLayer : Int)
    (hits2D : List KLMHit2d) (tracks : List KLMTrack) :
    TracksFromCalls tracks
      (runTracking P F s0 mode iSubdetector iSection iSector iLayer hits2D tracks)
      (fun t c =>
        (∃ s, (F.filter s c.store [c.hi, c.hj] c.sectorHitList iSubdetector).2 =
          (true, c.m_hits)) ∧
        t.relatedHit2D.Perm c.m_hits ∧
        (t.relatedHit2D.map (fun j => (hitAt hits2D j).getLayer)).Sorted (fun x y => x ≤ y)) := by
  refine runTracking_tracksFromCalls P F s0 mode iSubdetector iSection iSector iLayer hits2D
    tracks _ ?_
  intro t c h hacc hrel
  refine ⟨?_, ?_, ?_⟩
  · obtain ⟨s, hs⟩ := h.verdict
    exact ⟨s, by rw [hs, hacc]⟩
  · rw [hrel]
    exact sortHits_perm _ _
  · rw [hrel]
    have e : (fun j => (hitAt hits2D j).getLayer) = (fun j => (hitAt c.store j).getLayer) := by
      funext j
      exact (h.frame.attr (fun x => x.getLayer) (fun _ => rfl) j).symm
    rw [e]
    exact sortHits_sorted _ _

/-- Witness for C7: on `studyStore` the finder returns `[0, 1, 2, 3]`, whose
layers are 1, 5, 3, 7, and the track relates to `[0, 2, 1, 3]`. -/
theorem runTracking_relations_sorted_perm_witness :
    (runTracking Params.default takeTwoFinder () 0 c_BKLM (-1) (-1) (-1) studyStore
      []).finderCalls.map (fun c => c.m_hits) = [[0, 1, 2, 3]] ∧
    (runTracking Params.default takeTwoFinder () 0 c_BKLM (-1) (-1) (-1) studyStore
      []).m_storeTracks.map (fun t => t.relatedHit2D) = [[0, 2, 1, 3]] ∧
    TracksFromCalls []
      (runTracking Params.default takeTwoFinder () 0 c_BKLM (-1) (-1) (-1) studyStore [])
      (fun t c =>
        (∃ s, (takeTwoFinder.filter s c.store [c.hi, c.hj] c.sectorHitList c_BKLM).2 =
          (true, c.m_hits)) ∧
        t.relatedHit2D.Perm c.m_hits ∧
        (t.relatedHit2D.map (fun j => (hitAt studyStore j).getLayer)).Sorted
          (fun x y => x ≤ y)) :=
  ⟨by decide, by decide,
   runTracking_relations_sorted_perm Params.default takeTwoFinder () 0 c_BKLM (-1) (-1) (-1)
     studyStore []⟩

/-! ## Claims on `generateEffi` -/

/-- C10: a track that passed the layer checks and whose predicted local
position has its `y` or its `z` on or outside the acceptance box leaves the
whole state of `generateEffi` as it was, so no total counter, no pass
counter and not the binomial accumulator changes, and the call gives the
same result as if the track were not in the collection. The box bounds are
the smaller and the larger coordinate of the two extreme strip corners. -/
theorem generateEffi_outside_box_no_fill (P : Params) (G : GeometryPar) (sqrt : ℚ → ℚ)
    (hits : List KLMHit2d) (iSubdetector iSection iSector iLayer : Int) (t : KLMTrack)
    (global loc : Vec3)
    (hcheck : layerCheck P hits iSubdetector iLayer t = LayerCheck.pass)
    (hpred : predict G iSection iSector iLayer t = some (global, loc))
    (hout : loc.y ≤ (acceptanceBox G iSection iSector iLayer).minLocalY ∨
      (acceptanceBox G iSection iSector iLayer).maxLocalY ≤ loc.y ∨
      loc.z ≤ (acceptanceBox G iSection iSector iLayer).minLocalZ ∨
      (acceptanceBox G iSection iSector iLayer).maxLocalZ ≤ loc.z) :
    (∀ st, trackStep P G sqrt hits iSubdetector iSection iSector iLayer st t = st) ∧
    (∀ ts1 ts2 acc,
      generateEffi P G sqrt hits (ts1 ++ t :: ts2) iSubdetector iSection iSector iLayer acc =
        generateEffi P G sqrt hits (ts1 ++ ts2) iSubdetector iSection iSector iLayer acc) ∧
    (acceptanceBox G iSection iSector iLayer).minLocalY =
      min ((G.findModule iSection (iSector + 1) (iLayer + 1)).getLocalPosition
            (G.findModule iSection (iSector + 1) (iLayer + 1)).getPhiStripMin
            (G.findModule iSection (iSector + 1) (iLayer + 1)).getZStripMin).y
          ((G.findModule iSection (iSector + 1) (iLayer + 1)).getLocalPosition
            (G.findModule iSection (iSector + 1) (iLayer + 1)).getPhiStripMax
            (G.findModule iSection (iSector + 1) (iLayer + 1)).getZStripMax).y ∧
    (acceptanceBox G iSection iSector iLayer).maxLocalY =
      max ((G.findModule iSection (iSector + 1) (iLayer + 1)).getLocalPosition
            (G.findModule iSection (iSector + 1) (iLayer + 1)).getPhiStripMin
            (G.findModule iSection (iSector + 1) (iLayer + 1)).getZStripMin).y
          ((G.findModule iSection (iSector + 1) (iLayer + 1)).getLocalPosition
            (G.findModule iSection (iSector + 1) (iLayer + 1)).getPhiStripMax
            (G.findModule iSection (iSector + 1) (iLayer + 1)).getZStripMax).y ∧
    (acceptanceBox G iSection iSector iLayer).minLocalZ =
      min ((G.findModule iSection (iSector + 1) (iLayer + 1)).getLocalPosition
            (G.findModule iSection (iSector + 1) (iLayer + 1)).getPhiStripMin
            (G.findModule iSection (iSector + 1) (iLayer + 1)).getZStripMin).z
          ((G.findModule iSection (iSector + 1) (iLayer + 1)).getLocalPosition
            (G.findModule iSection (iSector + 1) (iLayer + 1)).getPhiStripMax
            (G.findModule iSection (iSector + 1) (iLayer + 1)).getZStripMax).z ∧
    (acceptanceBox G iSection iSector iLayer).maxLocalZ =
      max ((G.findModule iSection (iSector + 1) (iLayer + 1)).getLocalPosition
            (G.findModule iSection (iSector + 1) (iLayer + 1)).getPhiStripMin
            (G.findModule iSection (iSector + 1) (iLayer + 1)).getZStripMin).z
          ((G.findModule iSection (iSector + 1) (iLayer + 1)).getLocalPosition
            (G.findModule iSection (iSector + 1) (iLayer + 1)).getPhiStripMax
            (G.findModule iSection (iSector + 1) (iLayer + 1)).getZStripMax).z := by
  have hbox : insideBox (acceptanceBox G iSection iSector iLayer) loc = false := by
    unfold insideBox
    rw [decide_eq_false_iff_not]
    rintro ⟨h1, h2, h3, h4⟩
    rcases hout with h | h | h | h
    · exact absurd h1 (not_lt.mpr h)
    · exact absurd h2 (not_lt.mpr h)
    · exact absurd h3 (not_lt.mpr h)
    · exact absurd h4 (not_lt.mpr h)
  have hstep : ∀ st, trackStep P G sqrt hits iSubdetector iSection iSector iLayer st t = st := by
    intro st
    unfold trackStep
    split_ifs with hr
    · rfl
    · rw [hcheck]
      simp only
      unfold evaluateTrack
      split_ifs with hb
      · rw [hpred]
        simp only [hbox, Bool.false_eq_true, if_false]
      · rfl
  refine ⟨hstep, ?_, ?_, ?_, ?_, ?_⟩
  · intro ts1 ts2 acc
    unfold generateEffi
    simp only [List.foldl_append, List.foldl_cons, hstep]
    by_cases h1 : ts1 = [] <;> by_cases h2 : ts2 = []
    · subst h1 h2
      simp
    · simp [h1, h2]
    · simp [h1, h2]
    · simp [h1, h2]
  all_goals
    unfold acceptanceBox
    simp only
    split_ifs with h
    · first
        | exact (min_eq_right (le_of_lt h)).symm
        | exact (max_eq_left (le_of_lt h)).symm
    · first
        | exact (min_eq_left (not_lt.mp h)).symm
        | exact (max_eq_right (not_lt.mp h)).symm

/-- Witness for C10: on layer index 2 of `flatGeometry` the track
`edgeTrack` passes the layer checks and is predicted at local
`(20, 10, 0)`, exactly on the upper `y` bound 10 of the box; evaluating it
leaves empty histograms empty. -/
theorem generateEffi_outside_box_no_fill_witness :
    layerCheck Params.default edgeStore c_BKLM 2 edgeTrack = LayerCheck.pass ∧
    predict flatGeometry 0 0 2 edgeTrack = some (⟨20, 10, 0⟩, ⟨20, 10, 0⟩) ∧
    (acceptanceBox flatGeometry 0 0 2).maxLocalY = 10 ∧
    generateEffi Params.default flatGeometry Rat.sqrt edgeStore ([] ++ edgeTrack :: []) c_BKLM
        0 0 2 emptyAccumulator =
      generateEffi Params.default flatGeometry Rat.sqrt edgeStore ([] ++ []) c_BKLM 0 0 2
        emptyAccumulator ∧
    (generateEffi Params.default flatGeometry Rat.sqrt edgeStore [edgeTrack] c_BKLM
        0 0 2 emptyAccumulator).acc = emptyAccumulator :=
  have hp : predict flatGeometry 0 0 2 edgeTrack = some (⟨20, 10, 0⟩, ⟨20, 10, 0⟩) := by
    norm_num [predict, flatGeometry, flatModule, edgeTrack, fdiv]
  have h := generateEffi_outside_box_no_fill Params.default flatGeometry Rat.sqrt edgeStore
    c_BKLM 0 0 2 edgeTrack ⟨20, 10, 0⟩ ⟨20, 10, 0⟩ (by decide) hp
    (Or.inr (Or.inl (by decide)))
  ⟨by decide, hp, by decide, h.2.1 [] [] emptyAccumulator,
   by
    have e := h.2.1 [] [] emptyAccumulator
    simp only [List.nil_append] at e
    rw [e]
    rfl⟩

/-! ## Facts shared by the claims on the loop of `generateEffi` -/

theorem generateEffi_drop_track (P : Params) (G : GeometryPar) (sqrt : ℚ → ℚ)
    (hits : List KLMHit2d) (iSubdetector iSection iSector iLayer : Int) (t : KLMTrack)
    (hstep : ∀ st, trackStep P G sqrt hits iSubdetector iSection iSector iLayer st t = st)
    (ts1 ts2 : List KLMTrack) (acc : EfficiencyAccumulator) :
    generateEffi P G sqrt hits (ts1 ++ t :: ts2) iSubdetector iSection iSector iLayer acc =
      generateEffi P G sqrt hits (ts1 ++ ts2) iSubdetector iSection iSector iLayer acc := by
  unfold generateEffi
  simp only [List.foldl_append, List.foldl_cons, hstep]
  by_cases h1 : ts1 = [] <;> by_cases h2 : ts2 = []
  · subst h1 h2
    simp
  · simp [h1, h2]
  · simp [h1, h2]
  · simp [h1, h2]

theorem hitMatches_iff (P : Params) (G : GeometryPar) (sqrt : ℚ → ℚ) (hits : List KLMHit2d)
    (iSection iSector iLayer : Int) (used : List Nat) (t : KLMTrack) (he : Nat) :
    hitMatches P G sqrt hits iSection iSector iLayer used t he = true ↔
      isLayerUnderStudy iSection iSector iLayer (hitAt hits he) = true ∧
      (hitAt hits he).isOutOfTime = false ∧ he ∉ used ∧
      withinWindow P G sqrt t (hitAt hits he) = true := by
  have e : hitMatches P G sqrt hits iSection iSector iLayer used t he =
      (isLayerUnderStudy iSection iSector iLayer (hitAt hits he) &&
        !(hitAt hits he).isOutOfTime && !(decide (he ∈ used)) &&
        withinWindow P G sqrt t (hitAt hits he)) := rfl
  rw [e]
  simp [and_assoc]

theorem find?_range_some (p : Nat → Bool) (n he : Nat)
    (h : (List.range n).find? p = some he) :
    he < n ∧ p he = true ∧ ∀ k, k < he → p k = false := by
  induction n with
  | zero => simp at h
  | succ n ih =>
    rw [List.range_succ, List.find?_append] at h
    cases hn : (List.range n).find? p with
    | some x =>
      rw [hn] at h
      simp at h
      subst h
      obtain ⟨h1, h2, h3⟩ := ih hn
      exact ⟨Nat.lt_succ_of_lt h1, h2, h3⟩
    | none =>
      rw [hn] at h
      simp only [Option.or, List.find?_cons, List.find?_nil] at h
      have hp : p n = true := by
        cases hpn : p n with
        | true => rfl
        | false => rw [hpn] at h; simp at h
      have hmem : he = n := by
        rw [hp] at h
        simpa using h.symm
      subst hmem
      refine ⟨Nat.lt_succ_self _, hp, ?_⟩
      intro k hk
      have := List.find?_eq_none.mp hn k (List.mem_range.mpr hk)
      simpa using this

theorem find?_range_none (p : Nat → Bool) (n : Nat) :
    (List.range n).find? p = none ↔ ∀ k, k < n → p k = false := by
  rw [List.find?_eq_none]
  constructor
  · intro h k hk
    simpa using h k (List.mem_range.mpr hk)
  · intro h k hk
    simpa using h k (List.mem_range.mp hk)

theorem trackStep_inside (P : Params) (G : GeometryPar) (sqrt : ℚ → ℚ)
    (hits : List KLMHit2d) (iSection iSector iLayer : Int) (st : EffiState) (t : KLMTrack)
    (global loc : Vec3)
    (hret : st.returned = false)
    (hcheck : layerCheck P hits c_BKLM iLayer t = LayerCheck.pass)
    (hpred : predict G iSection iSector iLayer t = some (global, loc))
    (hin : insideBox (acceptanceBox G iSection iSector iLayer) loc = true) :
    trackStep P G sqrt hits c_BKLM iSection iSector iLayer st t =
      afterEvaluation iSection iSector iLayer global st
        ((List.range hits.length).find?
          (hitMatches P G sqrt hits iSection iSector iLayer st.m_pointUsed t)) := by
  unfold trackStep
  rw [if_neg (by simp [hret]), hcheck]
  simp only
  unfold evaluateTrack
  rw [if_pos rfl, hpred]
  simp only [hin, if_true]
  cases (List.range hits.length).find?
      (hitMatches P G sqrt hits iSection iSector iLayer st.m_pointUsed t) <;>
    simp [afterEvaluation]

theorem insideBox_of_strict (box : AcceptanceBox) (loc : Vec3)
    (h1 : box.minLocalY < loc.y) (h2 : loc.y < box.maxLocalY)
    (h3 : box.minLocalZ < loc.z) (h4 : loc.z < box.maxLocalZ) :
    insideBox box loc = true := by
  unfold insideBox
  exact decide_eq_true ⟨h1, h2, h3, h4⟩

theorem trackStep_pointUsed (P : Params) (G : GeometryPar) (sqrt : ℚ → ℚ)
    (hits : List KLMHit2d) (iSubdetector iSection iSector iLayer : Int) (st : EffiState)
    (t : KLMTrack) :
    (trackStep P G sqrt hits iSubdetector iSection iSector iLayer st t).m_pointUsed =
        st.m_pointUsed ∨
    ∃ he, (trackStep P G sqrt hits iSubdetector iSection iSector iLayer st t).m_pointUsed =
        st.m_pointUsed ++ [he] ∧
      he < hits.length ∧
      hitMatches P G sqrt hits iSection iSector iLayer st.m_pointUsed t he = true := by
  unfold trackStep
  split_ifs with hr
  · exact Or.inl rfl
  · cases hc : layerCheck P hits iSubdetector iLayer t with
    | skipTrack => exact Or.inl rfl
    | returnNow => exact Or.inl rfl
    | pass =>
      simp only
      unfold evaluateTrack
      split_ifs with hb
      · cases hp : predict G iSection iSector iLayer t with
        | none => exact Or.inl rfl
        | some gl =>
          obtain ⟨global, loc⟩ := gl
          simp only
          split_ifs with hin
          · cases hf : (List.range hits.length).find?
                (hitMatches P G sqrt hits iSection iSector iLayer st.m_pointUsed t) with
            | none => exact Or.inl rfl
            | some he =>
              obtain ⟨h1, h2, _⟩ := find?_range_some _ _ _ hf
              exact Or.inr ⟨he, rfl, h1, h2⟩
          · exact Or.inl rfl
      · exact Or.inl rfl

theorem find?_range_eq_some_of (p : Nat → Bool) (n he : Nat) (hlt : he < n)
    (hp : p he = true) (hfalse : ∀ k, k < he → p k = false) :
    (List.range n).find? p = some he := by
  cases h : (List.range n).find? p with
  | none =>
    have := (find?_range_none p n).mp h he hlt
    rw [hp] at this
    exact absurd this (by simp)
  | some x =>
    obtain ⟨_, h2, h3⟩ := find?_range_some p n x h
    rcases Nat.lt_trichotomy x he with hx | hx | hx
    · rw [hfalse x hx] at h2
      exact absurd h2 (by simp)
    · rw [hx]
    · rw [h3 he hx] at hp
      exact absurd hp (by simp)

theorem eligibleHit_iff (P : Params) (G : GeometryPar) (sqrt : ℚ → ℚ) (hits : List KLMHit2d)
    (iSection iSector iLayer : Int) (used : List Nat) (t : KLMTrack) (he : Nat) :
    eligibleHit P G sqrt hits iSection iSector iLayer used t he ↔
      he < hits.length ∧
        hitMatches P G sqrt hits iSection iSector iLayer used t he = true := by
  unfold eligibleHit
  rw [hitMatches_iff]

theorem trackStep_preserves_nodup (P : Params) (G : GeometryPar) (sqrt : ℚ → ℚ)
    (hits : List KLMHit2d) (iSubdetector iSection iSector iLayer : Int) (st : EffiState)
    (t : KLMTrack) (h : st.m_pointUsed.Nodup) :
    (trackStep P G sqrt hits iSubdetector iSection iSector iLayer st t).m_pointUsed.Nodup := by
  rcases trackStep_pointUsed P G sqrt hits iSubdetector iSection iSector iLayer st t with
    e | ⟨he, e, _, hm⟩
  · rw [e]
    exact h
  · rw [e]
    have hn := ((hitMatches_iff P G sqrt hits iSection iSector iLayer _ t he).mp hm).2.2.1
    exact List.Nodup.append h (List.nodup_singleton he)
      (by
        intro a ha hb
        rw [List.mem_singleton] at hb
        subst hb
        exact hn ha)

theorem layerList_length_le (hits : List KLMHit2d) (iSubdetector iLayer : Int) (t : KLMTrack) :
    (layerList hits iSubdetector iLayer t).length ≤
      (distinctLayers hits iSubdetector t).length := by
  unfold layerList distinctLayers
  apply List.Subperm.length_le
  apply List.subperm_of_subset (List.nodup_dedup _)
  intro a ha
  rw [List.mem_dedup, List.mem_map] at ha ⊢
  obtain ⟨j, hj, rfl⟩ := ha
  rw [List.mem_filter] at hj
  refine ⟨j, List.mem_filter.mpr ⟨hj.1, ?_⟩, rfl⟩
  have := hj.2
  simp only [Bool.and_eq_true] at this
  exact this.1

/-! ## Facts about the concrete inputs of the scan -/

theorem scanTrack_predict :
    predict flatGeometry 0 0 2 scanTrack = some (⟨20, 0, 5⟩, ⟨20, 0, 5⟩) := by
  norm_num [predict, flatGeometry, flatModule, scanTrack, fdiv]

theorem flatGeometry_box :
    acceptanceBox flatGeometry 0 0 2 =
      { minLocalY := -10, maxLocalY := 10, minLocalZ := -10, maxLocalZ := 10 } := by
  norm_num [acceptanceBox, flatGeometry, flatModule]

theorem scanTrack_distance (x : ℚ) :
    distanceToHit flatGeometry Rat.sqrt scanTrack (mkHitAt 1 0 1 3 (4 * x) 0 x) =
      (some 0, 5 / 3, some 0) := by
  have e : x / (1 / 4) - 4 * x = 0 := by ring
  norm_num [distanceToHit, flatGeometry, flatModule, scanTrack, mkHitAt, fdiv, c_BKLM,
    Rat.sqrt_ofNat, e]
  norm_num [Rat.sqrt]

theorem scanTrack_window (x : ℚ) :
    withinWindow Params.default flatGeometry Rat.sqrt scanTrack (mkHitAt 1 0 1 3 (4 * x) 0 x) =
      true := by
  unfold withinWindow
  rw [scanTrack_distance]
  norm_num [Params.default]

theorem scanStore_window (he : Nat) (h : he = 4 ∨ he = 5) :
    withinWindow Params.default flatGeometry Rat.sqrt scanTrack (hitAt scanStore he) = true := by
  have e : hitAt scanStore he = mkHitAt 1 0 1 3 (4 * 5) 0 5 := by
    rcases h with h | h <;> subst h <;> norm_num [hitAt, scanStore, mkHitAt]
  rw [e]
  exact scanTrack_window 5

theorem farStore_window :
    withinWindow Params.default flatGeometry Rat.sqrt scanTrack (hitAt farStore 4) = true := by
  have e : hitAt farStore 4 = mkHitAt 1 0 1 3 (4 * 25) 0 25 := by
    norm_num [hitAt, farStore, mkHitAt]
  rw [e]
  exact scanTrack_window 25

theorem scanStore_find_first :
    (List.range scanStore.length).find?
      (hitMatches Params.default flatGeometry Rat.sqrt scanStore 0 0 2 [] scanTrack) =
        some 4 := by
  refine find?_range_eq_some_of _ _ _ (by decide) ?_ ?_
  · rw [hitMatches_iff]
    exact ⟨by decide, by decide, by simp, scanStore_window 4 (Or.inl rfl)⟩
  · intro k hk
    have hl : isLayerUnderStudy 0 0 2 (hitAt scanStore k) = false := by
      interval_cases k <;> decide
    simp [hitMatches, hl]

theorem scanStore_find_second :
    (List.range scanStore.length).find?
      (hitMatches Params.default flatGeometry Rat.sqrt scanStore 0 0 2 [4] scanTrack) =
        some 5 := by
  refine find?_range_eq_some_of _ _ _ (by decide) ?_ ?_
  · rw [hitMatches_iff]
    exact ⟨by decide, by decide, by simp, scanStore_window 5 (Or.inr rfl)⟩
  · intro k hk
    rcases Nat.lt_succ_iff_lt_or_eq.mp hk with hk4 | hk4
    · have hl : isLayerUnderStudy 0 0 2 (hitAt scanStore k) = false := by
        interval_cases k <;> decide
      simp [hitMatches, hl]
    · subst hk4
      simp [hitMatches]

theorem farStore_find :
    (List.range farStore.length).find?
      (hitMatches Params.default flatGeometry Rat.sqrt farStore 0 0 2 [] scanTrack) =
        some 4 := by
  refine find?_range_eq_some_of _ _ _ (by decide) ?_ ?_
  · rw [hitMatches_iff]
    exact ⟨by decide, by decide, by simp, farStore_window⟩
  · intro k hk
    have hl : isLayerUnderStudy 0 0 2 (hitAt farStore k) = false := by
      interval_cases k <;> decide
    simp [hitMatches, hl]

theorem scanTrack_inside :
    insideBox (acceptanceBox flatGeometry 0 0 2) ⟨20, 0, 5⟩ = true := by
  rw [flatGeometry_box]
  norm_num [insideBox]

theorem scanStore_first_step :
    trackStep Params.default flatGeometry Rat.sqrt scanStore c_BKLM 0 0 2 emptyEffiState
        scanTrack =
      afterEvaluation 0 0 2 ⟨20, 0, 5⟩ emptyEffiState (some 4) := by
  rw [trackStep_inside Params.default flatGeometry Rat.sqrt scanStore 0 0 2 emptyEffiState
    scanTrack ⟨20, 0, 5⟩ ⟨20, 0, 5⟩ rfl (by decide) scanTrack_predict scanTrack_inside]
  exact congrArg _ scanStore_find_first

theorem scanStore_second_step :
    trackStep Params.default flatGeometry Rat.sqrt scanStore c_BKLM 0 0 2
        (afterEvaluation 0 0 2 ⟨20, 0, 5⟩ emptyEffiState (some 4)) scanTrack =
      afterEvaluation 0 0 2 ⟨20, 0, 5⟩
        (afterEvaluation 0 0 2 ⟨20, 0, 5⟩ emptyEffiState (some 4)) (some 5) := by
  rw [trackStep_inside Params.default flatGeometry Rat.sqrt scanStore 0 0 2 _
    scanTrack ⟨20, 0, 5⟩ ⟨20, 0, 5⟩ rfl (by decide) scanTrack_predict scanTrack_inside]
  exact congrArg _ scanStore_find_second

/-! ## Further claims on `generateEffi` -/

/-- C11: a barrel track that is evaluated (the call has not returned, the
layer checks pass) with its predicted local position strictly inside the
acceptance box adds exactly one entry, `iLayer + 1`, to the total counter of
`(iSection, iSector)`, one to each total position map at the predicted
global point, and one to the binomial accumulator, carrying the flag that
tells whether the scan found a hit, at `iLayer + 1`; the pass counters get
exactly one entry at the same value and coordinates when a hit was found,
and none otherwise. -/
theorem generateEffi_inside_box_fills (P : Params) (G : GeometryPar) (sqrt : ℚ → ℚ)
    (hits : List KLMHit2d) (iSection iSector iLayer : Int) (st : EffiState) (t : KLMTrack)
    (global loc : Vec3)
    (hret : st.returned = false)
    (hcheck : layerCheck P hits c_BKLM iLayer t = LayerCheck.pass)
    (hpred : predict G iSection iSector iLayer t = some (global, loc))
    (h1 : (acceptanceBox G iSection iSector iLayer).minLocalY < loc.y)
    (h2 : loc.y < (acceptanceBox G iSection iSector iLayer).maxLocalY)
    (h3 : (acceptanceBox G iSection iSector iLayer).minLocalZ < loc.z)
    (h4 : loc.z < (acceptanceBox G iSection iSector iLayer).maxLocalZ) :
    ∃ found : Option Nat,
      found = (List.range hits.length).find?
        (hitMatches P G sqrt hits iSection iSector iLayer st.m_pointUsed t) ∧
      (trackStep P G sqrt hits c_BKLM iSection iSector iLayer st t).acc.m_total =
        st.acc.m_total ++ [(iSection, iSector, iLayer + 1)] ∧
      (trackStep P G sqrt hits c_BKLM iSection iSector iLayer st t).acc.m_totalYX =
        st.acc.m_totalYX ++ [(global.x, global.y)] ∧
      (trackStep P G sqrt hits c_BKLM iSection iSector iLayer st t).acc.m_totalYZ =
        st.acc.m_totalYZ ++ [(global.z, global.y)] ∧
      (trackStep P G sqrt hits c_BKLM iSection iSector iLayer st t).acc.m_effiVsLayer =
        st.acc.m_effiVsLayer ++ [(iSection, iSector, found.isSome, iLayer + 1)] ∧
      (found.isSome = true →
        (trackStep P G sqrt hits c_BKLM iSection iSector iLayer st t).acc.m_pass =
          st.acc.m_pass ++ [(iSection, iSector, iLayer + 1)] ∧
        (trackStep P G sqrt hits c_BKLM iSection iSector iLayer st t).acc.m_passYX =
          st.acc.m_passYX ++ [(global.x, global.y)] ∧
        (trackStep P G sqrt hits c_BKLM iSection iSector iLayer st t).acc.m_passYZ =
          st.acc.m_passYZ ++ [(global.z, global.y)]) ∧
      (found.isSome = false →
        (trackStep P G sqrt hits c_BKLM iSection iSector iLayer st t).acc.m_pass =
          st.acc.m_pass ∧
        (trackStep P G sqrt hits c_BKLM iSection iSector iLayer st t).acc.m_passYX =
          st.acc.m_passYX ∧
        (trackStep P G sqrt hits c_BKLM iSection iSector iLayer st t).acc.m_passYZ =
          st.acc.m_passYZ) := by
  refine ⟨_, rfl, ?_⟩
  rw [trackStep_inside P G sqrt hits iSection iSector iLayer st t global loc hret hcheck hpred
    (insideBox_of_strict _ _ h1 h2 h3 h4)]
  cases (List.range hits.length).find?
      (hitMatches P G sqrt hits iSection iSector iLayer st.m_pointUsed t) <;>
    simp [afterEvaluation]

/-- C12: for a barrel track evaluated with its prediction inside the box,
the hit that the scan consumes is the lowest store index among the hits
that are in the studied layer, in time, not consumed by an earlier track of
the call and within both windows; when there is no such hit nothing is
consumed. Only that one hit is added to the consumed set, so a second hit
in the window stays available; and at the end of every call no hit occurs
twice in the consumed set. -/
theorem generateEffi_first_eligible_hit (P : Params) (G : GeometryPar) (sqrt : ℚ → ℚ)
    (hits : List KLMHit2d) (iSection iSector iLayer : Int) (st : EffiState) (t : KLMTrack)
    (global loc : Vec3)
    (hret : st.returned = false)
    (hcheck : layerCheck P hits c_BKLM iLayer t = LayerCheck.pass)
    (hpred : predict G iSection iSector iLayer t = some (global, loc))
    (h1 : (acceptanceBox G iSection iSector iLayer).minLocalY < loc.y)
    (h2 : loc.y < (acceptanceBox G iSection iSector iLayer).maxLocalY)
    (h3 : (acceptanceBox G iSection iSector iLayer).minLocalZ < loc.z)
    (h4 : loc.z < (acceptanceBox G iSection iSector iLayer).maxLocalZ) :
    ((∃ he, eligibleHit P G sqrt hits iSection iSector iLayer st.m_pointUsed t he) →
      ∃ he0, eligibleHit P G sqrt hits iSection iSector iLayer st.m_pointUsed t he0 ∧
        (∀ k, k < he0 →
          ¬ eligibleHit P G sqrt hits iSection iSector iLayer st.m_pointUsed t k) ∧
        (trackStep P G sqrt hits c_BKLM iSection iSector iLayer st t).m_pointUsed =
          st.m_pointUsed ++ [he0]) ∧
    ((¬ ∃ he, eligibleHit P G sqrt hits iSection iSector iLayer st.m_pointUsed t he) →
      (trackStep P G sqrt hits c_BKLM iSection iSector iLayer st t).m_pointUsed =
        st.m_pointUsed) ∧
    (∀ tracks iSubdetector acc,
      (generateEffi P G sqrt hits tracks iSubdetector iSection iSector iLayer
        acc).m_pointUsed.Nodup) := by
  have hstep := trackStep_inside P G sqrt hits iSection iSector iLayer st t global loc hret
    hcheck hpred (insideBox_of_strict _ _ h1 h2 h3 h4)
  refine ⟨?_, ?_, ?_⟩
  · rintro ⟨he, hel⟩
    rw [eligibleHit_iff] at hel
    cases hf : (List.range hits.length).find?
        (hitMatches P G sqrt hits iSection iSector iLayer st.m_pointUsed t) with
    | none =>
      have := (find?_range_none _ _).mp hf he hel.1
      rw [hel.2] at this
      exact absurd this (by simp)
    | some he0 =>
      obtain ⟨a1, a2, a3⟩ := find?_range_some _ _ _ hf
      refine ⟨he0, (eligibleHit_iff _ _ _ _ _ _ _ _ _ _).mpr ⟨a1, a2⟩, ?_, ?_⟩
      · intro k hk hek
        rw [eligibleHit_iff] at hek
        rw [a3 k hk] at hek
        exact absurd hek.2 (by simp)
      · rw [hstep, hf]
        rfl
  · intro hno
    have hf : (List.range hits.length).find?
        (hitMatches P G sqrt hits iSection iSector iLayer st.m_pointUsed t) = none := by
      rw [find?_range_none]
      intro k hk
      cases hm : hitMatches P G sqrt hits iSection iSector iLayer st.m_pointUsed t k with
      | false => rfl
      | true => exact absurd ⟨k, (eligibleHit_iff _ _ _ _ _ _ _ _ _ _).mpr ⟨hk, hm⟩⟩ hno
    rw [hstep, hf]
    simp [afterEvaluation]
  · intro tracks iSubdetector acc
    unfold generateEffi
    simp only
    split_ifs
    · exact List.nodup_nil
    · exact foldl_preserves _ (fun s => s.m_pointUsed.Nodup) tracks
        { acc := acc, m_pointUsed := [], returned := false }
        (fun s x _ hs => trackStep_preserves_nodup P G sqrt hits iSubdetector iSection iSector
          iLayer s x hs) List.nodup_nil

/-- Witness for C11: `scanTrack` is predicted at `(20, 0, 5)`, inside the
box, and hit 4 of `scanStore` matches: on empty histograms the step leaves
one total entry, one pass entry and one binomial entry with the flag set,
all at layer value 3. -/
theorem generateEffi_inside_box_fills_witness :
    layerCheck Params.default scanStore c_BKLM 2 scanTrack = LayerCheck.pass ∧
    predict flatGeometry 0 0 2 scanTrack = some (⟨20, 0, 5⟩, ⟨20, 0, 5⟩) ∧
    (trackStep Params.default flatGeometry Rat.sqrt scanStore c_BKLM 0 0 2 emptyEffiState
      scanTrack).acc =
      { m_total := [(0, 0, 3)], m_pass := [(0, 0, 3)], m_totalYX := [(20, 0)],
        m_totalYZ := [(5, 0)], m_passYX := [(20, 0)], m_passYZ := [(5, 0)],
        m_effiVsLayer := [(0, 0, true, 3)] } := by
  have hb := flatGeometry_box
  obtain ⟨found, hf, a1, a2, a3, a4, a5, _⟩ :=
    generateEffi_inside_box_fills Params.default flatGeometry Rat.sqrt scanStore 0 0 2
      emptyEffiState scanTrack ⟨20, 0, 5⟩ ⟨20, 0, 5⟩ rfl (by decide) scanTrack_predict
      (by rw [hb]; norm_num) (by rw [hb]; norm_num) (by rw [hb]; norm_num)
      (by rw [hb]; norm_num)
  have hf4 : found = some 4 := hf.trans scanStore_find_first
  subst hf4
  obtain ⟨b1, b2, b3⟩ := a5 rfl
  refine ⟨by decide, scanTrack_predict, ?_⟩
  have e : ∀ a : EfficiencyAccumulator,
      a = { m_total := a.m_total, m_pass := a.m_pass, m_totalYX := a.m_totalYX,
            m_totalYZ := a.m_totalYZ, m_passYX := a.m_passYX, m_passYZ := a.m_passYZ,
            m_effiVsLayer := a.m_effiVsLayer } := fun _ => rfl
  rw [e (trackStep Params.default flatGeometry Rat.sqrt scanStore c_BKLM 0 0 2 emptyEffiState
      scanTrack).acc, a1, a2, a3, a4, b1, b2, b3]
  norm_num [emptyEffiState, emptyAccumulator]

/-- Witness for C12: hits 4 and 5 of `scanStore` are both in the window of
`scanTrack`; the first evaluation of the track consumes hit 4 only, and a
second evaluation in the same call consumes hit 5. -/
theorem generateEffi_first_eligible_hit_witness :
    eligibleHit Params.default flatGeometry Rat.sqrt scanStore 0 0 2 [] scanTrack 4 ∧
    eligibleHit Params.default flatGeometry Rat.sqrt scanStore 0 0 2 [] scanTrack 5 ∧
    (trackStep Params.default flatGeometry Rat.sqrt scanStore c_BKLM 0 0 2 emptyEffiState
      scanTrack).m_pointUsed = [4] ∧
    (generateEffi Params.default flatGeometry Rat.sqrt scanStore [scanTrack, scanTrack] c_BKLM
      0 0 2 emptyAccumulator).m_pointUsed = [4, 5] := by
  have hb := flatGeometry_box
  have e4 : eligibleHit Params.default flatGeometry Rat.sqrt scanStore 0 0 2 [] scanTrack 4 :=
    ⟨by decide, by decide, by decide, by simp, scanStore_window 4 (Or.inl rfl)⟩
  have e5 : eligibleHit Params.default flatGeometry Rat.sqrt scanStore 0 0 2 [] scanTrack 5 :=
    ⟨by decide, by decide, by decide, by simp, scanStore_window 5 (Or.inr rfl)⟩
  have h := (generateEffi_first_eligible_hit Params.default flatGeometry Rat.sqrt scanStore
    0 0 2 emptyEffiState scanTrack ⟨20, 0, 5⟩ ⟨20, 0, 5⟩ rfl (by decide) scanTrack_predict
    (by rw [hb]; norm_num) (by rw [hb]; norm_num) (by rw [hb]; norm_num)
    (by rw [hb]; norm_num)).1 ⟨4, e4⟩
  obtain ⟨he0, hel, hlow, hused⟩ := h
  have h04 : he0 = 4 := by
    rcases Nat.lt_trichotomy he0 4 with hlt | heq | hgt
    · have hl : isLayerUnderStudy 0 0 2 (hitAt scanStore he0) = false := by
        interval_cases he0 <;> decide
      rw [hel.2.1] at hl
      exact absurd hl (by simp)
    · exact heq
    · exact absurd e4 (hlow 4 hgt)
  subst h04
  refine ⟨e4, e5, by simpa [emptyEffiState] using hused, ?_⟩
  have e : generateEffi Params.default flatGeometry Rat.sqrt scanStore [scanTrack, scanTrack]
      c_BKLM 0 0 2 emptyAccumulator =
      trackStep Params.default flatGeometry Rat.sqrt scanStore c_BKLM 0 0 2
        (trackStep Params.default flatGeometry Rat.sqrt scanStore c_BKLM 0 0 2 emptyEffiState
          scanTrack) scanTrack := rfl
  rw [e, scanStore_first_step, scanStore_second_step]
  rfl

/-- C13 as stated fails: hit 4 of `farStore` is matched to `scanTrack`, whose
predicted point is `(20, 0, 5)`, although the squared Euclidean distance
between that point and the hit, 6800, is not below the square of
`m_maxDistance`, 100. -/
theorem generateEffi_matches_far_hit :
    predict flatGeometry 0 0 2 scanTrack = some (⟨20, 0, 5⟩, ⟨20, 0, 5⟩) ∧
    (trackStep Params.default flatGeometry Rat.sqrt farStore c_BKLM 0 0 2 emptyEffiState
      scanTrack).m_pointUsed = [4] ∧
    distSqToPrediction ⟨20, 0, 5⟩ (hitAt farStore 4) = 6800 ∧
    ¬ (distSqToPrediction ⟨20, 0, 5⟩ (hitAt farStore 4) <
      Params.default.m_maxDistance * Params.default.m_maxDistance) := by
  refine ⟨scanTrack_predict, ?_, ?_, ?_⟩
  · rw [trackStep_inside Params.default flatGeometry Rat.sqrt farStore 0 0 2 emptyEffiState
      scanTrack ⟨20, 0, 5⟩ ⟨20, 0, 5⟩ rfl (by decide) scanTrack_predict scanTrack_inside]
    exact congrArg (fun f => (afterEvaluation 0 0 2 ⟨20, 0, 5⟩ emptyEffiState f).m_pointUsed)
      farStore_find
  · norm_num [distSqToPrediction, hitAt, farStore, mkHitAt]
  · norm_num [distSqToPrediction, hitAt, farStore, mkHitAt, Params.default]

/-- C13, amended: a hit is matched to a track only if it is a hit of the
studied layer and the distance that `distanceToHit` returns for the track
and the hit is below `m_maxDistance`, its `sigma` being below `m_maxSigma`;
the distance to the predicted point plays no part. -/
theorem generateEffi_match_uses_distanceToHit (P : Params) (G : GeometryPar)
    (sqrt : ℚ → ℚ) (hits : List KLMHit2d) (iSubdetector iSection iSector iLayer : Int)
    (st : EffiState) (t : KLMTrack) (he : Nat)
    (hmatch : (trackStep P G sqrt hits iSubdetector iSection iSector iLayer st t).m_pointUsed =
      st.m_pointUsed ++ [he]) :
    isLayerUnderStudy iSection iSector iLayer (hitAt hits he) = true ∧
    ∃ distance error sigma,
      distanceToHit G sqrt t (hitAt hits he) = (some distance, error, some sigma) ∧
      distance < P.m_maxDistance ∧ sigma < P.m_maxSigma := by
  have hm : hitMatches P G sqrt hits iSection iSector iLayer st.m_pointUsed t he = true := by
    rcases trackStep_pointUsed P G sqrt hits iSubdetector iSection iSector iLayer st t with
      e | ⟨he', e, _, hm⟩
    · rw [e] at hmatch
      have := congrArg List.length hmatch
      simp at this
    · rw [e] at hmatch
      have := List.append_cancel_left hmatch
      simp only [List.cons.injEq, and_true] at this
      rw [← this]
      exact hm
  rw [hitMatches_iff] at hm
  refine ⟨hm.1, ?_⟩
  have hw := hm.2.2.2
  unfold withinWindow at hw
  rcases hd : distanceToHit G sqrt t (hitAt hits he) with ⟨d, e, s⟩
  rw [hd] at hw
  cases d with
  | none => simp at hw
  | some d =>
    cases s with
    | none => simp at hw
    | some s =>
      simp only [Bool.and_eq_true, decide_eq_true_eq] at hw
      exact ⟨d, e, s, rfl, hw.1, hw.2⟩

/-- Witness for C13, amended: hit 4 of `scanStore`, matched to `scanTrack`,
has the distance 0 and the `sigma` 0. -/
theorem generateEffi_match_uses_distanceToHit_witness :
    (trackStep Params.default flatGeometry Rat.sqrt scanStore c_BKLM 0 0 2 emptyEffiState
      scanTrack).m_pointUsed = emptyEffiState.m_pointUsed ++ [4] ∧
    isLayerUnderStudy 0 0 2 (hitAt scanStore 4) = true ∧
    ∃ distance error sigma,
      distanceToHit flatGeometry Rat.sqrt scanTrack (hitAt scanStore 4) =
        (some distance, error, some sigma) ∧
      distance < Params.default.m_maxDistance ∧ sigma < Params.default.m_maxSigma :=
  have h : (trackStep Params.default flatGeometry Rat.sqrt scanStore c_BKLM 0 0 2
      emptyEffiState scanTrack).m_pointUsed = emptyEffiState.m_pointUsed ++ [4] := by
    rw [scanStore_first_step]
    rfl
  ⟨h, generateEffi_match_uses_distanceToHit Params.default flatGeometry Rat.sqrt scanStore
    c_BKLM 0 0 2 emptyEffiState scanTrack 4 h⟩

/-- C14: a track whose hits of the studied subsystem lie on fewer than
`m_minNLayer` distinct layers leaves the whole state of `generateEffi` as it
was, the flag that ends the loop included: no counter changes, and the call
gives the same result, for the tracks before and after it, as if the track
were not in the collection. -/
theorem generateEffi_few_layers_skipped (P : Params) (G : GeometryPar) (sqrt : ℚ → ℚ)
    (hits : List KLMHit2d) (iSubdetector iSection iSector iLayer : Int) (t : KLMTrack)
    (hfew : ((distinctLayers hits iSubdetector t).length : Int) < P.m_minNLayer) :
    (∀ st, trackStep P G sqrt hits iSubdetector iSection iSector iLayer st t = st) ∧
    (∀ ts1 ts2 acc,
      generateEffi P G sqrt hits (ts1 ++ t :: ts2) iSubdetector iSection iSector iLayer acc =
        generateEffi P G sqrt hits (ts1 ++ ts2) iSubdetector iSection iSector iLayer acc) := by
  have hcheck : layerCheck P hits iSubdetector iLayer t = LayerCheck.skipTrack := by
    unfold layerCheck
    have h := layerList_length_le hits iSubdetector iLayer t
    rw [if_pos (by omega)]
  have hstep : ∀ st, trackStep P G sqrt hits iSubdetector iSection iSector iLayer st t = st := by
    intro st
    unfold trackStep
    split_ifs
    · rfl
    · rw [hcheck]
  exact ⟨hstep, generateEffi_drop_track P G sqrt hits iSubdetector iSection iSector iLayer t
    hstep⟩

/-- Witness for C14: `fewLayerTrack` has hits on three layers, fewer than
the default `m_minNLayer` 4; placed before `scanTrack` it changes nothing,
and `scanTrack` is evaluated after it and consumes hit 4. -/
theorem generateEffi_few_layers_skipped_witness :
    ((distinctLayers scanStore c_BKLM fewLayerTrack).length : Int) <
      Params.default.m_minNLayer ∧
    generateEffi Params.default flatGeometry Rat.sqrt scanStore
        ([] ++ fewLayerTrack :: [scanTrack]) c_BKLM 0 0 2 emptyAccumulator =
      generateEffi Params.default flatGeometry Rat.sqrt scanStore ([] ++ [scanTrack]) c_BKLM
        0 0 2 emptyAccumulator ∧
    (generateEffi Params.default flatGeometry Rat.sqrt scanStore [fewLayerTrack, scanTrack]
      c_BKLM 0 0 2 emptyAccumulator).m_pointUsed = [4] := by
  have h := (generateEffi_few_layers_skipped Params.default flatGeometry Rat.sqrt scanStore
    c_BKLM 0 0 2 fewLayerTrack (by decide)).2 [] [scanTrack] emptyAccumulator
  refine ⟨by decide, h, ?_⟩
  have e : generateEffi Params.default flatGeometry Rat.sqrt scanStore [fewLayerTrack, scanTrack]
      c_BKLM 0 0 2 emptyAccumulator =
      generateEffi Params.default flatGeometry Rat.sqrt scanStore ([] ++ [scanTrack]) c_BKLM
        0 0 2 emptyAccumulator := h
  rw [e]
  have e2 : generateEffi Params.default flatGeometry Rat.sqrt scanStore ([] ++ [scanTrack])
      c_BKLM 0 0 2 emptyAccumulator =
      trackStep Params.default flatGeometry Rat.sqrt scanStore c_BKLM 0 0 2 emptyEffiState
        scanTrack := rfl
  rw [e2, scanStore_first_step]
  rfl

/-! ## Claims on `distanceToHit` -/

/-- C18: for every track and every hit whose subsystem is neither the
barrel nor the endcap KLM, `distanceToHit` returns the distance -1, a
negative value, and leaves `error` at `DBL_MAX`; the function is total. -/
theorem distanceToHit_unknown_subsystem (G : GeometryPar) (sqrt : ℚ → ℚ) (track : KLMTrack)
    (hit : KLMHit2d) (hB : hit.getSubdetector ≠ c_BKLM) (hE : hit.getSubdetector ≠ c_EKLM) :
    (distanceToHit G sqrt track hit).1 = some (-1) ∧
    (distanceToHit G sqrt track hit).2.1 = DBL_MAX ∧
    (-1 : ℚ) < 0 := by
  unfold distanceToHit
  simp only [if_neg hB, if_neg hE]
  norm_num

/-- Witness for C18: a hit of subsystem 3. -/
theorem distanceToHit_unknown_subsystem_witness :
    foreignHit.getSubdetector ≠ c_BKLM ∧ foreignHit.getSubdetector ≠ c_EKLM ∧
    (distanceToHit flatGeometry Rat.sqrt scanTrack foreignHit).1 = some (-1) :=
  ⟨by decide, by decide,
   (distanceToHit_unknown_subsystem flatGeometry Rat.sqrt scanTrack foreignHit (by decide)
     (by decide)).1⟩

/-! ## The loop of `findClosestRecoTrack` -/

theorem recoCandidate_eq_none_iff (Angle : Vec3 → Vec3 → ℚ) (first dir : Vec3)
    (track : RecoTrack) :
    recoCandidate Angle first dir track = none ↔ candidateUsable first track = false := by
  unfold recoCandidate candidateUsable
  cases track.wasFitSuccessful <;> simp
  cases track.getMeasuredStateOnPlaneFromLastHit with
  | none => simp
  | some last =>
    simp only
    cases (if last.mom.y * last.pos.y < 0 then track.getMeasuredStateOnPlaneFromFirstHit
        else some last) with
    | none => simp
    | some state => cases state.extrapolateToPoint first <;> simp

theorem recoCandidate_fst (Angle Angle' : Vec3 → Vec3 → ℚ) (first dir : Vec3)
    (track : RecoTrack) :
    (recoCandidate Angle first dir track).map Prod.fst =
      (recoCandidate Angle' first dir track).map Prod.fst := by
  unfold recoCandidate
  cases track.wasFitSuccessful <;> simp
  cases track.getMeasuredStateOnPlaneFromLastHit with
  | none => simp
  | some last =>
    simp only
    cases (if last.mom.y * last.pos.y < 0 then track.getMeasuredStateOnPlaneFromFirstHit
        else some last) with
    | none => simp
    | some state => cases state.extrapolateToPoint first <;> simp

theorem closestStep_skip (Angle : Vec3 → Vec3 → ℚ) (first dir : Vec3) (s : ClosestState)
    (c : Nat × RecoTrack) (h : candidateUsable first c.2 = false) :
    closestStep Angle first dir s c = s := by
  unfold closestStep
  rw [(recoCandidate_eq_none_iff Angle first dir c.2).mpr h]

theorem foldl_filter_skip {α β : Type} (f : α → β → α) (p : β → Bool)
    (hskip : ∀ s x, p x = false → f s x = s) (l : List β) (s : α) :
    (l.filter p).foldl f s = l.foldl f s := by
  induction l generalizing s with
  | nil => rfl
  | cons x xs ih =>
    cases hp : p x with
    | true => simp [List.filter_cons, hp, ih]
    | false => simp [List.filter_cons, hp, ih, hskip s x hp]

theorem closestLoop_spec (Angle : Vec3 → Vec3 → ℚ) (first dir : Vec3)
    (l : List (Nat × RecoTrack)) (hl : (l.map Prod.fst).Pairwise (fun a b => a < b)) :
    ClosestSpec Angle first dir l
      (l.foldl (closestStep Angle first dir)
        { oldDistanceSq := none, oldAngle := none, closestTrack := none }) := by
  induction l using List.reverseRecOn with
  | nil => exact Or.inl ⟨rfl, by simp⟩
  | append_singleton l c ih =>
    rw [List.map_append, List.pairwise_append] at hl
    obtain ⟨hl1, _, hl3⟩ := hl
    have hlt : ∀ c' ∈ l, c'.1 < c.1 := by
      intro c' hc'
      exact hl3 c'.1 (List.mem_map_of_mem _ hc') c.1 (by simp)
    rw [List.foldl_append, List.foldl_cons, List.foldl_nil]
    have ih' := ih hl1
    generalize l.foldl (closestStep Angle first dir)
      { oldDistanceSq := none, oldAngle := none, closestTrack := none } = s at ih'
    unfold closestStep
    cases hc : recoCandidate Angle first dir c.2 with
    | none =>
      simp only
      rcases ih' with ⟨hs, hnone⟩ | ⟨c0, hc0, d, a, hcand, hs, hmin⟩
      · refine Or.inl ⟨hs, ?_⟩
        intro c' hc'
        rcases List.mem_append.mp hc' with h | h
        · exact hnone c' h
        · rw [List.mem_singleton.mp h]
          exact hc
      · refine Or.inr ⟨c0, List.mem_append_left _ hc0, d, a, hcand, hs, ?_⟩
        intro c' hc' d' a' hcand'
        rcases List.mem_append.mp hc' with h | h
        · exact hmin c' h d' a' hcand'
        · rw [List.mem_singleton.mp h, hc] at hcand'
          exact absurd hcand' (by simp)
    | some da =>
      obtain ⟨dn, an⟩ := da
      simp only
      rcases ih' with ⟨hs, hnone⟩ | ⟨c0, hc0, d, a, hcand, hs, hmin⟩
      · subst hs
        simp only [if_true]
        refine Or.inr ⟨c, by simp, dn, an, hc, rfl, ?_⟩
        intro c' hc' d' a' hcand'
        rcases List.mem_append.mp hc' with h | h
        · rw [hnone c' h] at hcand'
          exact absurd hcand' (by simp)
        · rw [List.mem_singleton.mp h, hc] at hcand'
          simp only [Option.some.injEq, Prod.mk.injEq] at hcand'
          rw [← hcand'.1, List.mem_singleton.mp h]
          exact ⟨le_refl _, fun _ => le_refl _⟩
      · subst hs
        simp only [decide_eq_true_eq]
        split_ifs with hlt'
        · refine Or.inr ⟨c, by simp, dn, an, hc, rfl, ?_⟩
          intro c' hc' d' a' hcand'
          rcases List.mem_append.mp hc' with h | h
          · have := hmin c' h d' a' hcand'
            exact ⟨le_of_lt (lt_of_lt_of_le hlt' this.1),
              fun he => absurd (lt_of_lt_of_le hlt' this.1) (by rw [he]; exact lt_irrefl _)⟩
          · rw [List.mem_singleton.mp h, hc] at hcand'
            simp only [Option.some.injEq, Prod.mk.injEq] at hcand'
            rw [← hcand'.1, List.mem_singleton.mp h]
            exact ⟨le_refl _, fun _ => le_refl _⟩
        · refine Or.inr ⟨c0, List.mem_append_left _ hc0, d, a, hcand, rfl, ?_⟩
          intro c' hc' d' a' hcand'
          rcases List.mem_append.mp hc' with h | h
          · exact hmin c' h d' a' hcand'
          · rw [List.mem_singleton.mp h, hc] at hcand'
            simp only [Option.some.injEq, Prod.mk.injEq] at hcand'
            rw [← hcand'.1, List.mem_singleton.mp h]
            exact ⟨not_lt.mp hlt', fun _ => le_of_lt (hlt c0 hc0)⟩

theorem closestLoop_sim (Angle Angle' : Vec3 → Vec3 → ℚ) (first dir : Vec3)
    (l : List (Nat × RecoTrack)) (s s' : ClosestState)
    (h1 : s.oldDistanceSq = s'.oldDistanceSq) (h2 : s.closestTrack = s'.closestTrack) :
    (l.foldl (closestStep Angle first dir) s).oldDistanceSq =
      (l.foldl (closestStep Angle' first dir) s').oldDistanceSq ∧
    (l.foldl (closestStep Angle first dir) s).closestTrack =
      (l.foldl (closestStep Angle' first dir) s').closestTrack := by
  induction l generalizing s s' with
  | nil => exact ⟨h1, h2⟩
  | cons c l ih =>
    simp only [List.foldl_cons]
    apply ih
    · unfold closestStep
      have hf := recoCandidate_fst Angle Angle' first dir c.2
      cases hc : recoCandidate Angle first dir c.2 with
      | none =>
        rw [hc] at hf
        cases hc' : recoCandidate Angle' first dir c.2 with
        | none => exact h1
        | some x => rw [hc'] at hf; simp at hf
      | some x =>
        rw [hc] at hf
        cases hc' : recoCandidate Angle' first dir c.2 with
        | none => rw [hc'] at hf; simp at hf
        | some y =>
          rw [hc'] at hf
          simp only [Option.map_some', Option.some.injEq] at hf
          obtain ⟨x1, x2⟩ := x
          obtain ⟨y1, y2⟩ := y
          simp only at hf
          subst hf
          simp only
          rw [h1]
          split_ifs
          · rfl
          · exact h1
    · unfold closestStep
      have hf := recoCandidate_fst Angle Angle' first dir c.2
      cases hc : recoCandidate Angle first dir c.2 with
      | none =>
        rw [hc] at hf
        cases hc' : recoCandidate Angle' first dir c.2 with
        | none => exact h2
        | some x => rw [hc'] at hf; simp at hf
      | some x =>
        rw [hc] at hf
        cases hc' : recoCandidate Angle' first dir c.2 with
        | none => rw [hc'] at hf; simp at hf
        | some y =>
          rw [hc'] at hf
          simp only [Option.map_some', Option.some.injEq] at hf
          obtain ⟨x1, x2⟩ := x
          obtain ⟨y1, y2⟩ := y
          simp only at hf
          subst hf
          simp only
          rw [h1]
          split_ifs
          · rfl
          · exact h2

/-- The returned flag and the value of `closestTrack` for given final values
of the loop variables. -/
theorem findClosestRecoTrackIn_eq (P : Params) (Angle : Vec3 → Vec3 → ℚ)
    (hits : List KLMHit2d) (klmTrk : KLMTrack) (l : List (Nat × RecoTrack))
    (hhit : klmTrk.relatedHit2D ≠ []) :
    findClosestRecoTrackIn P Angle hits klmTrk l =
      ((match (l.foldl (closestStep Angle (firstHitPosition hits klmTrk)
            (trackDirection klmTrk))
            { oldDistanceSq := none, oldAngle := none, closestTrack := none }).oldAngle with
        | none => false
        | some a => !decide (a > P.m_maxAngleRequired)),
       (l.foldl (closestStep Angle (firstHitPosition hits klmTrk) (trackDirection klmTrk))
          { oldDistanceSq := none, oldAngle := none, closestTrack := none }).closestTrack) := by
  unfold findClosestRecoTrackIn
  have h1 : ¬ klmTrk.relatedHit2D.length < 1 := by
    cases h : klmTrk.relatedHit2D with
    | nil => exact absurd h hhit
    | cons a as => simp
  rw [if_neg h1]
  cases l with
  | nil => simp
  | cons c l =>
    rw [if_neg (by simp)]
    simp only [firstHitPosition, trackDirection]
    cases (List.foldl (closestStep Angle _ _) _ (c :: l)).oldAngle with
    | none => simp
    | some a => by_cases h : a > P.m_maxAngleRequired <;> simp [h]

theorem enum_pairwise {α : Type} (l : List α) :
    (l.enum.map Prod.fst).Pairwise (fun a b => a < b) := by
  rw [List.enum_map_fst]
  exact List.pairwise_lt_range _

theorem candidateAt_of_mem (Angle : Vec3 → Vec3 → ℚ) (first dir : Vec3)
    (recoTracks : List RecoTrack) (c : Nat × RecoTrack) (hc : c ∈ recoTracks.enum) :
    candidateAt Angle first dir recoTracks c.1 = recoCandidate Angle first dir c.2 := by
  unfold candidateAt
  have : recoTracks[c.1]? = some c.2 := List.mk_mem_enum_iff_getElem?.mp hc
  rw [this]
  rfl

theorem mem_of_candidateAt (Angle : Vec3 → Vec3 → ℚ) (first dir : Vec3)
    (recoTracks : List RecoTrack) (j : Nat) (x : ℚ × ℚ)
    (h : candidateAt Angle first dir recoTracks j = some x) :
    ∃ c ∈ recoTracks.enum, c.1 = j ∧ recoCandidate Angle first dir c.2 = some x := by
  unfold candidateAt at h
  cases ht : recoTracks[j]? with
  | none => rw [ht] at h; simp at h
  | some t =>
    rw [ht] at h
    exact ⟨(j, t), List.mk_mem_enum_iff_getElem?.mpr ht, rfl, h⟩

theorem scenarioD_candidates (Angle : Vec3 → Vec3 → ℚ) :
    recoCandidate Angle (firstHitPosition originStore axisTrack) (trackDirection axisTrack)
        nearCandidate = some (1, Angle ⟨1, 0, 0⟩ ⟨1, 2126 / 10000, 0⟩) ∧
    recoCandidate Angle (firstHitPosition originStore axisTrack) (trackDirection axisTrack)
        farCandidate = some (25, Angle ⟨1, 0, 0⟩ ⟨1, 349 / 10000, 0⟩) := by
  constructor <;>
    norm_num [recoCandidate, nearCandidate, farCandidate, recoTrackAt, stateAt,
      firstHitPosition, trackDirection, originStore, axisTrack, hitAt, mkHit, Vec3.Mag2]

theorem scenarioD_result (Angle : Vec3 → Vec3 → ℚ) :
    findClosestRecoTrack Params.default Angle originStore axisTrack
        [nearCandidate, farCandidate] =
      (!decide (Angle ⟨1, 0, 0⟩ ⟨1, 2126 / 10000, 0⟩ > 10), some 0) := by
  unfold findClosestRecoTrack
  rw [findClosestRecoTrackIn_eq _ _ _ _ _ (by decide)]
  have e : [nearCandidate, farCandidate].enum = [(0, nearCandidate), (1, farCandidate)] := rfl
  rw [e]
  simp only [List.foldl_cons, List.foldl_nil, closestStep, (scenarioD_candidates Angle).1,
    (scenarioD_candidates Angle).2]
  norm_num [Params.default]

theorem scenarioD_reversed (Angle : Vec3 → Vec3 → ℚ) :
    findClosestRecoTrack Params.default Angle originStore axisTrack
        [farCandidate, nearCandidate] =
      (!decide (Angle ⟨1, 0, 0⟩ ⟨1, 2126 / 10000, 0⟩ > 10), some 1) := by
  unfold findClosestRecoTrack
  rw [findClosestRecoTrackIn_eq _ _ _ _ _ (by decide)]
  have e : [farCandidate, nearCandidate].enum = [(0, farCandidate), (1, nearCandidate)] := rfl
  rw [e]
  simp only [List.foldl_cons, List.foldl_nil, closestStep, (scenarioD_candidates Angle).1,
    (scenarioD_candidates Angle).2]
  norm_num [Params.default]

/-! ## Claims on `findClosestRecoTrack` -/

/-- C15: for a KLM track with at least one related hit,
`findClosestRecoTrack` leaves no track selected exactly when no reco track
is usable, and then returns not found; otherwise the selected track is a
usable one at the least squared distance between the first hit of the KLM
track and the track's state position, the one with the least store index
among those, and the function returns found exactly when the angle of the
selected track is not greater than `m_maxAngleRequired`. The result is the
same for every other angle function that gives the selected track the same
angle. -/
theorem findClosestRecoTrack_selects_nearest (P : Params) (Angle : Vec3 → Vec3 → ℚ)
    (hits : List KLMHit2d) (klmTrk : KLMTrack) (recoTracks : List RecoTrack)
    (hhit : klmTrk.relatedHit2D ≠ []) :
    ((findClosestRecoTrack P Angle hits klmTrk recoTracks).2 = none ↔
      ∀ i, candidateAt Angle (firstHitPosition hits klmTrk) (trackDirection klmTrk)
        recoTracks i = none) ∧
    ((findClosestRecoTrack P Angle hits klmTrk recoTracks).2 = none →
      (findClosestRecoTrack P Angle hits klmTrk recoTracks).1 = false) ∧
    (∀ i, (findClosestRecoTrack P Angle hits klmTrk recoTracks).2 = some i →
      ∃ d a, candidateAt Angle (firstHitPosition hits klmTrk) (trackDirection klmTrk)
          recoTracks i = some (d, a) ∧
        (∀ j d' a', candidateAt Angle (firstHitPosition hits klmTrk) (trackDirection klmTrk)
            recoTracks j = some (d', a') → d ≤ d' ∧ (d' = d → i ≤ j)) ∧
        ((findClosestRecoTrack P Angle hits klmTrk recoTracks).1 = true ↔
          a ≤ P.m_maxAngleRequired)) ∧
    (∀ Angle' : Vec3 → Vec3 → ℚ,
      (∀ i, (findClosestRecoTrack P Angle hits klmTrk recoTracks).2 = some i →
        candidateAt Angle' (firstHitPosition hits klmTrk) (trackDirection klmTrk)
            recoTracks i =
          candidateAt Angle (firstHitPosition hits klmTrk) (trackDirection klmTrk)
            recoTracks i) →
      findClosestRecoTrack P Angle' hits klmTrk recoTracks =
        findClosestRecoTrack P Angle hits klmTrk recoTracks) := by
  have hres : ∀ A : Vec3 → Vec3 → ℚ, findClosestRecoTrack P A hits klmTrk recoTracks = _ :=
    fun A => findClosestRecoTrackIn_eq P A hits klmTrk recoTracks.enum hhit
  have hspec : ∀ A : Vec3 → Vec3 → ℚ, ClosestSpec A (firstHitPosition hits klmTrk)
      (trackDirection klmTrk) recoTracks.enum _ :=
    fun A => closestLoop_spec A (firstHitPosition hits klmTrk) (trackDirection klmTrk)
      recoTracks.enum (enum_pairwise recoTracks)
  refine ⟨?_, ?_, ?_, ?_⟩
  · rw [hres Angle]
    rcases hspec Angle with ⟨hs, hnone⟩ | ⟨c, hc, d, a, hcand, hs, _⟩
    · rw [hs]
      simp only [true_iff]
      intro i
      cases hi : candidateAt Angle (firstHitPosition hits klmTrk) (trackDirection klmTrk)
          recoTracks i with
      | none => rfl
      | some x =>
        obtain ⟨c, hc, _, hx⟩ := mem_of_candidateAt _ _ _ _ _ _ hi
        rw [hnone c hc] at hx
        exact absurd hx (by simp)
    · rw [hs]
      constructor
      · intro h
        exact absurd h (by simp)
      · intro h
        have := h c.1
        rw [candidateAt_of_mem _ _ _ _ c hc, hcand] at this
        exact absurd this (by simp)
  · rw [hres Angle]
    rcases hspec Angle with ⟨hs, _⟩ | ⟨c, _, d, a, _, hs, _⟩
    · rw [hs]
      simp
    · rw [hs]
      simp
  · intro i
    rw [hres Angle]
    rcases hspec Angle with ⟨hs, _⟩ | ⟨c, hc, d, a, hcand, hs, hmin⟩
    · rw [hs]
      simp
    · rw [hs]
      simp only [Option.some.injEq]
      intro hi
      subst hi
      refine ⟨d, a, ?_, ?_, ?_⟩
      · rw [candidateAt_of_mem _ _ _ _ c hc, hcand]
      · intro j d' a' hj
        obtain ⟨c', hc', hj', hx⟩ := mem_of_candidateAt _ _ _ _ _ _ hj
        rw [← hj']
        exact hmin c' hc' d' a' hx
      · simp
  · intro Angle' hsame
    rw [hres Angle, hres Angle'] at *
    have hsim := closestLoop_sim Angle' Angle (firstHitPosition hits klmTrk)
      (trackDirection klmTrk) recoTracks.enum
      { oldDistanceSq := none, oldAngle := none, closestTrack := none }
      { oldDistanceSq := none, oldAngle := none, closestTrack := none } rfl rfl
    rcases hspec Angle with ⟨hs, _⟩ | ⟨c, hc, d, a, hcand, hs, _⟩
    · rcases hspec Angle' with ⟨hs', _⟩ | ⟨c', _, d', a', _, hs', _⟩
      · rw [hs, hs']
      · rw [hs, hs'] at hsim
        exact absurd hsim.2 (by simp)
    · rcases hspec Angle' with ⟨hs', _⟩ | ⟨c', hc', d', a', hcand', hs', _⟩
      · rw [hs, hs'] at hsim
        exact absurd hsim.2 (by simp)
      · rw [hs] at hsame
        rw [hs, hs'] at hsim ⊢
        simp only [Option.some.injEq] at hsim
        have h1 := hsame c.1 rfl
        have e1 := candidateAt_of_mem Angle (firstHitPosition hits klmTrk)
          (trackDirection klmTrk) recoTracks c hc
        have e2 := candidateAt_of_mem Angle' (firstHitPosition hits klmTrk)
          (trackDirection klmTrk) recoTracks c' hc'
        rw [hsim.2] at e2
        rw [e1, hcand, e2, hcand'] at h1
        simp only [Option.some.injEq, Prod.mk.injEq] at h1
        simp only [hsim.2, h1.2]

/-- Witness for C15: of the two reco tracks of scenario D, given with the
farther one first, the one at squared distance 1, at store index 1, is
selected, and the result is found since its angle 0.2094 is not greater
than 10. -/
theorem findClosestRecoTrack_selects_nearest_witness :
    axisTrack.relatedHit2D ≠ [] ∧
    findClosestRecoTrack Params.default scenarioAngle originStore axisTrack
      [farCandidate, nearCandidate] = (true, some 1) ∧
    ∀ i, (findClosestRecoTrack Params.default scenarioAngle originStore axisTrack
        [farCandidate, nearCandidate]).2 = some i →
      ∃ d a, candidateAt scenarioAngle (firstHitPosition originStore axisTrack)
          (trackDirection axisTrack) [farCandidate, nearCandidate] i = some (d, a) ∧
        (∀ j d' a', candidateAt scenarioAngle (firstHitPosition originStore axisTrack)
            (trackDirection axisTrack) [farCandidate, nearCandidate] j = some (d', a') →
          d ≤ d' ∧ (d' = d → i ≤ j)) ∧
        ((findClosestRecoTrack Params.default scenarioAngle originStore axisTrack
          [farCandidate, nearCandidate]).1 = true ↔ a ≤ Params.default.m_maxAngleRequired) :=
  ⟨by decide,
   by
    rw [scenarioD_reversed]
    norm_num [scenarioAngle],
   (findClosestRecoTrack_selects_nearest Params.default scenarioAngle originStore axisTrack
     [farCandidate, nearCandidate] (by decide)).2.2.1⟩

/-- C16, at the failing input: with `m_maxAngleRequired` at its default 10
and the two usable reco tracks of scenario D, `findClosestRecoTrack` selects
the track at 1 cm and returns found. The angle it compares with the
threshold is the value of `TVector3::Angle`, which for 12 degrees is 0.2094;
with any angle function whose value for the selected track is at most 10
the result is found. -/
theorem findClosestRecoTrack_scenarioD :
    Params.default.m_maxAngleRequired = 10 ∧
    candidateAt scenarioAngle (firstHitPosition originStore axisTrack)
      (trackDirection axisTrack) [nearCandidate, farCandidate] 0 = some (1, 2094 / 10000) ∧
    candidateAt scenarioAngle (firstHitPosition originStore axisTrack)
      (trackDirection axisTrack) [nearCandidate, farCandidate] 1 = some (25, 349 / 10000) ∧
    findClosestRecoTrack Params.default scenarioAngle originStore axisTrack
      [nearCandidate, farCandidate] = (true, some 0) ∧
    (∀ Angle : Vec3 → Vec3 → ℚ, Angle ⟨1, 0, 0⟩ ⟨1, 2126 / 10000, 0⟩ ≤ 10 →
      findClosestRecoTrack Params.default Angle originStore axisTrack
        [nearCandidate, farCandidate] = (true, some 0)) := by
  refine ⟨rfl, ?_, ?_, ?_, ?_⟩
  · have := (scenarioD_candidates scenarioAngle).1
    simp only [candidateAt, List.getElem?_cons_zero, Option.bind_eq_bind, Option.some_bind, this]
    norm_num [scenarioAngle]
  · have := (scenarioD_candidates scenarioAngle).2
    simp only [candidateAt, List.getElem?_cons_succ, List.getElem?_cons_zero,
      Option.bind_eq_bind, Option.some_bind, this]
    norm_num [scenarioAngle]
  · rw [scenarioD_result]
    norm_num [scenarioAngle]
  · intro Angle hA
    rw [scenarioD_result]
    simp [not_lt.mpr hA]

/-- C17: the returned flag and the track left in `closestTrack` are the same
for the store array of reco tracks and for that array with every track
removed that is not usable (unsuccessful fit, or a state retrieval or the
extrapolation throwing); the remaining tracks keep their store indices. The
function is total. -/
theorem findClosestRecoTrack_ignores_unusable (P : Params) (Angle : Vec3 → Vec3 → ℚ)
    (hits : List KLMHit2d) (klmTrk : KLMTrack) (recoTracks : List RecoTrack) :
    findClosestRecoTrackIn P Angle hits klmTrk
        (recoTracks.enum.filter
          (fun c => candidateUsable (firstHitPosition hits klmTrk) c.2)) =
      findClosestRecoTrack P Angle hits klmTrk recoTracks := by
  unfold findClosestRecoTrack
  by_cases hhit : klmTrk.relatedHit2D = []
  · unfold findClosestRecoTrackIn
    simp [hhit]
  · rw [findClosestRecoTrackIn_eq _ _ _ _ _ hhit, findClosestRecoTrackIn_eq _ _ _ _ _ hhit,
      foldl_filter_skip _ _
        (fun s c h => closestStep_skip Angle (firstHitPosition hits klmTrk)
          (trackDirection klmTrk) s c h)]

/-- Witness for C17: a reco track whose fit failed, placed before the two
tracks of scenario D, changes nothing: the track at 1 cm, now at store
index 1, is selected. -/
theorem findClosestRecoTrack_ignores_unusable_witness :
    findClosestRecoTrackIn Params.default scenarioAngle originStore axisTrack
        ([failedRecoTrack, nearCandidate, farCandidate].enum.filter
          (fun c => candidateUsable (firstHitPosition originStore axisTrack) c.2)) =
      findClosestRecoTrack Params.default scenarioAngle originStore axisTrack
        [failedRecoTrack, nearCandidate, farCandidate] ∧
    ([failedRecoTrack, nearCandidate, farCandidate].enum.filter
      (fun c => candidateUsable (firstHitPosition originStore axisTrack) c.2)).map Prod.fst =
        [1, 2] :=
  ⟨findClosestRecoTrack_ignores_unusable Params.default scenarioAngle originStore axisTrack
     [failedRecoTrack, nearCandidate, farCandidate],
   by
    norm_num [List.enum, List.enumFrom, List.filter, candidateUsable, failedRecoTrack,
      nearCandidate, farCandidate, recoTrackAt, stateAt]⟩

/-! ## Facts on the early return of `generateEffi` -/

theorem generateEffi_eq_foldl (P : Params) (G : GeometryPar) (sqrt : ℚ → ℚ)
    (hits : List KLMHit2d) (tracks : List KLMTrack) (iSubdetector iSection iSector iLayer : Int)
    (acc : EfficiencyAccumulator) :
    generateEffi P G sqrt hits tracks iSubdetector iSection iSector iLayer acc =
      tracks.foldl (trackStep P G sqrt hits iSubdetector iSection iSector iLayer)
        { acc := acc, m_pointUsed := [], returned := false } := by
  unfold generateEffi
  cases tracks with
  | nil => rfl
  | cons t ts => simp

theorem trackStep_of_returned (P : Params) (G : GeometryPar) (sqrt : ℚ → ℚ)
    (hits : List KLMHit2d) (iSubdetector iSection iSector iLayer : Int) (st : EffiState)
    (t : KLMTrack) (h : st.returned = true) :
    trackStep P G sqrt hits iSubdetector iSection iSector iLayer st t = st := by
  unfold trackStep
  rw [if_pos h]

theorem foldl_trackStep_returned (P : Params) (G : GeometryPar) (sqrt : ℚ → ℚ)
    (hits : List KLMHit2d) (iSubdetector iSection iSector iLayer : Int) (ts : List KLMTrack)
    (st : EffiState) (h : st.returned = true) :
    ts.foldl (trackStep P G sqrt hits iSubdetector iSection iSector iLayer) st = st := by
  induction ts with
  | nil => rfl
  | cons t ts ih =>
    simp only [List.foldl_cons]
    rw [trackStep_of_returned P G sqrt hits iSubdetector iSection iSector iLayer st t h, ih]

theorem layerCheck_returnNow (P : Params) (hits : List KLMHit2d) (iSubdetector iLayer : Int)
    (t : KLMTrack)
    (hlayers : ¬ ((layerList hits iSubdetector iLayer t).length : Int) < P.m_minNLayer)
    (hside : (iLayer ≠ 0 ∧ hitsBelow hits iSubdetector iLayer t = []) ∨
      (iLayer ≠ 14 ∧ hitsAbove hits iSubdetector iLayer t = [])) :
    layerCheck P hits iSubdetector iLayer t = LayerCheck.returnNow := by
  unfold layerCheck
  rw [if_neg hlayers]
  rcases hside with ⟨h0, hb⟩ | ⟨h14, ha⟩
  · have hc : iLayer ≠ 0 ∧ (hitsBelow hits iSubdetector iLayer t).length < 1 :=
      ⟨h0, by rw [hb]; decide⟩
    rw [if_pos hc]
  · have hc : iLayer ≠ 14 ∧ (hitsAbove hits iSubdetector iLayer t).length < 1 :=
      ⟨h14, by rw [ha]; decide⟩
    rw [if_pos hc]
    split_ifs <;> rfl

theorem trackStep_cases (P : Params) (G : GeometryPar) (sqrt : ℚ → ℚ)
    (hits : List KLMHit2d) (iSubdetector iSection iSector iLayer : Int) (st : EffiState)
    (t : KLMTrack) :
    (trackStep P G sqrt hits iSubdetector iSection iSector iLayer st t).acc = st.acc ∨
    ∃ global found,
      (trackStep P G sqrt hits iSubdetector iSection iSector iLayer st t).acc =
        (afterEvaluation iSection iSector iLayer global st found).acc := by
  unfold trackStep
  split_ifs with hr
  · exact Or.inl rfl
  · cases hc : layerCheck P hits iSubdetector iLayer t with
    | skipTrack => exact Or.inl rfl
    | returnNow => exact Or.inl rfl
    | pass =>
      simp only
      unfold evaluateTrack
      split_ifs with hb
      · cases hp : predict G iSection iSector iLayer t with
        | none => exact Or.inl rfl
        | some gl =>
          obtain ⟨global, loc⟩ := gl
          simp only
          split_ifs with hin
          · refine Or.inr ⟨global, (List.range hits.length).find?
              (hitMatches P G sqrt hits iSection iSector iLayer st.m_pointUsed t), ?_⟩
            cases (List.range hits.length).find?
                (hitMatches P G sqrt hits iSection iSector iLayer st.m_pointUsed t) <;>
              simp [afterEvaluation]
          · exact Or.inl rfl
      · exact Or.inl rfl

theorem countP_append_le {α : Type} (p : α → Bool) (pass total : List α) (v : α)
    (found : Option Nat) (h : pass.countP p ≤ total.countP p) :
    (pass ++ found.toList.map (fun _ => v)).countP p ≤ (total ++ [v]).countP p := by
  rw [List.countP_append, List.countP_append]
  cases found with
  | none => simp; omega
  | some x => simp; omega

theorem afterEvaluation_passLeTotal (bin : Int × Int × Int → Bool)
    (binYX binYZ : ℚ × ℚ → Bool) (iSection iSector iLayer : Int) (global : Vec3)
    (st : EffiState) (found : Option Nat) (h : PassLeTotal bin binYX binYZ st.acc) :
    PassLeTotal bin binYX binYZ (afterEvaluation iSection iSector iLayer global st found).acc :=
  ⟨countP_append_le _ _ _ _ _ h.1, countP_append_le _ _ _ _ _ h.2.1,
   countP_append_le _ _ _ _ _ h.2.2⟩

theorem generateEffi_passLeTotal (P : Params) (G : GeometryPar) (sqrt : ℚ → ℚ)
    (bin : Int × Int × Int → Bool) (binYX binYZ : ℚ × ℚ → Bool)
    (hits : List KLMHit2d) (tracks : List KLMTrack) (iSubdetector iSection iSector iLayer : Int)
    (acc : EfficiencyAccumulator) (h : PassLeTotal bin binYX binYZ acc) :
    PassLeTotal bin binYX binYZ
      (generateEffi P G sqrt hits tracks iSubdetector iSection iSector iLayer acc).acc := by
  rw [generateEffi_eq_foldl]
  refine foldl_preserves (trackStep P G sqrt hits iSubdetector iSection iSector iLayer)
    (fun s => PassLeTotal bin binYX binYZ s.acc) tracks _ ?_ h
  intro s t _ hs
  rcases trackStep_cases P G sqrt hits iSubdetector iSection iSector iLayer s t with
    e | ⟨global, found, e⟩
  · show PassLeTotal bin binYX binYZ
      (trackStep P G sqrt hits iSubdetector iSection iSector iLayer s t).acc
    rw [e]
    exact hs
  · show PassLeTotal bin binYX binYZ
      (trackStep P G sqrt hits iSubdetector iSection iSector iLayer s t).acc
    rw [e]
    exact afterEvaluation_passLeTotal _ _ _ _ _ _ _ _ _ hs

theorem afterCalls_passLeTotal (P : Params) (G : GeometryPar) (sqrt : ℚ → ℚ)
    (bin : Int × Int × Int → Bool) (binYX binYZ : ℚ × ℚ → Bool)
    (acc : EfficiencyAccumulator) (calls : List EffiCall)
    (h : PassLeTotal bin binYX binYZ acc) :
    PassLeTotal bin binYX binYZ (afterCalls P G sqrt acc calls) := by
  unfold afterCalls
  refine foldl_preserves _ (fun a => PassLeTotal bin binYX binYZ a) calls _ ?_ h
  intro a c _ ha
  exact generateEffi_passLeTotal P G sqrt bin binYX binYZ _ _ _ _ _ _ a ha

theorem upperStore_scan_step :
    (generateEffi Params.default flatGeometry Rat.sqrt upperStore [scanTrack] c_BKLM 0 0 2
        emptyAccumulator).acc =
      (afterEvaluation 0 0 2 ⟨20, 0, 5⟩ emptyEffiState none).acc := by
  have e : generateEffi Params.default flatGeometry Rat.sqrt upperStore [scanTrack] c_BKLM 0 0 2
      emptyAccumulator =
      trackStep Params.default flatGeometry Rat.sqrt upperStore c_BKLM 0 0 2 emptyEffiState
        scanTrack := rfl
  rw [e, trackStep_inside Params.default flatGeometry Rat.sqrt upperStore 0 0 2 emptyEffiState
    scanTrack ⟨20, 0, 5⟩ ⟨20, 0, 5⟩ rfl (by decide) scanTrack_predict scanTrack_inside]
  have hf : (List.range upperStore.length).find?
      (hitMatches Params.default flatGeometry Rat.sqrt upperStore 0 0 2
        emptyEffiState.m_pointUsed scanTrack) = none := by
    rw [find?_range_none]
    intro k hk
    have hl : isLayerUnderStudy 0 0 2 (hitAt upperStore k) = false := by
      have hk6 : k < 6 := hk
      interval_cases k <;> decide
    simp [hitMatches, hl]
  rw [hf]

/-! ## Claims on the early return and the counters of `generateEffi` -/

/-- C25: a track that has at least `m_minNLayer` distinct layers other than
the studied one, and no hit below a studied layer of index other than 0 or
no hit above a studied layer of index other than 14, makes `generateEffi`
return: the step for it only sets the flag that ends the loop, and the
histograms and the set of used hits after the call are those left by the
tracks before it, whatever tracks come after it. -/
theorem generateEffi_returns_at_unbracketed_track (P : Params) (G : GeometryPar)
    (sqrt : ℚ → ℚ) (hits : List KLMHit2d) (iSubdetector iSection iSector iLayer : Int)
    (t : KLMTrack)
    (hlayers : ¬ ((layerList hits iSubdetector iLayer t).length : Int) < P.m_minNLayer)
    (hside : (iLayer ≠ 0 ∧ hitsBelow hits iSubdetector iLayer t = []) ∨
      (iLayer ≠ 14 ∧ hitsAbove hits iSubdetector iLayer t = [])) :
    layerCheck P hits iSubdetector iLayer t = LayerCheck.returnNow ∧
    (∀ st, st.returned = false →
      trackStep P G sqrt hits iSubdetector iSection iSector iLayer st t =
        { st with returned := true }) ∧
    (∀ ts1 ts2 acc,
      (generateEffi P G sqrt hits (ts1 ++ t :: ts2) iSubdetector iSection iSector iLayer
          acc).acc =
        (generateEffi P G sqrt hits ts1 iSubdetector iSection iSector iLayer acc).acc ∧
      (generateEffi P G sqrt hits (ts1 ++ t :: ts2) iSubdetector iSection iSector iLayer
          acc).m_pointUsed =
        (generateEffi P G sqrt hits ts1 iSubdetector iSection iSector iLayer acc).m_pointUsed ∧
      (generateEffi P G sqrt hits (ts1 ++ t :: ts2) iSubdetector iSection iSector iLayer
          acc).returned = true) := by
  have hcheck := layerCheck_returnNow P hits iSubdetector iLayer t hlayers hside
  have hstep : ∀ st, st.returned = false →
      trackStep P G sqrt hits iSubdetector iSection iSector iLayer st t =
        { st with returned := true } := by
    intro st hst
    unfold trackStep
    rw [if_neg (by simp [hst]), hcheck]
  refine ⟨hcheck, hstep, ?_⟩
  intro ts1 ts2 acc
  rw [generateEffi_eq_foldl, generateEffi_eq_foldl, List.foldl_append, List.foldl_cons]
  cases hr : (ts1.foldl (trackStep P G sqrt hits iSubdetector iSection iSector iLayer)
      { acc := acc, m_pointUsed := [], returned := false }).returned with
  | true =>
    rw [trackStep_of_returned _ _ _ _ _ _ _ _ _ _ hr,
      foldl_trackStep_returned _ _ _ _ _ _ _ _ _ _ hr]
    exact ⟨rfl, rfl, hr⟩
  | false =>
    rw [hstep _ hr, foldl_trackStep_returned _ _ _ _ _ _ _ _ _ _ rfl]
    exact ⟨rfl, rfl, rfl⟩

/-- Witness for C25: on layer index 2 the track `upperTrack`, with hits on
the layers 5, 7, 10, 12 only, has four distinct layers and no hit below the
studied layer; placed before `scanTrack` it leaves the histograms empty,
while `scanTrack` alone fills the total counter. -/
theorem generateEffi_returns_at_unbracketed_track_witness :
    layerCheck Params.default upperStore c_BKLM 2 upperTrack = LayerCheck.returnNow ∧
    (generateEffi Params.default flatGeometry Rat.sqrt upperStore
        ([] ++ upperTrack :: [scanTrack]) c_BKLM 0 0 2 emptyAccumulator).acc =
      emptyAccumulator ∧
    (generateEffi Params.default flatGeometry Rat.sqrt upperStore [scanTrack] c_BKLM 0 0 2
        emptyAccumulator).acc.m_total = [(0, 0, 3)] :=
  have h := generateEffi_returns_at_unbracketed_track Params.default flatGeometry Rat.sqrt
    upperStore c_BKLM 0 0 2 upperTrack (by decide) (Or.inl ⟨by decide, by decide⟩)
  ⟨h.1, (h.2.2 [] [scanTrack] emptyAccumulator).1,
   by rw [upperStore_scan_step]; rfl⟩

/-- C26: in mode 1, on a non-empty hit store, `runTracking` is the loop over
the seed pairs started on the store in which every hit of the target
subsystem has its on-track flag cleared and is otherwise as it was, and
every hit of another subsystem is as it was, flag included; the store keeps
its size. -/
theorem runTracking_mode1_clears_flags {σ : Type} (P : Params) (F : KLMTrackFinder σ) (s0 : σ)
    (iSubdetector iSection iSector iLayer : Int) (hits2D : List KLMHit2d)
    (tracks : List KLMTrack) (hne : hits2D ≠ []) :
    runTracking P F s0 1 iSubdetector iSection iSector iLayer hits2D tracks =
      (List.range (hits2D.length - 1)).foldl
        (outerStep P F 1 iSubdetector iSection iSector iLayer)
        { hits2D := resetOnStaTrack iSubdetector hits2D, m_storeTracks := tracks,
          m_finder := s0, finderCalls := [] } ∧
    (resetOnStaTrack iSubdetector hits2D).length = hits2D.length ∧
    ∀ i, i < hits2D.length →
      ((hitAt hits2D i).getSubdetector = iSubdetector →
        (hitAt (resetOnStaTrack iSubdetector hits2D) i).isOnStaTrack = false ∧
        hitAt (resetOnStaTrack iSubdetector hits2D) i =
          (hitAt hits2D i).setOnStaTrack false) ∧
      ((hitAt hits2D i).getSubdetector ≠ iSubdetector →
        hitAt (resetOnStaTrack iSubdetector hits2D) i = hitAt hits2D i) := by
  have hlen : ¬ hits2D.length < 1 := by
    cases hits2D with
    | nil => exact absurd rfl hne
    | cons x xs => simp
  refine ⟨?_, by simp [resetOnStaTrack], ?_⟩
  · unfold runTracking
    simp only [hlen, if_false, if_true]
  · intro i hi
    have e : hitAt (resetOnStaTrack iSubdetector hits2D) i =
        (if (hitAt hits2D i).getSubdetector ≠ iSubdetector then hitAt hits2D i
          else (hitAt hits2D i).setOnStaTrack false) := by
      unfold hitAt resetOnStaTrack
      simp only [List.getD_eq_getElem?_getD, List.getElem?_map, List.getElem?_eq_getElem hi,
        Option.map_some', Option.getD_some]
    constructor
    · intro hs
      rw [e, if_neg (by simp [hs])]
      exact ⟨rfl, rfl⟩
    · intro hs
      rw [e, if_pos hs]

/-- Witness for C26: in `flaggedStore` both hits are flagged; at the start
of the loop of a mode-1 call for the barrel the barrel hit is not flagged
and the endcap hit still is. -/
theorem runTracking_mode1_clears_flags_witness :
    flaggedStore ≠ [] ∧
    (hitAt flaggedStore 0).isOnStaTrack = true ∧
    (hitAt (resetOnStaTrack c_BKLM flaggedStore) 0).isOnStaTrack = false ∧
    hitAt (resetOnStaTrack c_BKLM flaggedStore) 1 = hitAt flaggedStore 1 ∧
    (hitAt (resetOnStaTrack c_BKLM flaggedStore) 1).isOnStaTrack = true :=
  have h := runTracking_mode1_clears_flags Params.default takeTwoFinder () c_BKLM 0 0 2
    flaggedStore [] (by decide)
  ⟨by decide, by decide, ((h.2.2 0 (by decide)).1 (by decide)).1,
   (h.2.2 1 (by decide)).2 (by decide), by decide⟩

/-- C27: when the pass counters do not exceed the total counters in a bin of
the layer histograms and in a bin of each of the two position maps, the same
holds after any call of `generateEffi`, and after any sequence of calls: the
step for a track either leaves the histograms as they were or adds one entry
to the total counters and, when a hit was found, the same entry to the pass
counters. So after any sequence of calls on empty histograms a bin without
total entries has no pass entries. -/
theorem generateEffi_pass_le_total (P : Params) (G : GeometryPar) (sqrt : ℚ → ℚ)
    (bin : Int × Int × Int → Bool) (binYX binYZ : ℚ × ℚ → Bool)
    (acc : EfficiencyAccumulator) (h : PassLeTotal bin binYX binYZ acc) :
    (∀ hits tracks iSubdetector iSection iSector iLayer,
      PassLeTotal bin binYX binYZ
        (generateEffi P G sqrt hits tracks iSubdetector iSection iSector iLayer acc).acc) ∧
    (∀ calls, PassLeTotal bin binYX binYZ (afterCalls P G sqrt acc calls)) ∧
    (∀ hits iSubdetector iSection iSector iLayer st t,
      (trackStep P G sqrt hits iSubdetector iSection iSector iLayer st t).acc = st.acc ∨
      ∃ global found,
        (trackStep P G sqrt hits iSubdetector iSection iSector iLayer st t).acc =
          (afterEvaluation iSection iSector iLayer global st found).acc) ∧
    (∀ calls,
      ((afterCalls P G sqrt emptyAccumulator calls).m_total.countP bin = 0 →
        (afterCalls P G sqrt emptyAccumulator calls).m_pass.countP bin = 0) ∧
      ((afterCalls P G sqrt emptyAccumulator calls).m_totalYX.countP binYX = 0 →
        (afterCalls P G sqrt emptyAccumulator calls).m_passYX.countP binYX = 0) ∧
      ((afterCalls P G sqrt emptyAccumulator calls).m_totalYZ.countP binYZ = 0 →
        (afterCalls P G sqrt emptyAccumulator calls).m_passYZ.countP binYZ = 0)) := by
  refine ⟨fun hits tracks iSubdetector iSection iSector iLayer =>
      generateEffi_passLeTotal P G sqrt bin binYX binYZ hits tracks iSubdetector iSection
        iSector iLayer acc h,
    fun calls => afterCalls_passLeTotal P G sqrt bin binYX binYZ acc calls h,
    fun hits iSubdetector iSection iSector iLayer st t =>
      trackStep_cases P G sqrt hits iSubdetector iSection iSector iLayer st t, ?_⟩
  intro calls
  have h0 : PassLeTotal bin binYX binYZ emptyAccumulator := by
    simp [PassLeTotal, emptyAccumulator]
  have hc := afterCalls_passLeTotal P G sqrt bin binYX binYZ emptyAccumulator calls h0
  exact ⟨fun e => Nat.le_zero.mp (e ▸ hc.1), fun e => Nat.le_zero.mp (e ▸ hc.2.1),
    fun e => Nat.le_zero.mp (e ▸ hc.2.2)⟩

/-- Witness for C27: a call on empty histograms, for layer index 2 of
`scanStore` with the track `scanTrack`, finds a hit; afterwards the bin of
layer 3 holds one pass entry and one total entry. -/
theorem generateEffi_pass_le_total_witness :
    PassLeTotal layerBin3 positionBin positionBin emptyAccumulator ∧
    PassLeTotal layerBin3 positionBin positionBin
      (generateEffi Params.default flatGeometry Rat.sqrt scanStore [scanTrack] c_BKLM 0 0 2
        emptyAccumulator).acc ∧
    (generateEffi Params.default flatGeometry Rat.sqrt scanStore [scanTrack] c_BKLM 0 0 2
        emptyAccumulator).acc.m_total.countP layerBin3 = 1 ∧
    (generateEffi Params.default flatGeometry Rat.sqrt scanStore [scanTrack] c_BKLM 0 0 2
        emptyAccumulator).acc.m_pass.countP layerBin3 = 1 :=
  have h0 : PassLeTotal layerBin3 positionBin positionBin emptyAccumulator := by
    simp [PassLeTotal, emptyAccumulator]
  have e : generateEffi Params.default flatGeometry Rat.sqrt scanStore [scanTrack] c_BKLM 0 0 2
      emptyAccumulator =
      afterEvaluation 0 0 2 ⟨20, 0, 5⟩ emptyEffiState (some 4) := scanStore_first_step
  ⟨h0,
   (generateEffi_pass_le_total Params.default flatGeometry Rat.sqrt layerBin3 positionBin
      positionBin emptyAccumulator h0).1 scanStore [scanTrack] c_BKLM 0 0 2,
   by rw [e]; decide, by rw [e]; decide⟩

/-- C30: when the studied layer has index 0 or 14, the hits of the track in
the subsystem lie on layers 1 to 15 and `m_minNLayer` is at least 1, the
layer checks never end the call: a track with at least `m_minNLayer`
distinct layers other than the studied one has a hit above the studied layer
of index 0, or below the studied layer of index 14, and passes. -/
theorem generateEffi_extremal_layer_no_return (P : Params) (hits : List KLMHit2d)
    (iSubdetector iLayer : Int) (t : KLMTrack)
    (hext : iLayer = 0 ∨ iLayer = 14)
    (hrange : ∀ j ∈ t.relatedHit2D, (hitAt hits j).getSubdetector = iSubdetector →
      1 ≤ (hitAt hits j).getLayer ∧ (hitAt hits j).getLayer ≤ 15)
    (hmin : 1 ≤ P.m_minNLayer) :
    layerCheck P hits iSubdetector iLayer t ≠ LayerCheck.returnNow ∧
    (¬ ((layerList hits iSubdetector iLayer t).length : Int) < P.m_minNLayer →
      layerCheck P hits iSubdetector iLayer t = LayerCheck.pass ∧
      (iLayer = 0 → hitsAbove hits iSubdetector iLayer t ≠ []) ∧
      (iLayer = 14 → hitsBelow hits iSubdetector iLayer t ≠ [])) := by
  have key : ¬ ((layerList hits iSubdetector iLayer t).length : Int) < P.m_minNLayer →
      (iLayer = 0 → hitsAbove hits iSubdetector iLayer t ≠ []) ∧
      (iLayer = 14 → hitsBelow hits iSubdetector iLayer t ≠ []) := by
    intro hl
    have hpos : 0 < (layerList hits iSubdetector iLayer t).length := by omega
    obtain ⟨l, hlmem⟩ := List.exists_mem_of_length_pos hpos
    unfold layerList at hlmem
    rw [List.mem_dedup, List.mem_map] at hlmem
    obtain ⟨j, hj, _⟩ := hlmem
    rw [List.mem_filter] at hj
    obtain ⟨hjmem, hjp⟩ := hj
    simp only [Bool.and_eq_true, beq_iff_eq, bne_iff_ne, ne_eq] at hjp
    obtain ⟨hsub, hne⟩ := hjp
    have hr := hrange j hjmem hsub
    constructor
    · intro h0
      apply List.ne_nil_of_mem (a := j)
      unfold hitsAbove
      rw [List.mem_filter]
      refine ⟨hjmem, ?_⟩
      simp only [Bool.and_eq_true, beq_iff_eq, decide_eq_true_eq]
      exact ⟨hsub, by omega⟩
    · intro h14
      apply List.ne_nil_of_mem (a := j)
      unfold hitsBelow
      rw [List.mem_filter]
      refine ⟨hjmem, ?_⟩
      simp only [Bool.and_eq_true, beq_iff_eq, decide_eq_true_eq]
      exact ⟨hsub, by omega⟩
  have hpass : ¬ ((layerList hits iSubdetector iLayer t).length : Int) < P.m_minNLayer →
      layerCheck P hits iSubdetector iLayer t = LayerCheck.pass := by
    intro hl
    obtain ⟨ka, kb⟩ := key hl
    unfold layerCheck
    rw [if_neg hl]
    rcases hext with h0 | h14
    · have hlen : ¬ (hitsAbove hits iSubdetector iLayer t).length < 1 := by
        have := List.length_pos.mpr (ka h0)
        omega
      rw [if_neg (by simp [h0]), if_neg (fun hc => hlen hc.2)]
    · have hlen : ¬ (hitsBelow hits iSubdetector iLayer t).length < 1 := by
        have := List.length_pos.mpr (kb h14)
        omega
      rw [if_neg (fun hc => hlen hc.2), if_neg (by simp [h14])]
  refine ⟨?_, fun hl => ⟨hpass hl, key hl⟩⟩
  by_cases hl : ((layerList hits iSubdetector iLayer t).length : Int) < P.m_minNLayer
  · unfold layerCheck
    rw [if_pos hl]
    simp
  · rw [hpass hl]
    simp

/-- Witness for C30: on layer index 0 the track `upperTrack`, with hits on
the layers 5, 7, 10, 12, has four distinct layers other than layer 1 and
passes the layer checks. -/
theorem generateEffi_extremal_layer_no_return_witness :
    layerCheck Params.default upperStore c_BKLM 0 upperTrack ≠ LayerCheck.returnNow ∧
    layerCheck Params.default upperStore c_BKLM 0 upperTrack = LayerCheck.pass ∧
    hitsAbove upperStore c_BKLM 0 upperTrack = [2, 3, 4, 5] :=
  have h := generateEffi_extremal_layer_no_return Params.default upperStore c_BKLM 0 upperTrack
    (Or.inl rfl) (by decide) (by decide)
  ⟨h.1, (h.2 (by decide)).1, by decide⟩

/-! ## Facts on rounding to `float` -/

theorem roundEven_near (y : ℚ) : |(roundEven y : ℚ) - y| ≤ 1 / 2 := by
  have h1 : (⌊y⌋ : ℚ) ≤ y := Int.floor_le y
  have h2 : y < ⌊y⌋ + 1 := Int.lt_floor_add_one y
  unfold roundEven
  split_ifs with a b c
  · rw [abs_le]
    constructor <;> linarith
  · rw [abs_le]
    push_cast
    constructor <;> linarith
  · rw [abs_le]
    constructor <;> linarith
  · rw [abs_le]
    push_cast
    constructor <;> linarith

theorem roundEven_of_near (y : ℚ) (m : Int) (h : |y - m| < 1 / 2) : roundEven y = m := by
  rw [abs_lt] at h
  have h1 : (⌊y⌋ : ℚ) ≤ y := Int.floor_le y
  have h2 : y < ⌊y⌋ + 1 := Int.lt_floor_add_one y
  have hm : ⌊y⌋ = m ∨ ⌊y⌋ = m - 1 := by
    have a : (⌊y⌋ : ℚ) < m + 1 := by linarith
    have b : (m : ℚ) - 2 < ⌊y⌋ := by linarith
    have a' : ⌊y⌋ < m + 1 := by exact_mod_cast a
    have b' : m - 2 < ⌊y⌋ := by exact_mod_cast b
    omega
  unfold roundEven
  rcases hm with e | e
  · have c : y - ⌊y⌋ < 1 / 2 := by rw [e]; linarith
    rw [if_pos c, e]
  · have c : ¬ y - ⌊y⌋ < 1 / 2 := by rw [e]; push_cast; linarith
    have d : 1 / 2 < y - ⌊y⌋ := by rw [e]; push_cast; linarith
    rw [if_neg c, if_pos d, e]
    ring

theorem roundEven_intCast (n : Int) : roundEven (n : ℚ) = n :=
  roundEven_of_near _ n (by simp)

theorem log_bounds (x : ℚ) (hx : 0 < x) :
    (2 : ℚ) ^ Int.log 2 x ≤ x ∧ x < (2 : ℚ) ^ (Int.log 2 x + 1) := by
  have h1 := Int.zpow_log_le_self (b := 2) (r := x) (by norm_num) hx
  have h2 := Int.lt_zpow_succ_log_self (b := 2) (by norm_num) x
  exact ⟨by exact_mod_cast h1, by exact_mod_cast h2⟩

theorem log_eq_of_bounds (x : ℚ) (e : Int) (h1 : (2 : ℚ) ^ e ≤ x) (h2 : x < (2 : ℚ) ^ (e + 1)) :
    Int.log 2 x = e := by
  have hx : 0 < x := lt_of_lt_of_le (by positivity) h1
  have a : e ≤ Int.log 2 x :=
    (Int.zpow_le_iff_le_log (b := 2) (by norm_num) hx).mp (by exact_mod_cast h1)
  have b : Int.log 2 x < e + 1 :=
    (Int.lt_zpow_iff_log_lt (b := 2) (by norm_num) hx).mp (by exact_mod_cast h2)
  omega

theorem ulpExponent_normal (x : ℚ) (hlo : (2 : ℚ) ^ (-126 : Int) ≤ |x|) :
    ulpExponent x = Int.log 2 |x| - 23 := by
  have hx : 0 < |x| := lt_of_lt_of_le (by positivity) hlo
  have a : (-126 : Int) ≤ Int.log 2 |x| :=
    (Int.zpow_le_iff_le_log (b := 2) (by norm_num) hx).mp (by exact_mod_cast hlo)
  unfold ulpExponent
  exact max_eq_left (by omega)

theorem roundToFloat_rel (x : ℚ) (hlo : (2 : ℚ) ^ (-126 : Int) ≤ |x|)
    (hhi : |x| < 2 ^ 127) :
    ∃ y, roundToFloat x = FloatValue.finite y ∧ |y - x| ≤ |x| / 2 ^ 24 := by
  have hx : 0 < |x| := lt_of_lt_of_le (by positivity) hlo
  have hx0 : x ≠ 0 := abs_pos.mp hx
  obtain ⟨b1, _⟩ := log_bounds |x| hx
  have hq := ulpExponent_normal x hlo
  have hs : (0 : ℚ) < 2 ^ (Int.log 2 |x| - 23) := by positivity
  have hs2 : (2 : ℚ) ^ (Int.log 2 |x| - 23) = 2 ^ Int.log 2 |x| / 2 ^ 23 := by
    rw [zpow_sub₀ (by norm_num)]
    norm_num
  have hnear := roundEven_near (x / 2 ^ (Int.log 2 |x| - 23))
  have herr : |(roundEven (x / 2 ^ (Int.log 2 |x| - 23)) : ℚ) * 2 ^ (Int.log 2 |x| - 23) - x| ≤
      |x| / 2 ^ 24 := by
    have e : (roundEven (x / 2 ^ (Int.log 2 |x| - 23)) : ℚ) * 2 ^ (Int.log 2 |x| - 23) - x =
        ((roundEven (x / 2 ^ (Int.log 2 |x| - 23)) : ℚ) - x / 2 ^ (Int.log 2 |x| - 23)) *
          2 ^ (Int.log 2 |x| - 23) := by
      field_simp
    rw [e, abs_mul, abs_of_pos hs]
    calc |(roundEven (x / 2 ^ (Int.log 2 |x| - 23)) : ℚ) - x / 2 ^ (Int.log 2 |x| - 23)| *
          2 ^ (Int.log 2 |x| - 23)
        ≤ 1 / 2 * 2 ^ (Int.log 2 |x| - 23) := by
          exact mul_le_mul_of_nonneg_right hnear hs.le
      _ = 2 ^ Int.log 2 |x| / 2 ^ 24 := by
          rw [hs2]
          norm_num
          ring
      _ ≤ |x| / 2 ^ 24 := by
          exact div_le_div_of_nonneg_right b1 (by positivity)
  refine ⟨(roundEven (x / 2 ^ (Int.log 2 |x| - 23)) : ℚ) * 2 ^ (Int.log 2 |x| - 23), ?_, herr⟩
  unfold roundToFloat
  rw [if_neg hx0, hq, if_pos]
  have h3 : |(roundEven (x / 2 ^ (Int.log 2 |x| - 23)) : ℚ) * 2 ^ (Int.log 2 |x| - 23)| ≤
      |x| + |x| / 2 ^ 24 := by
    have := abs_sub_abs_le_abs_sub
      ((roundEven (x / 2 ^ (Int.log 2 |x| - 23)) : ℚ) * 2 ^ (Int.log 2 |x| - 23)) x
    linarith
  have h4 : |x| / 2 ^ 24 ≤ |x| := by
    apply div_le_self hx.le
    norm_num
  linarith

theorem roundToFloat_pos (x : ℚ) (hlo : (2 : ℚ) ^ (-126 : Int) ≤ x) (hhi : x < 2 ^ 127) :
    ∃ y, roundToFloat x = FloatValue.finite y ∧
      x * (1 - 1 / 2 ^ 24) ≤ y ∧ y ≤ x * (1 + 1 / 2 ^ 24) := by
  have h0 : (0 : ℚ) < 2 ^ (-126 : Int) := by positivity
  have hx : 0 < x := lt_of_lt_of_le h0 hlo
  obtain ⟨y, hy, herr⟩ := roundToFloat_rel x (by rw [abs_of_pos hx]; exact hlo)
    (by rw [abs_of_pos hx]; exact hhi)
  rw [abs_of_pos hx, abs_le] at herr
  refine ⟨y, hy, ?_, ?_⟩
  · have : x * (1 - 1 / 2 ^ 24) = x - x / 2 ^ 24 := by ring
    linarith
  · have : x * (1 + 1 / 2 ^ 24) = x + x / 2 ^ 24 := by ring
    linarith

theorem roundToFloat_exact (m k : Int) (hm : |(m : ℚ)| < 2 ^ 24)
    (hlo : (2 : ℚ) ^ (-126 : Int) ≤ |(m : ℚ) * 2 ^ k|)
    (hhi : |(m : ℚ) * 2 ^ k| < 2 ^ 127) :
    roundToFloat ((m : ℚ) * 2 ^ k) = FloatValue.finite ((m : ℚ) * 2 ^ k) := by
  have h0 : (0 : ℚ) < 2 ^ (-126 : Int) := by positivity
  have hx : 0 < |(m : ℚ) * 2 ^ k| := lt_of_lt_of_le h0 hlo
  have hx0 : (m : ℚ) * 2 ^ k ≠ 0 := abs_pos.mp hx
  have hq := ulpExponent_normal _ hlo
  have hk : (0 : ℚ) < 2 ^ k := by positivity
  have hlt : |(m : ℚ) * 2 ^ k| < (2 : ℚ) ^ (k + 24) := by
    rw [abs_mul, abs_of_pos hk, zpow_add₀ (by norm_num), mul_comm]
    have : ((2 : ℚ) ^ (24 : Int)) = 2 ^ 24 := by norm_num
    rw [this]
    exact mul_lt_mul_of_pos_left hm hk
  have he : Int.log 2 |(m : ℚ) * 2 ^ k| < k + 24 :=
    (Int.lt_zpow_iff_log_lt (b := 2) (by norm_num) hx).mp (by exact_mod_cast hlt)
  unfold roundToFloat
  rw [if_neg hx0, hq]
  generalize Int.log 2 |(m : ℚ) * 2 ^ k| = L at he
  obtain ⟨n, hn⟩ : ∃ n : Nat, k = (L - 23) + n := ⟨(k - (L - 23)).toNat, by omega⟩
  have hs : (0 : ℚ) < 2 ^ (L - 23) := by positivity
  have e : (2 : ℚ) ^ k = 2 ^ (L - 23) * 2 ^ n := by
    conv_lhs => rw [hn]
    rw [zpow_add₀ (by norm_num), zpow_natCast]
  have hz : (m : ℚ) * 2 ^ k / 2 ^ (L - 23) = ((m * 2 ^ n : Int) : ℚ) := by
    rw [div_eq_iff hs.ne', e]
    push_cast
    ring
  have hy : ((m * 2 ^ n : Int) : ℚ) * 2 ^ (L - 23) = (m : ℚ) * 2 ^ k := by
    rw [e]
    push_cast
    ring
  rw [hz, roundEven_intCast, hy, if_pos]
  calc |(m : ℚ) * 2 ^ k| < 2 ^ 127 := hhi
    _ < 2 ^ 128 := by norm_num

theorem roundToFloat_natCast (n : Nat) (h : n ≤ 2 ^ 24) :
    roundToFloat (n : ℚ) = FloatValue.finite (n : ℚ) := by
  rcases Nat.eq_zero_or_pos n with h0 | hpos
  · subst h0
    simp [roundToFloat]
  · rcases Nat.lt_or_ge n (2 ^ 24) with hlt | hge
    · have e := roundToFloat_exact (n : Int) 0
        (by
          have : ((n : Int) : ℚ) = (n : ℚ) := by norm_cast
          rw [this, abs_of_nonneg (by positivity)]
          exact_mod_cast hlt)
        (by
          have : ((n : Int) : ℚ) = (n : ℚ) := by norm_cast
          rw [this, zpow_zero, mul_one, abs_of_nonneg (by positivity)]
          have h1 : (1 : ℚ) ≤ n := by exact_mod_cast hpos
          have h2 : (2 : ℚ) ^ (-126 : Int) ≤ 1 := by
            rw [zpow_neg]
            apply inv_le_one_of_one_le₀
            norm_num
          linarith)
        (by
          have : ((n : Int) : ℚ) = (n : ℚ) := by norm_cast
          rw [this, zpow_zero, mul_one, abs_of_nonneg (by positivity)]
          have h1 : (n : ℚ) < 2 ^ 24 := by exact_mod_cast hlt
          have h2 : (2 : ℚ) ^ 24 < 2 ^ 127 := by norm_num
          linarith)
      simpa using e
    · have hn : n = 2 ^ 24 := le_antisymm h hge
      subst hn
      have e := roundToFloat_exact 1 24 (by norm_num) (by norm_num) (by norm_num)
      have e2 : ((1 : Int) : ℚ) * 2 ^ (24 : Int) = ((2 ^ 24 : Nat) : ℚ) := by norm_num
      rw [e2] at e
      exact e

/-! ## Facts on `effiBin` -/

theorem radicand_bound (B t b c2 c3 d : ℚ) (hB : 0 < B) (ht : 0 < t)
    (hb1 : B * (1 - 1 / 2 ^ 24) ≤ b) (hb2 : b ≤ B * (1 + 1 / 2 ^ 24))
    (hc1 : t * t * (1 - 1 / 2 ^ 24) ≤ c2) (hc2 : c2 ≤ t * t * (1 + 1 / 2 ^ 24))
    (hd1 : c2 * t * (1 - 1 / 2 ^ 24) ≤ c3) (hd2 : c3 ≤ c2 * t * (1 + 1 / 2 ^ 24))
    (he1 : b / c3 * (1 - 1 / 2 ^ 24) ≤ d) (he2 : d ≤ b / c3 * (1 + 1 / 2 ^ 24)) :
    0 ≤ d ∧ |d - B / (t * t * t)| ≤ B / (t * t * t) / 2 ^ 21 := by
  have hu1 : (0 : ℚ) < 1 - 1 / 2 ^ 24 := by norm_num
  have hu2 : (0 : ℚ) < 1 + 1 / 2 ^ 24 := by norm_num
  have ht3 : 0 < t * t * t := by positivity
  have hc2pos : 0 < c2 := lt_of_lt_of_le (by positivity) hc1
  have hc3pos : 0 < c3 := lt_of_lt_of_le (by positivity) hd1
  have hbpos : 0 < b := lt_of_lt_of_le (by positivity) hb1
  have hq : 0 < b / c3 := div_pos hbpos hc3pos
  have hdpos : 0 < d := lt_of_lt_of_le (by positivity) he1
  have hc3lo : t * t * t * ((1 - 1 / 2 ^ 24) * (1 - 1 / 2 ^ 24)) ≤ c3 := by
    calc t * t * t * ((1 - 1 / 2 ^ 24) * (1 - 1 / 2 ^ 24))
        = t * t * (1 - 1 / 2 ^ 24) * t * (1 - 1 / 2 ^ 24) := by ring
      _ ≤ c2 * t * (1 - 1 / 2 ^ 24) := by
          apply mul_le_mul_of_nonneg_right _ hu1.le
          exact mul_le_mul_of_nonneg_right hc1 ht.le
      _ ≤ c3 := hd1
  have hc3hi : c3 ≤ t * t * t * ((1 + 1 / 2 ^ 24) * (1 + 1 / 2 ^ 24)) := by
    calc c3 ≤ c2 * t * (1 + 1 / 2 ^ 24) := hd2
      _ ≤ t * t * (1 + 1 / 2 ^ 24) * t * (1 + 1 / 2 ^ 24) := by
          apply mul_le_mul_of_nonneg_right _ hu2.le
          exact mul_le_mul_of_nonneg_right hc2 ht.le
      _ = t * t * t * ((1 + 1 / 2 ^ 24) * (1 + 1 / 2 ^ 24)) := by ring
  have hdc1 : b * (1 - 1 / 2 ^ 24) ≤ d * c3 := by
    have := mul_le_mul_of_nonneg_right he1 hc3pos.le
    have e : b / c3 * (1 - 1 / 2 ^ 24) * c3 = b * (1 - 1 / 2 ^ 24) := by
      field_simp
      ring
    linarith
  have hdc2 : d * c3 ≤ b * (1 + 1 / 2 ^ 24) := by
    have := mul_le_mul_of_nonneg_right he2 hc3pos.le
    have e : b / c3 * (1 + 1 / 2 ^ 24) * c3 = b * (1 + 1 / 2 ^ 24) := by
      field_simp
      ring
    linarith
  have hup : d * (t * t * t) ≤ B * (1 + 1 / 2 ^ 21) := by
    have h1 : d * (t * t * t * ((1 - 1 / 2 ^ 24) * (1 - 1 / 2 ^ 24))) ≤ d * c3 :=
      mul_le_mul_of_nonneg_left hc3lo hdpos.le
    have h2 : b * (1 + 1 / 2 ^ 24) ≤ B * (1 + 1 / 2 ^ 24) * (1 + 1 / 2 ^ 24) :=
      mul_le_mul_of_nonneg_right hb2 hu2.le
    have h3 : d * (t * t * t) * ((1 - 1 / 2 ^ 24) * (1 - 1 / 2 ^ 24)) ≤
        B * ((1 + 1 / 2 ^ 24) * (1 + 1 / 2 ^ 24)) := by
      have e : d * (t * t * t * ((1 - 1 / 2 ^ 24) * (1 - 1 / 2 ^ 24))) =
          d * (t * t * t) * ((1 - 1 / 2 ^ 24) * (1 - 1 / 2 ^ 24)) := by ring
      have e2 : B * (1 + 1 / 2 ^ 24) * (1 + 1 / 2 ^ 24) =
          B * ((1 + 1 / 2 ^ 24) * (1 + 1 / 2 ^ 24)) := by ring
      linarith
    have hnum : ((1 : ℚ) + 1 / 2 ^ 24) * (1 + 1 / 2 ^ 24) ≤
        (1 + 1 / 2 ^ 21) * ((1 - 1 / 2 ^ 24) * (1 - 1 / 2 ^ 24)) := by norm_num
    have h4 : B * ((1 + 1 / 2 ^ 24) * (1 + 1 / 2 ^ 24)) ≤
        B * (1 + 1 / 2 ^ 21) * ((1 - 1 / 2 ^ 24) * (1 - 1 / 2 ^ 24)) := by
      have := mul_le_mul_of_nonneg_left hnum hB.le
      linarith [this, mul_assoc B (1 + 1 / 2 ^ 21 : ℚ) ((1 - 1 / 2 ^ 24) * (1 - 1 / 2 ^ 24))]
    exact le_of_mul_le_mul_right (le_trans h3 h4) (mul_pos hu1 hu1)
  have hlow : B * (1 - 1 / 2 ^ 21) ≤ d * (t * t * t) := by
    have h1 : d * c3 ≤ d * (t * t * t * ((1 + 1 / 2 ^ 24) * (1 + 1 / 2 ^ 24))) :=
      mul_le_mul_of_nonneg_left hc3hi hdpos.le
    have h2 : B * (1 - 1 / 2 ^ 24) * (1 - 1 / 2 ^ 24) ≤ b * (1 - 1 / 2 ^ 24) :=
      mul_le_mul_of_nonneg_right hb1 hu1.le
    have h3 : B * ((1 - 1 / 2 ^ 24) * (1 - 1 / 2 ^ 24)) ≤
        d * (t * t * t) * ((1 + 1 / 2 ^ 24) * (1 + 1 / 2 ^ 24)) := by
      have e : d * (t * t * t * ((1 + 1 / 2 ^ 24) * (1 + 1 / 2 ^ 24))) =
          d * (t * t * t) * ((1 + 1 / 2 ^ 24) * (1 + 1 / 2 ^ 24)) := by ring
      have e2 : B * (1 - 1 / 2 ^ 24) * (1 - 1 / 2 ^ 24) =
          B * ((1 - 1 / 2 ^ 24) * (1 - 1 / 2 ^ 24)) := by ring
      linarith
    have hnum : ((1 : ℚ) - 1 / 2 ^ 21) * ((1 + 1 / 2 ^ 24) * (1 + 1 / 2 ^ 24)) ≤
        (1 - 1 / 2 ^ 24) * (1 - 1 / 2 ^ 24) := by norm_num
    have h4 : B * (1 - 1 / 2 ^ 21) * ((1 + 1 / 2 ^ 24) * (1 + 1 / 2 ^ 24)) ≤
        B * ((1 - 1 / 2 ^ 24) * (1 - 1 / 2 ^ 24)) := by
      have := mul_le_mul_of_nonneg_left hnum hB.le
      linarith [this, mul_assoc B (1 - 1 / 2 ^ 21 : ℚ) ((1 + 1 / 2 ^ 24) * (1 + 1 / 2 ^ 24))]
    exact le_of_mul_le_mul_right (le_trans h4 h3) (mul_pos hu2 hu2)
  refine ⟨hdpos.le, ?_⟩
  rw [abs_le]
  have hx : B / (t * t * t) * (t * t * t) = B := by field_simp
  constructor
  · have : (B / (t * t * t) - B / (t * t * t) / 2 ^ 21) * (t * t * t) ≤ d * (t * t * t) := by
      have e : (B / (t * t * t) - B / (t * t * t) / 2 ^ 21) * (t * t * t) =
          B / (t * t * t) * (t * t * t) * (1 - 1 / 2 ^ 21) := by ring
      rw [e, hx]
      exact hlow
    have := le_of_mul_le_mul_right this ht3
    linarith
  · have : d * (t * t * t) ≤ (B / (t * t * t) + B / (t * t * t) / 2 ^ 21) * (t * t * t) := by
      have e : (B / (t * t * t) + B / (t * t * t) / 2 ^ 21) * (t * t * t) =
          B / (t * t * t) * (t * t * t) * (1 + 1 / 2 ^ 21) := by ring
      rw [e, hx]
      exact hup
    have := le_of_mul_le_mul_right this ht3
    linarith

theorem roundToFloat_zero : roundToFloat 0 = FloatValue.finite 0 := by
  simp [roundToFloat]

theorem roundToFloat_range (x lo hi : ℚ) (hlo : lo ≤ x) (hhi : x ≤ hi)
    (h1 : (2 : ℚ) ^ (-126 : Int) ≤ lo) (h2 : hi < 2 ^ 127) :
    ∃ y, roundToFloat x = FloatValue.finite y ∧
      x * (1 - 1 / 2 ^ 24) ≤ y ∧ y ≤ x * (1 + 1 / 2 ^ 24) :=
  roundToFloat_pos x (le_trans h1 hlo) (lt_of_le_of_lt hhi h2)

theorem rounded_bounds (x y lo hi : ℚ) (h0 : 0 ≤ lo) (hlo : lo ≤ x) (hhi : x ≤ hi)
    (hy1 : x * (1 - 1 / 2 ^ 24) ≤ y) (hy2 : y ≤ x * (1 + 1 / 2 ^ 24)) :
    lo / 2 ≤ y ∧ y ≤ 2 * hi := by
  have hx : 0 ≤ x := le_trans h0 hlo
  have a : lo * (1 - 1 / 2 ^ 24) ≤ x * (1 - 1 / 2 ^ 24) :=
    mul_le_mul_of_nonneg_right hlo (by norm_num)
  have b : x * (1 + 1 / 2 ^ 24) ≤ hi * (1 + 1 / 2 ^ 24) :=
    mul_le_mul_of_nonneg_right hhi (by norm_num)
  have c : lo / 2 ≤ lo * (1 - 1 / 2 ^ 24) := by
    have : lo * (1 - 1 / 2 ^ 24) - lo / 2 = lo * (1 / 2 - 1 / 2 ^ 24) := by ring
    have h2 : 0 ≤ lo * (1 / 2 - 1 / 2 ^ 24) := mul_nonneg h0 (by norm_num)
    linarith
  have d : hi * (1 + 1 / 2 ^ 24) ≤ 2 * hi := by
    have : 2 * hi - hi * (1 + 1 / 2 ^ 24) = hi * (1 - 1 / 2 ^ 24) := by ring
    have h2 : 0 ≤ hi * (1 - 1 / 2 ^ 24) := mul_nonneg (le_trans hx hhi) (by norm_num)
    linarith
  exact ⟨by linarith, by linarith⟩

theorem effiBin_spec (sqrt : ℚ → ℚ) (P T : Nat) (hP : 0 < P) (hPT : P ≤ T)
    (hT : T ≤ 2 ^ 24) :
    ∃ c d : ℚ, effiBin sqrt P T = (FloatValue.finite c, FloatValue.finite (sqrt d)) ∧
      roundToFloat ((P : ℚ) / T) = FloatValue.finite c ∧
      |c - (P : ℚ) / T| ≤ (P : ℚ) / T / 2 ^ 24 ∧
      0 ≤ d ∧
      |d - (P : ℚ) * (T - P) / (T * T * T)| ≤ (P : ℚ) * (T - P) / (T * T * T) / 2 ^ 21 ∧
      (P = T → c = 1 ∧ d = 0) := by
  have hp1 : (1 : ℚ) ≤ P := by exact_mod_cast hP
  have hp : (0 : ℚ) < P := by linarith
  have hpt : (P : ℚ) ≤ T := by exact_mod_cast hPT
  have ht1 : (1 : ℚ) ≤ T := by linarith
  have ht : (0 : ℚ) < T := by linarith
  have htm : (T : ℚ) ≤ 2 ^ 24 := by exact_mod_cast hT
  have hnum : roundToFloat (P : ℚ) = FloatValue.finite P :=
    roundToFloat_natCast P (le_trans hPT hT)
  have hden : roundToFloat (T : ℚ) = FloatValue.finite T := roundToFloat_natCast T hT
  have hsub : roundToFloat ((T : ℚ) - P) = FloatValue.finite ((T : ℚ) - P) := by
    have e : (T : ℚ) - P = ((T - P : Nat) : ℚ) := by rw [Nat.cast_sub hPT]
    rw [e]
    exact roundToFloat_natCast _ (le_trans (Nat.sub_le T P) hT)
  -- the content
  have hx1 : (1 : ℚ) / 2 ^ 24 ≤ (P : ℚ) / T := by
    rw [div_le_div_iff₀ (by positivity) ht]
    calc (1 : ℚ) * T ≤ 1 * 2 ^ 24 := by linarith
      _ ≤ P * 2 ^ 24 := by
          exact mul_le_mul_of_nonneg_right hp1 (by positivity)
  have hx2 : (P : ℚ) / T ≤ 1 := (div_le_one ht).mpr hpt
  obtain ⟨c, hc, hc1, hc2⟩ := roundToFloat_range ((P : ℚ) / T) _ _ hx1 hx2
    (by norm_num) (by norm_num)
  have hcerr : |c - (P : ℚ) / T| ≤ (P : ℚ) / T / 2 ^ 24 := by
    rw [abs_le]
    constructor <;> linarith
  -- the cube of the total
  have htt1 : (1 : ℚ) ≤ T * T := by
    calc (1 : ℚ) = 1 * 1 := by norm_num
      _ ≤ T * T := mul_le_mul ht1 ht1 (by norm_num) ht.le
  have htt2 : (T : ℚ) * T ≤ 2 ^ 48 := by
    calc (T : ℚ) * T ≤ 2 ^ 24 * 2 ^ 24 := mul_le_mul htm htm ht.le (by positivity)
      _ = 2 ^ 48 := by norm_num
  obtain ⟨c2, hc2eq, hc2lo, hc2hi⟩ := roundToFloat_range ((T : ℚ) * T) _ _ htt1 htt2
    (by norm_num) (by norm_num)
  obtain ⟨hc2a, hc2b⟩ := rounded_bounds _ c2 1 (2 ^ 48) (by norm_num) htt1 htt2 hc2lo hc2hi
  have hc2pos : (0 : ℚ) < c2 := by linarith
  have hct1 : (1 : ℚ) / 2 ≤ c2 * T := by
    calc (1 : ℚ) / 2 = 1 / 2 * 1 := by norm_num
      _ ≤ c2 * T := mul_le_mul hc2a ht1 (by norm_num) hc2pos.le
  have hct2 : c2 * T ≤ 2 ^ 73 := by
    calc c2 * T ≤ 2 * 2 ^ 48 * 2 ^ 24 := mul_le_mul hc2b htm ht.le (by positivity)
      _ = 2 ^ 73 := by norm_num
  obtain ⟨c3, hc3eq, hc3lo, hc3hi⟩ := roundToFloat_range (c2 * T) _ _ hct1 hct2
    (by norm_num) (by norm_num)
  obtain ⟨hc3a, hc3b⟩ := rounded_bounds _ c3 (1 / 2) (2 ^ 73) (by norm_num) hct1 hct2
    hc3lo hc3hi
  have hc3pos : (0 : ℚ) < c3 := by linarith
  have hfirst : effiBin sqrt P T =
      (FloatValue.finite c,
       FloatValue.sqrt sqrt
        ((roundToFloat ((P : ℚ) * (T - P))).div (FloatValue.finite c3))) := by
    unfold effiBin
    simp only [hnum, hden, FloatValue.isPositive, decide_eq_true hp, if_true, FloatValue.div,
      if_neg ht.ne', hc, FloatValue.sub, hsub, FloatValue.mul, hc2eq, hc3eq]
  rcases Nat.eq_or_lt_of_le hPT with heq | hlt
  · -- pass equals total
    have hz : (P : ℚ) * (T - P) = 0 := by rw [heq]; ring
    have hone : c = 1 := by
      have e : (P : ℚ) / T = ((1 : Nat) : ℚ) := by
        rw [heq, div_self ht.ne']
        norm_num
      rw [e, roundToFloat_natCast 1 (by norm_num)] at hc
      have := FloatValue.finite.inj hc
      rw [← this]
      norm_num
    refine ⟨c, 0, ?_, hc, hcerr, le_refl _, ?_, fun _ => ⟨hone, rfl⟩⟩
    · rw [hfirst, hz, roundToFloat_zero]
      simp only [FloatValue.div, if_neg hc3pos.ne', zero_div, roundToFloat_zero,
        FloatValue.sqrt, lt_irrefl, if_false]
    · rw [hz]
      simp
  · -- pass below total
    have hd1 : (1 : ℚ) ≤ T - P := by
      have : (P : ℚ) + 1 ≤ T := by exact_mod_cast hlt
      linarith
    have hd2 : (T : ℚ) - P ≤ 2 ^ 24 := by linarith
    have hB1 : (1 : ℚ) ≤ P * (T - P) := by
      calc (1 : ℚ) = 1 * 1 := by norm_num
        _ ≤ P * (T - P) := mul_le_mul hp1 hd1 (by norm_num) hp.le
    have hB2 : (P : ℚ) * (T - P) ≤ 2 ^ 48 := by
      calc (P : ℚ) * (T - P) ≤ 2 ^ 24 * 2 ^ 24 :=
            mul_le_mul (le_trans hpt htm) hd2 (by linarith) (by positivity)
        _ = 2 ^ 48 := by norm_num
    obtain ⟨b, hbeq, hblo, hbhi⟩ := roundToFloat_range ((P : ℚ) * (T - P)) _ _ hB1 hB2
      (by norm_num) (by norm_num)
    obtain ⟨hba, hbb⟩ := rounded_bounds _ b 1 (2 ^ 48) (by norm_num) hB1 hB2 hblo hbhi
    have hbpos : (0 : ℚ) < b := by linarith
    have hq1 : (1 : ℚ) / 2 ^ 75 ≤ b / c3 := by
      rw [div_le_div_iff₀ (by positivity) hc3pos]
      calc (1 : ℚ) * c3 ≤ 1 * (2 * 2 ^ 73) := by linarith
        _ = 1 / 2 * 2 ^ 75 := by norm_num
        _ ≤ b * 2 ^ 75 := mul_le_mul_of_nonneg_right hba (by positivity)
    have hq2 : b / c3 ≤ 2 ^ 51 := by
      rw [div_le_iff₀ hc3pos]
      calc b ≤ 2 * 2 ^ 48 := hbb
        _ = 2 ^ 51 * (1 / 2 / 2) := by norm_num
        _ ≤ 2 ^ 51 * c3 := mul_le_mul_of_nonneg_left hc3a (by positivity)
    obtain ⟨d, hdeq, hdlo, hdhi⟩ := roundToFloat_range (b / c3) _ _ hq1 hq2
      (by norm_num) (by norm_num)
    obtain ⟨hd0, hderr⟩ := radicand_bound ((P : ℚ) * (T - P)) T b c2 c3 d (by linarith) ht
      hblo hbhi hc2lo hc2hi hc3lo hc3hi hdlo hdhi
    refine ⟨c, d, ?_, hc, hcerr, hd0, hderr, ?_⟩
    · rw [hfirst, hbeq]
      simp only [FloatValue.div, if_neg hc3pos.ne', hdeq, FloatValue.sqrt,
        if_neg (not_lt.mpr hd0)]
    · intro h
      exact absurd h (Nat.ne_of_lt hlt)

theorem roundToFloat_eq_of (x : ℚ) (e m : Int) (h1 : (2 : ℚ) ^ e ≤ |x|)
    (h2 : |x| < (2 : ℚ) ^ (e + 1)) (he : -126 ≤ e)
    (hm : |x / 2 ^ (e - 23) - m| < 1 / 2)
    (hov : |(m : ℚ) * 2 ^ (e - 23)| < 2 ^ 128) :
    roundToFloat x = FloatValue.finite ((m : ℚ) * 2 ^ (e - 23)) := by
  have hx : 0 < |x| := lt_of_lt_of_le (by positivity) h1
  have hx0 : x ≠ 0 := abs_pos.mp hx
  have hlog : Int.log 2 |x| = e := log_eq_of_bounds |x| e h1 h2
  have hq : ulpExponent x = e - 23 := by
    unfold ulpExponent
    rw [hlog]
    exact max_eq_left (by omega)
  unfold roundToFloat
  rw [if_neg hx0, hq, roundEven_of_near _ m hm, if_pos hov]

theorem roundToFloat_third :
    roundToFloat (1 / 3) = FloatValue.finite (11184811 / 33554432) := by
  have h := roundToFloat_eq_of (1 / 3) (-2) 11184811 (by norm_num [abs_of_pos])
    (by norm_num [abs_of_pos]) (by norm_num)
    (by
      have e : (1 : ℚ) / 3 / 2 ^ ((-2 : Int) - 23) - ((11184811 : Int) : ℚ) = -(1 / 3) := by
        norm_num
      rw [e]
      norm_num [abs_of_pos])
    (by norm_num [abs_of_pos])
  rw [h]
  norm_num

theorem terminate_zero_pass (sqrt : ℚ → ℚ) (m : PositionMaps) (binx biny : Nat) :
    (m.m_passYX binx biny = 0 →
      (terminate sqrt m binx biny).1 = (FloatValue.finite 0, FloatValue.finite 0)) ∧
    (m.m_passYZ binx biny = 0 →
      (terminate sqrt m binx biny).2 = (FloatValue.finite 0, FloatValue.finite 0)) := by
  constructor <;>
  · intro h0
    unfold terminate
    split_ifs
    · simp [effiBin, h0, roundToFloat_zero, FloatValue.isPositive]
    · rfl

/-! ## Claims on `terminate` -/

/-- C8: after any sequence of calls of `generateEffi` on empty histograms,
in every bin of the YX and of the YZ map whose total content is 0 the pass
content is 0 as well, so the guard `num > 0` fails, no division is made, and
`terminate` sets the efficiency content and the efficiency error to exactly
0. The guard tests the pass content; it protects the bins without total
entries because each pass fill follows a total fill at the same point. -/
theorem terminate_zero_total (P : Params) (G : GeometryPar) (sqrt sqrtT : ℚ → ℚ)
    (nbinsX nbinsY : Nat) (findBin : ℚ × ℚ → Nat × Nat) (calls : List EffiCall)
    (binx biny : Nat) :
    ((positionMapsOf nbinsX nbinsY findBin
        (afterCalls P G sqrt emptyAccumulator calls)).m_totalYX binx biny = 0 →
      (positionMapsOf nbinsX nbinsY findBin
        (afterCalls P G sqrt emptyAccumulator calls)).m_passYX binx biny = 0 ∧
      (terminate sqrtT (positionMapsOf nbinsX nbinsY findBin
        (afterCalls P G sqrt emptyAccumulator calls)) binx biny).1 =
          (FloatValue.finite 0, FloatValue.finite 0)) ∧
    ((positionMapsOf nbinsX nbinsY findBin
        (afterCalls P G sqrt emptyAccumulator calls)).m_totalYZ binx biny = 0 →
      (positionMapsOf nbinsX nbinsY findBin
        (afterCalls P G sqrt emptyAccumulator calls)).m_passYZ binx biny = 0 ∧
      (terminate sqrtT (positionMapsOf nbinsX nbinsY findBin
        (afterCalls P G sqrt emptyAccumulator calls)) binx biny).2 =
          (FloatValue.finite 0, FloatValue.finite 0)) := by
  have h0 : PassLeTotal (fun _ => true) (fun v => findBin v == (binx, biny))
      (fun v => findBin v == (binx, biny)) emptyAccumulator := by
    simp [PassLeTotal, emptyAccumulator]
  have hc := afterCalls_passLeTotal P G sqrt (fun _ => true)
    (fun v => findBin v == (binx, biny)) (fun v => findBin v == (binx, biny))
    emptyAccumulator calls h0
  have hmin : ∀ a b : Nat, a ≤ b → min b (2 ^ 24) = 0 → min a (2 ^ 24) = 0 := by
    intro a b hab hb
    have : b = 0 := by
      rcases Nat.min_eq_zero_iff.mp hb with h | h
      · exact h
      · exact absurd h (by norm_num)
    have ha : a = 0 := by omega
    rw [ha]
    simp
  constructor
  · intro ht
    have hp : (positionMapsOf nbinsX nbinsY findBin
        (afterCalls P G sqrt emptyAccumulator calls)).m_passYX binx biny = 0 :=
      hmin _ _ hc.2.1 ht
    exact ⟨hp, (terminate_zero_pass sqrtT _ binx biny).1 hp⟩
  · intro ht
    have hp : (positionMapsOf nbinsX nbinsY findBin
        (afterCalls P G sqrt emptyAccumulator calls)).m_passYZ binx biny = 0 :=
      hmin _ _ hc.2.2 ht
    exact ⟨hp, (terminate_zero_pass sqrtT _ binx biny).2 hp⟩

/-- Witness for C8: after the call `scanCall` on empty histograms, which
fills the total and the pass map at the point `(20, 0)`, bin `(1, 1)` of the
YX map has no total entry, and content and error of its efficiency are 0. -/
theorem terminate_zero_total_witness :
    (afterCalls Params.default flatGeometry Rat.sqrt emptyAccumulator [scanCall]).m_totalYX =
      [(20, 0)] ∧
    (positionMapsOf 150 150 gridBin
      (afterCalls Params.default flatGeometry Rat.sqrt emptyAccumulator
        [scanCall])).m_totalYX 1 1 = 0 ∧
    (terminate Rat.sqrt (positionMapsOf 150 150 gridBin
      (afterCalls Params.default flatGeometry Rat.sqrt emptyAccumulator [scanCall])) 1 1).1 =
        (FloatValue.finite 0, FloatValue.finite 0) := by
  have e : afterCalls Params.default flatGeometry Rat.sqrt emptyAccumulator [scanCall] =
      (afterEvaluation 0 0 2 ⟨20, 0, 5⟩ emptyEffiState (some 4)).acc :=
    congrArg EffiState.acc scanStore_first_step
  have e1 : (afterCalls Params.default flatGeometry Rat.sqrt emptyAccumulator
      [scanCall]).m_totalYX = [(20, 0)] := by
    rw [e]
    rfl
  have e2 : (positionMapsOf 150 150 gridBin
      (afterCalls Params.default flatGeometry Rat.sqrt emptyAccumulator
        [scanCall])).m_totalYX 1 1 = 0 := by
    have hb : gridBin (20, 0) = (80, 76) := by
      have f1 : ⌊((20 : ℚ) + 350) * 150 / 700⌋ = 79 := by
        rw [Int.floor_eq_iff]
        norm_num
      have f2 : ⌊((0 : ℚ) + 350) * 150 / 700⌋ = 75 := by
        rw [Int.floor_eq_iff]
        norm_num
      simp only [gridBin, axisBin, f1, f2]
      norm_num
      exact ⟨rfl, rfl⟩
    simp only [positionMapsOf, e1, List.countP_cons, List.countP_nil, hb]
    decide
  exact ⟨e1, e2, ((terminate_zero_total Params.default flatGeometry Rat.sqrt Rat.sqrt 150 150
    gridBin [scanCall] 1 1).1 e2).2⟩

/-- C9 as stated fails: in a bin with pass content 1 and total content 3 the
efficiency content is the `float` 11184811 / 33554432, not 1 / 3. -/
theorem terminate_content_is_rounded :
    oneOfThreeMaps.m_passYX 1 1 = 1 ∧ oneOfThreeMaps.m_totalYX 1 1 = 3 ∧
    (terminate Rat.sqrt oneOfThreeMaps 1 1).1.1 = FloatValue.finite (11184811 / 33554432) ∧
    (terminate Rat.sqrt oneOfThreeMaps 1 1).1.1 ≠ FloatValue.finite (1 / 3) := by
  have h : (terminate Rat.sqrt oneOfThreeMaps 1 1).1.1 =
      FloatValue.finite (11184811 / 33554432) := by
    obtain ⟨c, d, hr, hc, _⟩ := effiBin_spec Rat.sqrt 1 3 (by norm_num) (by norm_num)
      (by norm_num)
    have e : ((1 : Nat) : ℚ) / ((3 : Nat) : ℚ) = 1 / 3 := by norm_num
    rw [e, roundToFloat_third] at hc
    have ht : (terminate Rat.sqrt oneOfThreeMaps 1 1).1 = effiBin Rat.sqrt 1 3 := by
      unfold terminate
      rw [if_pos (by decide)]
      rfl
    rw [ht, hr, ← hc]
  refine ⟨rfl, rfl, h, ?_⟩
  rw [h]
  intro hcon
  have := FloatValue.finite.inj hcon
  norm_num at this

/-- C9, amended: let the library root be non-negative on the non-negative
numbers and 0 at 0. For every bin visited by `terminate`, in the YX map and
in the YZ map alike, with total content `T`, `0 < T ≤ 2^24`, and pass
content `P ≤ T`: for `P = 0` content and error are 0; for `P > 0` the
content is the `float` nearest to `P / T`, which differs from `P / T` by at
most `P / T / 2^24`, and the error is the root `e ≥ 0` of a `float` `d ≥ 0`
that differs from `P (T - P) / T^3` by at most that number over `2^21`; for
`P = T` the content is 1 and the error 0. -/
theorem terminate_efficiency_value (sqrt : ℚ → ℚ)
    (hsqrt : ∀ x, 0 ≤ x → 0 ≤ sqrt x) (hsqrt0 : sqrt 0 = 0)
    (m : PositionMaps) (binx biny : Nat)
    (hx : 1 ≤ binx ∧ binx ≤ m.nbinsX) (hy : 1 ≤ biny ∧ biny ≤ m.nbinsY) :
    (0 < m.m_totalYX binx biny → m.m_passYX binx biny ≤ m.m_totalYX binx biny →
      m.m_totalYX binx biny ≤ 2 ^ 24 →
      EfficiencyValue sqrt (m.m_passYX binx biny) (m.m_totalYX binx biny)
        (terminate sqrt m binx biny).1) ∧
    (0 < m.m_totalYZ binx biny → m.m_passYZ binx biny ≤ m.m_totalYZ binx biny →
      m.m_totalYZ binx biny ≤ 2 ^ 24 →
      EfficiencyValue sqrt (m.m_passYZ binx biny) (m.m_totalYZ binx biny)
        (terminate sqrt m binx biny).2) := by
  have key : ∀ P T : Nat, 0 < T → P ≤ T → T ≤ 2 ^ 24 →
      EfficiencyValue sqrt P T (effiBin sqrt P T) := by
    intro P T _ hPT hT
    constructor
    · intro h0
      simp [effiBin, h0, roundToFloat_zero, FloatValue.isPositive]
    · intro hP
      obtain ⟨c, d, hr, hc, hcerr, hd0, hderr, heq⟩ := effiBin_spec sqrt P T hP hPT hT
      refine ⟨c, d, hr, hc, hcerr, hd0, hderr, hsqrt d hd0, ?_⟩
      intro hPeq
      obtain ⟨h1, h2⟩ := heq hPeq
      exact ⟨h1, h2, by rw [h2, hsqrt0]⟩
  have hin : 1 ≤ binx ∧ binx ≤ m.nbinsX ∧ 1 ≤ biny ∧ biny ≤ m.nbinsY :=
    ⟨hx.1, hx.2, hy.1, hy.2⟩
  constructor
  · intro hT hPT hTm
    unfold terminate
    rw [if_pos hin]
    exact key _ _ hT hPT hTm
  · intro hT hPT hTm
    unfold terminate
    rw [if_pos hin]
    exact key _ _ hT hPT hTm

/-- Witness for C9, amended: bin `(1, 1)` of maps with pass content 1 and
total content 3, with the root `Rat.sqrt`. -/
theorem terminate_efficiency_value_witness :
    (∀ x : ℚ, 0 ≤ x → 0 ≤ Rat.sqrt x) ∧ Rat.sqrt 0 = 0 ∧
    EfficiencyValue Rat.sqrt 1 3 (terminate Rat.sqrt oneOfThreeMaps 1 1).1 :=
  ⟨fun x _ => Rat.sqrt_nonneg x, by norm_num [Rat.sqrt],
   (terminate_efficiency_value Rat.sqrt (fun x _ => Rat.sqrt_nonneg x)
      (by norm_num [Rat.sqrt]) oneOfThreeMaps 1 1 (by decide) (by decide)).1
      (by decide) (by decide) (by decide)⟩

end KLMTracking

namespace EventShapeCalculator

/-! ## Facts on `parseParticleLists` -/

theorem parseParticleLists_of_lt (rot : FourVector → FourVector) (flag : Bool)
    (pls : List (List Particle)) (h : pls.length < 2 ^ 16) :
    parseParticleLists rot flag pls =
      pls.foldl (listStep rot flag)
        { m_p4List := [], usedMdstSources := [], nParticlesInAllLists := 0 } := by
  unfold parseParticleLists
  rw [Nat.mod_eq_of_lt h, List.take_length]

theorem daughterStep_count (rot : FourVector → FourVector) (l : List FinalStateParticle)
    (st : ParseState) (k : Nat) :
    l.foldl (daughterStep rot) { st with nParticlesInAllLists := k } =
      { l.foldl (daughterStep rot) st with nParticlesInAllLists := k } := by
  induction l generalizing st with
  | nil => rfl
  | cons x xs ih =>
    simp only [List.foldl_cons]
    have e : daughterStep rot { st with nParticlesInAllLists := k } x =
        { daughterStep rot st x with nParticlesInAllLists := k } := by
      unfold daughterStep
      split_ifs <;> rfl
    rw [e, ih]

/-- The daughters that the duplicate check meets in one particle list. -/
theorem particleList_fold (rot : FourVector → FourVector) (pl : List Particle)
    (st : ParseState) :
    pl.foldl (particleStep rot true) st =
      (daughtersInOrder [pl]).foldl (daughterStep rot) st := by
  unfold daughtersInOrder
  simp only [List.flatten_cons, List.flatten_nil, List.append_nil]
  induction pl generalizing st with
  | nil => rfl
  | cons p ps ih =>
    simp only [List.foldl_cons, List.filter_cons]
    cases hb : (match p.getMCParticle with
        | some mcParticle => mcParticle.isInitial
        | none => false) with
    | true =>
      have e : particleStep rot true st p = st := by
        unfold particleStep
        rw [hb]
        rfl
      rw [e]
      simpa using ih st
    | false =>
      have e : particleStep rot true st p =
          p.getFinalStateDaughters.foldl (daughterStep rot) st := by
        unfold particleStep
        rw [hb]
        rfl
      rw [e]
      simp only [Bool.not_false, if_true, List.flatMap_cons, List.foldl_append]
      exact ih _

theorem daughtersInOrder_cons (pl : List Particle) (pls : List (List Particle)) :
    daughtersInOrder (pl :: pls) = daughtersInOrder [pl] ++ daughtersInOrder pls := by
  unfold daughtersInOrder
  simp [List.filter_append, List.flatMap_append]

theorem parse_fold (rot : FourVector → FourVector) (pls : List (List Particle))
    (st : ParseState) :
    pls.foldl (listStep rot true) st =
      { (daughtersInOrder pls).foldl (daughterStep rot) st with
        nParticlesInAllLists := st.nParticlesInAllLists + (pls.map List.length).sum } := by
  induction pls generalizing st with
  | nil => simp [daughtersInOrder]
  | cons pl pls ih =>
    have e1 : listStep rot true st pl =
        { (daughtersInOrder [pl]).foldl (daughterStep rot) st with
          nParticlesInAllLists := st.nParticlesInAllLists + pl.length } := by
      unfold listStep
      rw [particleList_fold, daughterStep_count]
    have e2 : (daughtersInOrder (pl :: pls)).foldl (daughterStep rot) st =
        (daughtersInOrder pls).foldl (daughterStep rot)
          ((daughtersInOrder [pl]).foldl (daughterStep rot) st) := by
      rw [daughtersInOrder_cons, List.foldl_append]
    simp only [List.foldl_cons]
    rw [ih, e1, daughterStep_count, e2]
    simp [Nat.add_assoc]

theorem daughter_fold (rot : FourVector → FourVector) (l : List FinalStateParticle)
    (st : ParseState) :
    l.foldl (daughterStep rot) st =
      { m_p4List := st.m_p4List ++
          ((firstOccurrences l).filter
            (fun g => !decide (g.getMdstSource ∈ st.usedMdstSources))).map
              (fun g => rot g.get4Vector)
        usedMdstSources := st.usedMdstSources ++
          ((firstOccurrences l).filter
            (fun g => !decide (g.getMdstSource ∈ st.usedMdstSources))).map
              (fun g => g.getMdstSource)
        nParticlesInAllLists := st.nParticlesInAllLists } := by
  induction l generalizing st with
  | nil => simp [firstOccurrences]
  | cons x xs ih =>
    simp only [List.foldl_cons, firstOccurrences]
    rw [ih]
    unfold daughterStep
    split_ifs with hx
    · have e : ∀ L : List FinalStateParticle,
          (x :: L.filter (fun g => g.getMdstSource != x.getMdstSource)).filter
            (fun g => !decide (g.getMdstSource ∈ st.usedMdstSources)) =
          L.filter (fun g => !decide (g.getMdstSource ∈ st.usedMdstSources)) := by
        intro L
        rw [List.filter_cons]
        simp only [hx, decide_True, Bool.not_true, Bool.false_eq_true, if_false,
          List.filter_filter]
        apply List.filter_congr
        intro g _
        by_cases hg : g.getMdstSource = x.getMdstSource
        · simp [hg, hx]
        · simp [hg]
      rw [e]
    · have e : ∀ L : List FinalStateParticle,
          (x :: L.filter (fun g => g.getMdstSource != x.getMdstSource)).filter
            (fun g => !decide (g.getMdstSource ∈ st.usedMdstSources)) =
          x :: L.filter
            (fun g => !decide (g.getMdstSource ∈ st.usedMdstSources ++ [x.getMdstSource])) := by
        intro L
        rw [List.filter_cons]
        simp only [hx, decide_False, Bool.not_false, if_true, List.filter_filter]
        congr 1
        apply List.filter_congr
        intro g _
        by_cases hg : g.getMdstSource = x.getMdstSource
        · simp [hg]
        · simp [hg]
      rw [e]
      simp

theorem firstOccurrences_sublist (l : List FinalStateParticle) :
    (firstOccurrences l).Sublist l := by
  induction l with
  | nil => exact List.Sublist.slnil
  | cons x xs ih =>
    simp only [firstOccurrences]
    exact List.Sublist.cons₂ x ((List.filter_sublist _).trans ih)

theorem firstOccurrences_nodup (l : List FinalStateParticle) :
    ((firstOccurrences l).map (fun g => g.getMdstSource)).Nodup := by
  induction l with
  | nil => simp [firstOccurrences]
  | cons x xs ih =>
    simp only [firstOccurrences, List.map_cons, List.nodup_cons]
    constructor
    · intro hmem
      rw [List.mem_map] at hmem
      obtain ⟨g, hg, hgx⟩ := hmem
      have := (List.mem_filter.mp hg).2
      simp only [bne_iff_ne, ne_eq] at this
      exact this hgx
    · exact ih.sublist ((List.filter_sublist _).map _)

theorem firstOccurrences_covers (l : List FinalStateParticle) (g : FinalStateParticle)
    (hg : g ∈ l) :
    g.getMdstSource ∈ (firstOccurrences l).map (fun k => k.getMdstSource) := by
  induction l with
  | nil => simp at hg
  | cons x xs ih =>
    simp only [firstOccurrences, List.map_cons, List.mem_cons]
    by_cases hx : g.getMdstSource = x.getMdstSource
    · exact Or.inl hx
    · right
      rcases List.mem_cons.mp hg with h | h
      · exact absurd (by rw [h]) hx
      · have := ih h
        rw [List.mem_map] at this ⊢
        obtain ⟨k, hk, hkg⟩ := this
        refine ⟨k, List.mem_filter.mpr ⟨hk, ?_⟩, hkg⟩
        simp only [bne_iff_ne, ne_eq]
        rw [hkg]
        exact hx

theorem firstOccurrences_first (l : List FinalStateParticle) (k : FinalStateParticle)
    (hk : k ∈ firstOccurrences l) :
    l.find? (fun g => g.getMdstSource == k.getMdstSource) = some k := by
  induction l with
  | nil => simp [firstOccurrences] at hk
  | cons x xs ih =>
    simp only [firstOccurrences, List.mem_cons] at hk
    rcases hk with h | h
    · rw [h]
      simp
    · have hm := List.mem_filter.mp h
      have hne : k.getMdstSource ≠ x.getMdstSource := by simpa using hm.2
      rw [List.find?_cons]
      have : (x.getMdstSource == k.getMdstSource) = false := by
        simpa using fun e => hne e.symm
      rw [this]
      exact ih hm.1

/-! ## Claims on the event shape calculator -/

/-- C19: whatever the enable flags are, after the module was initialised
`m_enableJets` implies `m_enableThrust`: the thrust flag becomes true when
jets were enabled, and keeps its value otherwise; every other flag keeps its
value. The function is total, its warnings are only logged. -/
theorem initializeModule_jets_imply_thrust (f : Flags) :
    ((initializeModule f).1.m_enableJets = true → (initializeModule f).1.m_enableThrust = true) ∧
    (initializeModule f).1.m_enableThrust = (f.m_enableThrust || f.m_enableJets) ∧
    (initializeModule f).1.m_enableJets = f.m_enableJets ∧
    (initializeModule f).1.m_enableCollisionAxis = f.m_enableCollisionAxis ∧
    (initializeModule f).1.m_enableFW = f.m_enableFW ∧
    (initializeModule f).1.m_enableHarmonicMoments = f.m_enableHarmonicMoments ∧
    (initializeModule f).1.m_enableSphericity = f.m_enableSphericity ∧
    (initializeModule f).1.m_enableCleoCones = f.m_enableCleoCones ∧
    (initializeModule f).1.m_enableAllMoments = f.m_enableAllMoments ∧
    (initializeModule f).1.m_checkForDuplicates = f.m_checkForDuplicates := by
  obtain ⟨thrust, axis, fw, harmonic, jets, sph, cleo, allm, dup⟩ := f
  cases thrust <;> cases axis <;> cases harmonic <;> cases jets <;> cases cleo <;>
    simp [initializeModule]

/-- Witness for C19: with jets enabled and thrust disabled, thrust is
switched on and nothing else changes. -/
theorem initializeModule_jets_imply_thrust_witness :
    (initializeModule jetsOnly).1 = { jetsOnly with m_enableThrust := true } ∧
    ((initializeModule jetsOnly).1.m_enableJets = true →
      (initializeModule jetsOnly).1.m_enableThrust = true) :=
  ⟨by decide, (initializeModule_jets_imply_thrust jetsOnly).1⟩

/-- C20: with `m_checkForDuplicates` set and fewer than 2^16 list names,
the momentum list after `parseParticleLists` holds the boosted four-momenta
of the first occurrences among the final-state daughters of the non-initial
particles, met list by list and particle by particle. The first occurrences
keep the order of the daughters, no `mdstSource` occurs twice among them,
every `mdstSource` of a daughter occurs among them, and each of them is the
first daughter that has its `mdstSource`. -/
theorem parseParticleLists_first_occurrences (rotateLabToCms : FourVector → FourVector)
    (particleLists : List (List Particle)) (hlists : particleLists.length < 2 ^ 16) :
    (parseParticleLists rotateLabToCms true particleLists).m_p4List =
      (firstOccurrences (daughtersInOrder particleLists)).map
        (fun g => rotateLabToCms g.get4Vector) ∧
    (firstOccurrences (daughtersInOrder particleLists)).Sublist
      (daughtersInOrder particleLists) ∧
    ((firstOccurrences (daughtersInOrder particleLists)).map
      (fun g => g.getMdstSource)).Nodup ∧
    (∀ g ∈ daughtersInOrder particleLists,
      g.getMdstSource ∈ (firstOccurrences (daughtersInOrder particleLists)).map
        (fun k => k.getMdstSource)) ∧
    (∀ k ∈ firstOccurrences (daughtersInOrder particleLists),
      (daughtersInOrder particleLists).find?
        (fun g => g.getMdstSource == k.getMdstSource) = some k) := by
  refine ⟨?_, firstOccurrences_sublist _, firstOccurrences_nodup _,
    firstOccurrences_covers _, firstOccurrences_first _⟩
  rw [parseParticleLists_of_lt _ _ _ hlists, parse_fold, daughter_fold]
  simp

/-- Witness for C20: on `overlappingLists` the daughters are met with the
sources 1, 2, 2, 3, and the momentum list holds the first occurrences, with
the sources 1, 2, 3. -/
theorem parseParticleLists_first_occurrences_witness :
    overlappingLists.length < 2 ^ 16 ∧
    (daughtersInOrder overlappingLists).map (fun g => g.getMdstSource) = [1, 2, 2, 3] ∧
    (firstOccurrences (daughtersInOrder overlappingLists)).map (fun g => g.getMdstSource) =
      [1, 2, 3] ∧
    (parseParticleLists (fun v => v) true overlappingLists).m_p4List =
      (firstOccurrences (daughtersInOrder overlappingLists)).map (fun g => g.get4Vector) :=
  ⟨by decide, by decide, by decide,
   (parseParticleLists_first_occurrences (fun v => v) overlappingLists (by decide)).1⟩

/-! ## Facts on the counter of `parseParticleLists` -/

theorem daughterFold_counter (rot : FourVector → FourVector) (l : List FinalStateParticle)
    (st : ParseState) :
    (l.foldl (daughterStep rot) st).nParticlesInAllLists = st.nParticlesInAllLists := by
  induction l generalizing st with
  | nil => rfl
  | cons x xs ih =>
    simp only [List.foldl_cons]
    rw [ih]
    unfold daughterStep
    split_ifs <;> rfl

theorem particleStep_counter (rot : FourVector → FourVector) (flag : Bool) (st : ParseState)
    (part : Particle) :
    (particleStep rot flag st part).nParticlesInAllLists = st.nParticlesInAllLists := by
  unfold particleStep
  split_ifs
  · rfl
  · exact daughterFold_counter rot _ st
  · rfl

theorem particleFold_counter (rot : FourVector → FourVector) (flag : Bool) (pl : List Particle)
    (st : ParseState) :
    (pl.foldl (particleStep rot flag) st).nParticlesInAllLists = st.nParticlesInAllLists := by
  induction pl generalizing st with
  | nil => rfl
  | cons p ps ih =>
    simp only [List.foldl_cons]
    rw [ih, particleStep_counter]

theorem listFold_counter (rot : FourVector → FourVector) (flag : Bool)
    (pls : List (List Particle)) (st : ParseState) :
    (pls.foldl (listStep rot flag) st).nParticlesInAllLists =
      st.nParticlesInAllLists + (pls.map List.length).sum := by
  induction pls generalizing st with
  | nil => simp
  | cons pl pls ih =>
    simp only [List.foldl_cons, List.map_cons, List.sum_cons]
    rw [ih]
    unfold listStep
    rw [particleFold_counter]
    simp [Nat.add_assoc]

theorem particleFold_length (rot : FourVector → FourVector) (pl : List Particle)
    (st : ParseState) :
    (pl.foldl (particleStep rot false) st).m_p4List.length ≤ st.m_p4List.length + pl.length := by
  induction pl generalizing st with
  | nil => simp
  | cons p ps ih =>
    simp only [List.foldl_cons, List.length_cons]
    have h1 := ih (particleStep rot false st p)
    have h2 : (particleStep rot false st p).m_p4List.length ≤ st.m_p4List.length + 1 := by
      unfold particleStep
      split_ifs <;>
        first
          | omega
          | (simp only [List.length_append, List.length_singleton]; omega)
          | simp_all
    omega

theorem listFold_length (rot : FourVector → FourVector) (pls : List (List Particle))
    (st : ParseState) :
    (pls.foldl (listStep rot false) st).m_p4List.length ≤
      st.m_p4List.length + (pls.map List.length).sum := by
  induction pls generalizing st with
  | nil => simp
  | cons pl pls ih =>
    simp only [List.foldl_cons, List.map_cons, List.sum_cons]
    have h1 := ih (listStep rot false st pl)
    have h2 : (listStep rot false st pl).m_p4List.length ≤ st.m_p4List.length + pl.length := by
      unfold listStep
      exact particleFold_length rot pl _
    omega

/-! ## Claim on the returned count -/

/-- C29: for fewer than 2^16 list names and fewer than 2^31 particles in all
lists, `parseParticleLists` returns the sum of the sizes of the lists,
whether or not duplicates are checked and whatever particles are skipped;
with `checkForDuplicates` disabled the momentum list is not longer than the
returned count; and for a list whose only particle has an initial MC
particle the returned count is 1 while the momentum list is empty. -/
theorem parseParticleLists_returns_list_sizes (rotateLabToCms : FourVector → FourVector)
    (m_checkForDuplicates : Bool) (particleLists : List (List Particle))
    (hlists : particleLists.length < 2 ^ 16)
    (hsum : (particleLists.map List.length).sum < 2 ^ 31) :
    parseParticleListsReturn rotateLabToCms m_checkForDuplicates particleLists =
      (((particleLists.map List.length).sum : Nat) : Int) ∧
    (parseParticleLists rotateLabToCms m_checkForDuplicates
      particleLists).nParticlesInAllLists = (particleLists.map List.length).sum ∧
    (parseParticleLists rotateLabToCms false particleLists).m_p4List.length ≤
      (particleLists.map List.length).sum ∧
    parseParticleListsReturn rotateLabToCms m_checkForDuplicates initialOnly = 1 ∧
    (parseParticleLists rotateLabToCms m_checkForDuplicates initialOnly).m_p4List = [] := by
  have hcount : ∀ pls : List (List Particle), pls.length < 2 ^ 16 →
      (parseParticleLists rotateLabToCms m_checkForDuplicates pls).nParticlesInAllLists =
        (pls.map List.length).sum := by
    intro pls hpls
    rw [parseParticleLists_of_lt _ _ _ hpls, listFold_counter]
    simp
  refine ⟨?_, hcount _ hlists, ?_, ?_, ?_⟩
  · unfold parseParticleListsReturn
    rw [hcount _ hlists]
    unfold toInt
    have h32 : (particleLists.map List.length).sum % 2 ^ 32 =
        (particleLists.map List.length).sum := Nat.mod_eq_of_lt (by omega)
    rw [h32, if_pos hsum]
  · have := listFold_length rotateLabToCms particleLists
      { m_p4List := [], usedMdstSources := [], nParticlesInAllLists := 0 }
    rw [parseParticleLists_of_lt _ _ _ hlists]
    simpa using this
  · unfold parseParticleListsReturn
    rw [hcount _ (by decide)]
    decide
  · rw [parseParticleLists_of_lt _ _ _ (by decide)]
    cases m_checkForDuplicates <;> rfl

/-- Witness for C29: the two lists of `overlappingLists` hold two particles
and one particle; the returned count is 3 with and without the duplicate
check, and without it the momentum list has two entries, the particle with
an initial MC particle being skipped. -/
theorem parseParticleLists_returns_list_sizes_witness :
    overlappingLists.length < 2 ^ 16 ∧
    (overlappingLists.map List.length).sum < 2 ^ 31 ∧
    parseParticleListsReturn id true overlappingLists = 3 ∧
    parseParticleListsReturn id false overlappingLists = 3 ∧
    (parseParticleLists id false overlappingLists).m_p4List.length = 2 :=
  ⟨by decide, by decide,
   (parseParticleLists_returns_list_sizes id true overlappingLists (by decide) (by decide)).1,
   (parseParticleLists_returns_list_sizes id false overlappingLists (by decide) (by decide)).1,
   by decide⟩

end EventShapeCalculator

namespace EventT0

/-! ## Facts on lists used for `EventT0` -/

theorem exists_of_getLast? {α : Type} (l : List α) (a : α) (h : l.getLast? = some a) :
    ∃ pre, l = pre ++ [a] := by
  induction l using List.reverseRecOn with
  | nil => simp at h
  | append_singleton l b _ =>
    rw [List.getLast?_append] at h
    simp at h
    exact ⟨l, by rw [h]⟩

theorem split_of_filter_eq_concat {α : Type} (p : α → Bool) (l pre : List α) (c : α)
    (h : l.filter p = pre ++ [c]) :
    ∃ before after, l = before ++ c :: after ∧ p c = true ∧ ∀ x ∈ after, p x = false := by
  induction l using List.reverseRecOn with
  | nil => simp at h
  | append_singleton l x ih =>
    rw [List.filter_append] at h
    cases hx : p x with
    | true =>
      simp only [List.filter_cons, hx, if_true, List.filter_nil] at h
      have := List.append_inj' h rfl
      simp only [List.cons.injEq, and_true] at this
      refine ⟨l, [], ?_, ?_, by simp⟩
      · rw [this.2]
      · rw [← this.2]
        exact hx
    | false =>
      simp only [List.filter_cons, hx, Bool.false_eq_true, if_false, List.filter_nil,
        List.append_nil] at h
      obtain ⟨before, after, h1, h2, h3⟩ := ih h
      refine ⟨before, after ++ [x], ?_, h2, ?_⟩
      · rw [h1]
        simp
      · intro y hy
        rcases List.mem_append.mp hy with hy | hy
        · exact h3 y hy
        · rw [List.mem_singleton.mp hy]
          exact hx

theorem getBestLast_value (e : Object) (detector : EDetector) (c : EventT0Component)
    (h : getBestLastTemporaryEventT0 e detector = some (some c)) :
    ∃ before after, e.m_temporaryEventT0List = before ++ c :: after ∧
      c.detectorSet.contains [detector] = true ∧
      ∀ x ∈ after, x.detectorSet.contains [detector] = false := by
  unfold getBestLastTemporaryEventT0 at h
  split_ifs at h with hh
  · cases hl : (getTemporaryEventT0s e detector).getLast? with
    | none => rw [hl] at h; simp at h
    | some c' =>
      rw [hl] at h
      simp only [Option.some.injEq] at h
      subst h
      obtain ⟨pre, hpre⟩ := exists_of_getLast? _ _ hl
      exact split_of_filter_eq_concat _ _ _ _ hpre
  · simp at h

theorem getBestLast_none (e : Object) (detector : EDetector)
    (h : hasTemporaryEventT0 e [detector] = false) :
    getBestLastTemporaryEventT0 e detector = some none := by
  unfold getBestLastTemporaryEventT0
  rw [h]
  rfl

theorem doubleLE_false_of_lt (a b c : Option ℚ) (hab : doubleLE a b = false)
    (hcb : doubleLT c b = true) : doubleLE a c = false := by
  cases a <;> cases b <;> cases c <;> simp [doubleLE, doubleLT] at *
  exact lt_trans hcb hab

theorem doubleLE_false_of_lt_self (b c : Option ℚ) (hcb : doubleLT c b = true) :
    doubleLE b c = false := by
  cases b <;> cases c <;> simp [doubleLE, doubleLT] at *
  exact hcb

theorem doubleLE_false_of_not_lt (a b c : Option ℚ) (hab : doubleLT a b = false)
    (hcb : doubleLT c b = true) : doubleLE a c = false := by
  cases a <;> cases b <;> cases c <;> simp [doubleLE, doubleLT] at *
  exact lt_of_lt_of_le hcb hab

theorem minFold_spec (cs pre : List EventT0Component) (s : EventT0Component)
    (post : List EventT0Component) (h : MinInv pre s post) :
    ∃ pre' post', pre ++ s :: post ++ cs =
        pre' ++ (cs.foldl (fun smallest c1 =>
          if doubleLT c1.quality smallest.quality then c1 else smallest) s) :: post' ∧
      MinInv pre' (cs.foldl (fun smallest c1 =>
          if doubleLT c1.quality smallest.quality then c1 else smallest) s) post' := by
  induction cs generalizing pre s post with
  | nil => exact ⟨pre, post, by simp, h⟩
  | cons y ys ih =>
    simp only [List.foldl_cons]
    cases hy : doubleLT y.quality s.quality with
    | true =>
      simp only [if_true]
      have hinv : MinInv (pre ++ s :: post) y [] := by
        refine ⟨?_, by simp⟩
        intro x hx
        rcases List.mem_append.mp hx with hx | hx
        · exact doubleLE_false_of_lt _ _ _ (h.1 x hx) hy
        · rcases List.mem_cons.mp hx with hx | hx
          · rw [hx]
            exact doubleLE_false_of_lt_self _ _ hy
          · exact doubleLE_false_of_not_lt _ _ _ (h.2 x hx) hy
      obtain ⟨pre', post', e, hi⟩ := ih (pre ++ s :: post) y [] hinv
      exact ⟨pre', post', by rw [← e]; simp, hi⟩
    | false =>
      simp only [Bool.false_eq_true, if_false]
      have hinv : MinInv pre s (post ++ [y]) := by
        refine ⟨h.1, ?_⟩
        intro x hx
        rcases List.mem_append.mp hx with hx | hx
        · exact h.2 x hx
        · rw [List.mem_singleton.mp hx]
          exact hy
      obtain ⟨pre', post', e, hi⟩ := ih pre s (post ++ [y]) hinv
      exact ⟨pre', post', by rw [← e]; simp, hi⟩

theorem minQualityElement_spec (l : List EventT0Component) (c : EventT0Component)
    (h : minQualityElement l = some c) :
    ∃ pre post, l = pre ++ c :: post ∧ MinInv pre c post := by
  cases l with
  | nil => simp [minQualityElement] at h
  | cons c0 cs =>
    simp only [minQualityElement, Option.some.injEq] at h
    obtain ⟨pre', post', e, hi⟩ := minFold_spec cs [] c0 [] ⟨by simp, by simp⟩
    rw [h] at e hi
    exact ⟨pre', post', by simpa using e, hi⟩

/-! ## Claims on `EventT0` -/

/-- C21, at the failing input: after `setEventT0` and `clearEventT0` no
final T0 is set, and `getEventT0Uncertainty` returns the uncertainty that
was set before, whatever it was; for the uncertainty 1/2 it returns 1/2, not
`NAN`. The function reads `m_eventT0` without looking at `m_hasEventT0`. -/
theorem getEventT0Uncertainty_after_clear :
    (∀ (e : Object) (eventT0 eventT0Uncertainty : Option ℚ) (detector : DetectorSet)
        (algorithm : String),
      hasEventT0 (clearEventT0 (setEventT0 e eventT0 eventT0Uncertainty detector algorithm)) =
        false ∧
      getEventT0Uncertainty
        (clearEventT0 (setEventT0 e eventT0 eventT0Uncertainty detector algorithm)) =
          eventT0Uncertainty) ∧
    getEventT0Uncertainty
      (clearEventT0 (setEventT0 emptyObject (some 1) (some (1 / 2)) [EDetector.CDC] "")) =
        some (1 / 2) ∧
    getEventT0Uncertainty
      (clearEventT0 (setEventT0 emptyObject (some 1) (some (1 / 2)) [EDetector.CDC] "")) ≠
        none :=
  ⟨fun _ _ _ _ _ => ⟨rfl, rfl⟩, rfl, by simp [getEventT0Uncertainty, clearEventT0, setEventT0,
    setEventT0Component]⟩

/-- C22, at the failing input: for an object on which no final T0 is set,
`getEventT0` ends the program where assertions are compiled in; where they
are compiled out it returns the stored value, which after `setEventT0` and
`clearEventT0` is the value set before. In neither case does the call after
`setEventT0` with the value 1 and `clearEventT0` return `NAN`. -/
theorem getEventT0_without_final_t0 :
    (∀ e : Object, hasEventT0 e = false → getEventT0 true e = none) ∧
    getEventT0 true emptyObject = none ∧
    (∀ assertionsEnabled : Bool,
      getEventT0 assertionsEnabled
        (clearEventT0 (setEventT0 emptyObject (some 1) (some (1 / 2)) [EDetector.CDC] "")) ≠
          some none) := by
  refine ⟨?_, rfl, ?_⟩
  · intro e h
    simp [getEventT0, h]
  · intro b
    cases b <;> simp [getEventT0, hasEventT0, clearEventT0, setEventT0, setEventT0Component]

/-- C23: whenever `getBestSVDTemporaryEventT0` returns a value, the
temporary list splits around that value so that the value has the SVD in its
detector set and no temporary inserted after it has; and the function
returns no value when `hasTemporaryEventT0` of the SVD is false. The same
holds of the CDC and TOP variants. -/
theorem getBestTemporaryEventT0_is_last (e : Object) :
    ((∀ c, getBestSVDTemporaryEventT0 e = some (some c) →
        ∃ before after, e.m_temporaryEventT0List = before ++ c :: after ∧
          c.detectorSet.contains [EDetector.SVD] = true ∧
          ∀ x ∈ after, x.detectorSet.contains [EDetector.SVD] = false) ∧
      (hasTemporaryEventT0 e [EDetector.SVD] = false →
        getBestSVDTemporaryEventT0 e = some none)) ∧
    ((∀ c, getBestCDCTemporaryEventT0 e = some (some c) →
        ∃ before after, e.m_temporaryEventT0List = before ++ c :: after ∧
          c.detectorSet.contains [EDetector.CDC] = true ∧
          ∀ x ∈ after, x.detectorSet.contains [EDetector.CDC] = false) ∧
      (hasTemporaryEventT0 e [EDetector.CDC] = false →
        getBestCDCTemporaryEventT0 e = some none)) ∧
    ((∀ c, getBestTOPTemporaryEventT0 e = some (some c) →
        ∃ before after, e.m_temporaryEventT0List = before ++ c :: after ∧
          c.detectorSet.contains [EDetector.TOP] = true ∧
          ∀ x ∈ after, x.detectorSet.contains [EDetector.TOP] = false) ∧
      (hasTemporaryEventT0 e [EDetector.TOP] = false →
        getBestTOPTemporaryEventT0 e = some none)) :=
  ⟨⟨getBestLast_value e _, getBestLast_none e _⟩,
   ⟨getBestLast_value e _, getBestLast_none e _⟩,
   ⟨getBestLast_value e _, getBestLast_none e _⟩⟩

/-- Witness for C23: in `sampleObject` the only SVD temporary is returned,
and there is no CDC temporary. -/
theorem getBestTemporaryEventT0_is_last_witness :
    getBestSVDTemporaryEventT0 sampleObject = some (some (mkTemporary [EDetector.SVD] none)) ∧
    (∃ before after, sampleObject.m_temporaryEventT0List =
        before ++ mkTemporary [EDetector.SVD] none :: after ∧
      (mkTemporary [EDetector.SVD] none).detectorSet.contains [EDetector.SVD] = true ∧
      ∀ x ∈ after, x.detectorSet.contains [EDetector.SVD] = false) ∧
    hasTemporaryEventT0 sampleObject [EDetector.CDC] = false ∧
    getBestCDCTemporaryEventT0 sampleObject = some none :=
  ⟨by decide,
   (getBestTemporaryEventT0_is_last sampleObject).1.1 _ (by decide),
   by decide,
   (getBestTemporaryEventT0_is_last sampleObject).2.1.2 (by decide)⟩

/-- C24: whenever `getBestECLTemporaryEventT0` returns a value, the
temporaries whose detector set contains the ECL split around that value so
that no other of them has a quality less than the value's, and none of those
inserted before it has a quality less than or equal to the value's. -/
theorem getBestECLTemporaryEventT0_is_first_minimum (e : Object) (c : EventT0Component)
    (h : getBestECLTemporaryEventT0 e = some (some c)) :
    c.detectorSet.contains [EDetector.ECL] = true ∧
    ∃ pre post, getTemporaryEventT0s e EDetector.ECL = pre ++ c :: post ∧
      (∀ x ∈ pre ++ post, doubleLT x.quality c.quality = false) ∧
      (∀ x ∈ pre, doubleLE x.quality c.quality = false) := by
  unfold getBestECLTemporaryEventT0 at h
  split_ifs at h with hh
  · cases hm : minQualityElement (getTemporaryEventT0s e EDetector.ECL) with
    | none => rw [hm] at h; simp at h
    | some c' =>
      rw [hm] at h
      simp only [Option.some.injEq] at h
      subst h
      obtain ⟨pre, post, e1, hpre, hpost⟩ := minQualityElement_spec _ _ hm
      have hc : c' ∈ getTemporaryEventT0s e EDetector.ECL := by
        rw [e1]
        simp
      refine ⟨(List.mem_filter.mp hc).2, pre, post, e1, ?_, hpre⟩
      intro x hx
      rcases List.mem_append.mp hx with hx | hx
      · have := hpre x hx
        cases hq : x.quality <;> cases hq' : c'.quality <;>
          simp [doubleLE, doubleLT, hq, hq'] at this ⊢
        exact le_of_lt this
      · exact hpost x hx
  · simp at h

/-- Witness for C24: of the three ECL temporaries of `sampleObject`, with
the qualities 3, 2, 2, the first one of quality 2 is returned. -/
theorem getBestECLTemporaryEventT0_is_first_minimum_witness :
    getBestECLTemporaryEventT0 sampleObject =
      some (some (mkTemporary [EDetector.ECL] (some 2))) ∧
    ∃ pre post, getTemporaryEventT0s sampleObject EDetector.ECL =
        pre ++ mkTemporary [EDetector.ECL] (some 2) :: post ∧
      (∀ x ∈ pre ++ post,
        doubleLT x.quality (mkTemporary [EDetector.ECL] (some 2)).quality = false) ∧
      (∀ x ∈ pre, doubleLE x.quality (mkTemporary [EDetector.ECL] (some 2)).quality = false) :=
  have h : getBestECLTemporaryEventT0 sampleObject =
      some (some (mkTemporary [EDetector.ECL] (some 2))) := by
    decide
  ⟨h, (getBestECLTemporaryEventT0_is_first_minimum sampleObject _ h).2⟩

/-- C28, at the failing input: for an object whose only temporary has an
empty detector set, `hasTemporaryEventT0` of the SVD is true, since every
set includes the empty set, while `getTemporaryEventT0s` of the SVD is
empty; `getBestSVDTemporaryEventT0` then takes the last element of an empty
vector. The same happens for the CDC, the TOP and the ECL. -/
theorem getBestTemporaryEventT0_empty_detector_set :
    hasTemporaryEventT0 emptySetObject [EDetector.SVD] = true ∧
    getTemporaryEventT0s emptySetObject EDetector.SVD = [] ∧
    getBestSVDTemporaryEventT0 emptySetObject = none ∧
    getBestCDCTemporaryEventT0 emptySetObject = none ∧
    getBestTOPTemporaryEventT0 emptySetObject = none ∧
    getBestECLTemporaryEventT0 emptySetObject = none := by
  decide

end EventT0
